import Mathlib

/-!
# scsisim: GSM SIM access through SCSI-generic card readers

A shallow embedding of the pure parts of the scsisim library
(`sim.c`, `gsm.c`, `utils.c`) together with theorems about them.

Conventions of the embedding

* A C byte (`uint8_t`) is a `Nat`; theorems that depend on the range carry the
  hypothesis that every byte is `< 256`.
* A C buffer passed as pointer plus length is a `List Nat` whose length is the
  length argument.  A possibly-`NULL` pointer is an `Option`.
* `unsigned int` arithmetic that can wrap is written with an explicit `% 2 ^ 32`.
* A function that reads a buffer by index returns an `Option`: `none` means that
  the C code would have read outside the slice it was given.
-/

namespace Scsisim

/-! ## Return codes (`scsisim.h`) -/

abbrev SCSISIM_SUCCESS : Int := 0
abbrev SCSISIM_SCSI_NO_SENSE_DATA : Int := -9
abbrev SCSISIM_SCSI_UNKNOWN_SENSE_DATA : Int := -10
abbrev SCSISIM_INVALID_GSM_RESPONSE : Int := -14
abbrev SCSISIM_GSM_ERROR_PARAM_3 : Int := -20
abbrev SCSISIM_GSM_ERROR_PARAM_1_OR_2 : Int := -21
abbrev SCSISIM_GSM_UNKNOWN_INSTRUCTION : Int := -22
abbrev SCSISIM_GSM_WRONG_INSTRUCTION_CLASS : Int := -23
abbrev SCSISIM_GSM_TECHNICAL_PROBLEM : Int := -24
abbrev SCSISIM_GSM_MEMORY_ERROR : Int := -25
abbrev SCSISIM_GSM_BUSY : Int := -26
abbrev SCSISIM_GSM_NO_EF_SELECTED : Int := -27
abbrev SCSISIM_GSM_INVALID_ADDRESS : Int := -28
abbrev SCSISIM_GSM_FILE_NOT_FOUND : Int := -29
abbrev SCSISIM_GSM_FILE_INCONSISTENT_WITH_COMMAND : Int := -30
abbrev SCSISIM_GSM_UNKNOWN_SW1 : Int := -31
abbrev SCSISIM_GSM_UNKNOWN_SW2 : Int := -32
abbrev SCSISIM_GSM_NO_CHV_INITIALIZED : Int := -33
abbrev SCSISIM_GSM_CHV_VERIFICATION_FAILED : Int := -34
abbrev SCSISIM_GSM_CHV_STATUS_CONTRADICTION : Int := -35
abbrev SCSISIM_GSM_INVALIDATION_STATUS_CONTRADICTION : Int := -36
abbrev SCSISIM_GSM_CHV_BLOCKED : Int := -37
abbrev SCSISIM_GSM_INCREASE_FAILED : Int := -38
abbrev SCSISIM_GSM_SECURITY_ERROR : Int := -39

/-! ## Sense-word translator (`sim.c`) -/

/-- Modelled from the spec: the device profile.  The table `sim_devices[]` lives in
`device.h`, which is not among the sources; of each profile the sense translator uses
only the three byte offsets into the sense buffer (sense-type, ASC and ASCQ byte).
They index a sense buffer whose length is an 8-bit count, so `offset + 1u` cannot wrap. -/
structure sim_device where
  sense_type_offset : Nat
  sense_asc_offset : Nat
  sense_ascq_offset : Nat

/-- The inner `switch` on the ASCQ byte (SW2) for ASC `0x90`. -/
def sw2_0x90 (ascq : Nat) : Int :=
  if ascq = 0x00 then SCSISIM_SUCCESS else SCSISIM_GSM_UNKNOWN_SW2

/-- The inner `switch` on the ASCQ byte (SW2) for ASC `0x92`. -/
def sw2_0x92 (ascq : Nat) : Int :=
  if ascq = 0x40 then SCSISIM_GSM_MEMORY_ERROR else SCSISIM_SUCCESS

/-- The inner `switch` on the ASCQ byte (SW2) for ASC `0x94`. -/
def sw2_0x94 (ascq : Nat) : Int :=
  if ascq = 0x00 then SCSISIM_GSM_NO_EF_SELECTED
  else if ascq = 0x02 then SCSISIM_GSM_INVALID_ADDRESS
  else if ascq = 0x04 then SCSISIM_GSM_FILE_NOT_FOUND
  else if ascq = 0x08 then SCSISIM_GSM_FILE_INCONSISTENT_WITH_COMMAND
  else SCSISIM_GSM_UNKNOWN_SW2

/-- The inner `switch` on the ASCQ byte (SW2) for ASC `0x98`. -/
def sw2_0x98 (ascq : Nat) : Int :=
  if ascq = 0x02 then SCSISIM_GSM_NO_CHV_INITIALIZED
  else if ascq = 0x04 then SCSISIM_GSM_CHV_VERIFICATION_FAILED
  else if ascq = 0x08 then SCSISIM_GSM_CHV_STATUS_CONTRADICTION
  else if ascq = 0x10 then SCSISIM_GSM_INVALIDATION_STATUS_CONTRADICTION
  else if ascq = 0x40 then SCSISIM_GSM_CHV_BLOCKED
  else if ascq = 0x50 then SCSISIM_GSM_INCREASE_FAILED
  else SCSISIM_GSM_SECURITY_ERROR

/-- The function `sim_process_scsi_sense` of `sim.c`.  `sense` is the slice of `len`
transferred sense bytes (`len = sense.length`); `verbose` is the global diagnostic
flag, which makes the `default` arm read the ASC and ASCQ bytes once more for its
message.  The ASCQ byte is read only in the arms that inspect it, as in the source.
`none` stands for a read outside the slice. -/
def sim_process_scsi_sense (verbose : Bool) (device : sim_device) (sense : List Nat) :
    Option Int :=
  if sense.length < device.sense_ascq_offset + 1 then
    some SCSISIM_SCSI_NO_SENSE_DATA
  else
    match sense[device.sense_type_offset]? with
    | none => none
    | some ty =>
      if ty ≠ 0x70 then some SCSISIM_SCSI_UNKNOWN_SENSE_DATA
      else
        match sense[device.sense_asc_offset]? with
        | none => none
        | some asc =>
          if asc = 0x67 then some SCSISIM_GSM_ERROR_PARAM_3
          else if asc = 0x6b then some SCSISIM_GSM_ERROR_PARAM_1_OR_2
          else if asc = 0x6d then some SCSISIM_GSM_UNKNOWN_INSTRUCTION
          else if asc = 0x6e then some SCSISIM_GSM_WRONG_INSTRUCTION_CLASS
          else if asc = 0x6f then some SCSISIM_GSM_TECHNICAL_PROBLEM
          else if asc = 0x90 then (sense[device.sense_ascq_offset]?).map sw2_0x90
          else if asc = 0x92 then (sense[device.sense_ascq_offset]?).map sw2_0x92
          else if asc = 0x93 then some SCSISIM_GSM_BUSY
          else if asc = 0x94 then (sense[device.sense_ascq_offset]?).map sw2_0x94
          else if asc = 0x98 then (sense[device.sense_ascq_offset]?).map sw2_0x98
          else if asc = 0x91 ∨ asc = 0x9e ∨ asc = 0x9f then
            (sense[device.sense_ascq_offset]?).map fun ascq => (ascq : Int)
          else if verbose then
            (sense[device.sense_asc_offset]?).bind fun _ =>
              (sense[device.sense_ascq_offset]?).map fun _ => SCSISIM_GSM_UNKNOWN_SW1
          else some SCSISIM_GSM_UNKNOWN_SW1

/-! ## GSM response parser (`gsm.c`, `gsm.h`, `scsisim.h`) -/

/-- GET RESPONSE command constants (the anonymous `enum` of `scsisim.h`). -/
abbrev SELECT_EF : Int := 1
abbrev SELECT_MF_DF : Int := 2
abbrev RUN_GSM_ALGORITHM : Int := 3
abbrev SEEK : Int := 4
abbrev INCREASE : Int := 5
abbrev ENVELOPE : Int := 6

/-- Minimum length of GET RESPONSE data after selecting an EF. -/
abbrev GSM_MIN_EF_RESPONSE_LEN : Nat := 15
/-- Minimum length of GET RESPONSE data after selecting an MF or DF. -/
abbrev GSM_MIN_MF_DF_RESPONSE_LEN : Nat := 22

/-- The `struct GSM_MF_DF`: fields for master file and directory files. -/
structure GSM_MF_DF where
  file_memory : Nat
  file_id : Nat
  file_type : Nat
  characteristics : Nat
  CHV1_enabled : Bool
  df_children : Nat
  ef_children : Nat
  num_chvs : Nat
  CHV1_initialized : Bool
  CHV1_attempts_remaining : Nat
  CHV1_unblock_attempts_remaining : Nat
  CHV2_initialized : Bool
  CHV2_attempts_remaining : Nat
  CHV2_unblock_attempts_remaining : Nat

/-- The `struct GSM_EF`: fields for elementary files.  The C field `structure` is
named `structure_code` here, `structure` being a reserved word. -/
structure GSM_EF where
  file_size : Nat
  file_id : Nat
  file_type : Nat
  status : Nat
  structure_code : Nat
  record_len : Nat

/-- The `union` inside `struct GSM_response`, as a sum of its two arms. -/
inductive GSM_type where
  | mf_df (d : GSM_MF_DF)
  | ef (d : GSM_EF)

/-- The `struct GSM_response`: the caller-declared command tag and the union. -/
structure GSM_response where
  command : Int
  type : GSM_type

/-- The `case SELECT_EF` arm of `gsm_parse_response`: every field of the EF arm is
assigned, in source order.  The two 16-bit fields are stored through `uint16_t`,
hence `% 2 ^ 16`. -/
def parse_select_ef (response : List Nat) : Option GSM_EF :=
  match response[2]? with
  | none => none
  | some r2 =>
  let file_size := (r2 <<< 8) % 2 ^ 16
  match response[3]? with
  | none => none
  | some r3 =>
  let file_size := (file_size ||| r3) % 2 ^ 16
  match response[4]? with
  | none => none
  | some r4 =>
  let file_id := (r4 <<< 8) % 2 ^ 16
  match response[5]? with
  | none => none
  | some r5 =>
  let file_id := (file_id ||| r5) % 2 ^ 16
  match response[6]? with
  | none => none
  | some r6 =>
  match response[11]? with
  | none => none
  | some r11 =>
  match response[13]? with
  | none => none
  | some r13 =>
  match response[14]? with
  | none => none
  | some r14 =>
  some { file_size := file_size, file_id := file_id, file_type := r6,
         status := r11, structure_code := r13, record_len := r14 }

/-- The `case SELECT_MF_DF` arm of `gsm_parse_response`: every field of the MF/DF arm
is assigned, in source order. -/
def parse_select_mf_df (response : List Nat) : Option GSM_MF_DF :=
  match response[2]? with
  | none => none
  | some r2 =>
  let file_memory := (r2 <<< 8) % 2 ^ 16
  match response[3]? with
  | none => none
  | some r3 =>
  let file_memory := (file_memory ||| r3) % 2 ^ 16
  match response[4]? with
  | none => none
  | some r4 =>
  let file_id := (r4 <<< 8) % 2 ^ 16
  match response[5]? with
  | none => none
  | some r5 =>
  let file_id := (file_id ||| r5) % 2 ^ 16
  match response[6]? with
  | none => none
  | some r6 =>
  match response[13]? with
  | none => none
  | some r13 =>
  match response[14]? with
  | none => none
  | some r14 =>
  match response[15]? with
  | none => none
  | some r15 =>
  match response[16]? with
  | none => none
  | some r16 =>
  match response[18]? with
  | none => none
  | some r18 =>
  match response[19]? with
  | none => none
  | some r19 =>
  match response[20]? with
  | none => none
  | some r20 =>
  match response[21]? with
  | none => none
  | some r21 =>
  some { file_memory := file_memory, file_id := file_id, file_type := r6,
         characteristics := r13,
         CHV1_enabled := if r13 &&& 0x80 ≠ 0 then false else true,
         df_children := r14, ef_children := r15, num_chvs := r16,
         CHV1_initialized := if r18 &&& 0x80 ≠ 0 then true else false,
         CHV1_attempts_remaining := r18 &&& 0x0f,
         CHV1_unblock_attempts_remaining := r19 &&& 0x0f,
         CHV2_initialized := if r20 &&& 0x80 ≠ 0 then true else false,
         CHV2_attempts_remaining := r20 &&& 0x0f,
         CHV2_unblock_attempts_remaining := r21 &&& 0x0f }

/-- The function `gsm_parse_response` of `gsm.c`.  `response` is the possibly-`NULL`
buffer of `response_len` bytes (`response_len` is the length of the list); `resp` is
the caller's structure, whose `command` field selects the arm.  The result is the
return code together with the structure as the call leaves it; `none` stands for a
read outside the buffer.  The `default` arm only prints a diagnostic. -/
def gsm_parse_response (response : Option (List Nat)) (resp : GSM_response) :
    Option (Int × GSM_response) :=
  match response with
  | none => some (SCSISIM_INVALID_GSM_RESPONSE, resp)
  | some r =>
    if (resp.command = SELECT_EF ∧ r.length < GSM_MIN_EF_RESPONSE_LEN) ∨
        (resp.command = SELECT_MF_DF ∧ r.length < GSM_MIN_MF_DF_RESPONSE_LEN) then
      some (SCSISIM_INVALID_GSM_RESPONSE, resp)
    else if resp.command = SELECT_EF then
      (parse_select_ef r).map fun d => (SCSISIM_SUCCESS, { resp with type := GSM_type.ef d })
    else if resp.command = SELECT_MF_DF then
      (parse_select_mf_df r).map fun d =>
        (SCSISIM_SUCCESS, { resp with type := GSM_type.mf_df d })
    else
      some (SCSISIM_SUCCESS, resp)

/-! ## Septet unpacking (`utils.c`) -/

/-- What a call of `scsisim_unpack_septets` leaves behind. -/
inductive unpack_outcome where
  /-- The early `return`: neither output parameter is written. -/
  | untouched
  /-- A read outside `packed` or a write outside the allocated buffer. -/
  | fault
  /-- The bytes written into the allocated buffer, in order, and `*unpacked_len`. -/
  | done (unpacked : List Nat) (unpacked_len : Nat)

/-- The body of the `for` loop of `scsisim_unpack_septets` at index `i`: the bytes it
appends through `*ptr++`.  `tmp` is an `unsigned char`, hence `% 256` after the shift
and after the or.  `packed[i-1]` is read only when `cur_pos > 0`. -/
def unpack_septets_body (packed : List Nat) (i : Nat) : Option (List Nat) :=
  let cur_pos := i % 7
  match packed[i]? with
  | none => none
  | some p =>
    let shifted : Option Nat :=
      if cur_pos > 0 then
        match packed[i - 1]? with
        | none => none
        | some q => some ((((p <<< cur_pos) % 256) ||| (q >>> (8 - cur_pos))) % 256)
      else some p
    match shifted with
    | none => none
    | some tmp =>
      let tmp := tmp &&& 0x7f
      if cur_pos = 6 then some [tmp, (p >>> 1) % 256] else some [tmp]

/-- The `for (i = 0; i < packed_len; i++)` loop, started at index `i` with `n`
iterations left: all bytes written from there on. -/
def unpack_septets_loop (packed : List Nat) : Nat → Nat → Option (List Nat)
  | _, 0 => some []
  | i, n + 1 =>
    match unpack_septets_body packed i with
    | none => none
    | some w =>
      match unpack_septets_loop packed (i + 1) n with
      | none => none
      | some rest => some (w ++ rest)

/-- The function `scsisim_unpack_septets` of `utils.c` (allocation succeeding).
`packed` is the possibly-`NULL` buffer of `packed_len` bytes.  The buffer length is
computed in `unsigned int` (32 bits): `packed_len * 8 / 7` wraps at `2 ^ 32`.  The
loop writes into a buffer of that many bytes; a write beyond it is a `fault`. -/
def scsisim_unpack_septets (num_septets : Nat) (packed : Option (List Nat)) :
    unpack_outcome :=
  match packed with
  | none => unpack_outcome.untouched
  | some pk =>
    let packed_len := pk.length
    if num_septets ≤ 0 ∨ packed_len ≤ 0 then unpack_outcome.untouched
    else
      let unpacked_len := (packed_len * 8 % 2 ^ 32) / 7
      match unpack_septets_loop pk 0 packed_len with
      | none => unpack_outcome.fault
      | some written =>
        if written.length > unpacked_len then unpack_outcome.fault
        else if unpacked_len > num_septets then unpack_outcome.done written num_septets
        else unpack_outcome.done written unpacked_len

/-! ### Septet packing, following the specification

The library has no packing function.  The round-trip property is stated against the
GSM 03.38 packing as the specification words it: septet `k` occupies the bits
`7k .. 7k+6` of the LSB-first bit stream, zero padded to `ceil(7M/8)` bytes. -/

/-- The number whose binary digits, least significant first, are the given bits. -/
def of_bits : List Bool → Nat
  | [] => 0
  | b :: l => b.toNat + 2 * of_bits l

/-- Bit `n` of the LSB-first bit stream of the septets `s`: bit `n % 7` of septet
`n / 7`, and zero after the last septet. -/
def spec_septet_stream_bit (s : List Nat) (n : Nat) : Bool :=
  (s.getD (n / 7) 0).testBit (n % 7)

/-- Byte `i` of the packed stream: the stream bits `8i .. 8i+7`. -/
def spec_pack_byte (s : List Nat) (i : Nat) : Nat :=
  of_bits ((List.range 8).map fun b => spec_septet_stream_bit s (8 * i + b))

/-- The GSM 03.38 packing of the septets `s` into `ceil(7M/8)` bytes. -/
def spec_pack_septets (s : List Nat) : List Nat :=
  (List.range ((7 * s.length + 7) / 8)).map (spec_pack_byte s)

/-! ## GSM 7-bit alphabet (`gsm.c`) -/

/-- Escape character in the GSM charset. -/
abbrev GSM_ESCAPE_CHAR : Nat := 0x1b

/-- The table `GSM_basic_charset` of `gsm.c`. -/
def GSM_basic_charset : List String := [
  /- 0x00 to 0x07: -/
  "@", "\u00a3", "$", "\u00a5", "\u00e8", "\u00e9", "\u00f9", "\u00ec",
  /- 0x08 to 0x0f: -/
  "\u00f2", "\u00c7", "\n", "\u00d8", "\u00f8", "\r", "\u00c5", "\u00e5",
  /- 0x10 to 0x17: -/
  "\u0394", "_", "\u03a6", "\u0393", "\u039b", "\u03a9", "\u03a0", "\u03a8",
  /- 0x18 to 0x1f: -/
  "\u03a3", "\u0398", "\u039e", "\uffff", "\u00c6", "\u00e6", "\u00df", "\u00c9",
  /- 0x20 to 0x27: -/
  " ", "!", "\x22", "#", "\u00a4", "%", "&", "\x27",
  /- 0x28 to 0x2f: -/
  "(", ")", "*", "+", ",", "-", ".", "/",
  /- 0x30 to 0x37: -/
  "0", "1", "2", "3", "4", "5", "6", "7",
  /- 0x38 to 0x3f: -/
  "8", "9", ":", ";", "<", "=", ">", "?",
  /- 0x40 to 0x47: -/
  "\u00a1", "A", "B", "C", "D", "E", "F", "G",
  /- 0x48 to 0x4f: -/
  "H", "I", "J", "K", "L", "M", "N", "O",
  /- 0x50 to 0x57: -/
  "P", "Q", "R", "S", "T", "U", "V", "W",
  /- 0x58 to 0x5f: -/
  "X", "Y", "Z", "\u00c4", "\u00d6", "\u00d1", "\u00dc", "\u00a7",
  /- 0x60 to 0x67: -/
  "\u00bf", "a", "b", "c", "d", "e", "f", "g",
  /- 0x68 to 0x6f: -/
  "h", "i", "j", "k", "l", "m", "n", "o",
  /- 0x70 to 0x77: -/
  "p", "q", "r", "s", "t", "u", "v", "w",
  /- 0x78 to 0x7f: -/
  "x", "y", "z", "\u00e4", "\u00f6", "\u00f1", "\u00fc", "\u00e0"]

/-- The table `GSM_basic_charset_extension` of `gsm.c`. -/
def GSM_basic_charset_extension : List String := [
  /- 0x00 to 0x07: -/
  " ", " ", " ", " ", " ", " ", " ", " ",
  /- 0x08 to 0x0f: -/
  " ", " ", "\x0c", " ", " ", " ", " ", " ",
  /- 0x10 to 0x17: -/
  " ", " ", " ", " ", "^", " ", " ", " ",
  /- 0x18 to 0x1f: -/
  " ", " ", " ", " ", " ", " ", " ", " ",
  /- 0x20 to 0x27: -/
  " ", " ", " ", " ", " ", " ", " ", " ",
  /- 0x28 to 0x2f: -/
  "\x7b", "\x7d", " ", " ", " ", " ", " ", "\x5c",
  /- 0x30 to 0x37: -/
  " ", " ", " ", " ", " ", " ", " ", " ",
  /- 0x38 to 0x3f: -/
  " ", " ", " ", " ", "[", "~", "]", " ",
  /- 0x40 to 0x47: -/
  "|", " ", " ", " ", " ", " ", " ", " ",
  /- 0x48 to 0x4f: -/
  " ", " ", " ", " ", " ", " ", " ", " ",
  /- 0x50 to 0x57: -/
  " ", " ", " ", " ", " ", " ", " ", " ",
  /- 0x58 to 0x5f: -/
  " ", " ", " ", " ", " ", " ", " ", " ",
  /- 0x60 to 0x67: -/
  " ", " ", " ", " ", " ", "\u20ac", " ", " ",
  /- 0x68 to 0x6f: -/
  " ", " ", " ", " ", " ", " ", " ", " ",
  /- 0x70 to 0x77: -/
  " ", " ", " ", " ", " ", " ", " ", " ",
  /- 0x78 to 0x7f: -/
  " ", " ", " ", " ", " ", " ", " ", " "]

/-- The bytes of a C string literal, without the terminating NUL: the UTF-8 encoding
of its characters. -/
def c_str (s : String) : List Nat :=
  (s.data.flatMap String.utf8EncodeChar).map UInt8.toNat

/-- Stores the bytes `bs` at `dest`, `dest + 1`, ... of a buffer whose cells are
`none` while uninitialised; `none` when a store falls outside the buffer. -/
def write_bytes (buf : List (Option Nat)) (dest : Nat) : List Nat → Option (List (Option Nat))
  | [] => some buf
  | b :: rest =>
    if dest < buf.length then write_bytes (buf.set dest (some b)) (dest + 1) rest
    else none

/-- The state of the mapping loop: the result buffer, the offset `dest - result` and
the flag `escapeChar`. -/
structure map_state where
  buf : List (Option Nat)
  dest : Nat
  escapeChar : Bool

/-- The `for` loop of `scsisim_map_gsm_chars` over the remaining source bytes.  A byte
above `0x7f` leaves the loop; the escape byte sets the flag and continues; any other
byte is looked up in one of the two tables and its string is copied, NUL included,
after which `dest` is moved back onto the NUL. -/
def map_gsm_loop : List Nat → map_state → Option map_state
  | [], st => some st
  | c :: rest, st =>
    if c > 0x7f then some st
    else if c = GSM_ESCAPE_CHAR then map_gsm_loop rest { st with escapeChar := true }
    else
      let entry : Option String :=
        if st.escapeChar = true then GSM_basic_charset_extension[c]?
        else GSM_basic_charset[c]?
      match entry with
      | none => none
      | some str =>
        match write_bytes st.buf st.dest (c_str str ++ [0]) with
        | none => none
        | some buf =>
          map_gsm_loop rest
            { buf := buf, dest := st.dest + (c_str str).length, escapeChar := false }

/-- What a call of `scsisim_map_gsm_chars` returns. -/
inductive map_outcome where
  /-- The `NULL` pointer. -/
  | null
  /-- A table read or a buffer write out of bounds. -/
  | fault
  /-- The result buffer of `4 * src_len + 1` cells. -/
  | buffer (result : List (Option Nat))

/-- The function `scsisim_map_gsm_chars` of `gsm.c` (allocation succeeding). -/
def scsisim_map_gsm_chars (src : Option (List Nat)) : map_outcome :=
  match src with
  | none => map_outcome.null
  | some bytes =>
    let src_len := bytes.length
    if src_len ≤ 0 then map_outcome.null
    else
      match map_gsm_loop bytes
          { buf := List.replicate (src_len * 4 + 1) none, dest := 0, escapeChar := false } with
      | none => map_outcome.fault
      | some st => map_outcome.buffer st.buf

/-- The C string that starts a buffer: the bytes before the first NUL; `none` when an
uninitialised cell or the end of the buffer comes first. -/
def c_string : List (Option Nat) → Option (List Nat)
  | [] => none
  | none :: _ => none
  | some b :: rest =>
    if b = 0 then some []
    else
      match c_string rest with
      | none => none
      | some bs => some (b :: bs)

/-- The string a caller reads from the pointer `scsisim_map_gsm_chars` returns. -/
def map_gsm_chars_string (src : Option (List Nat)) : Option (List Nat) :=
  match scsisim_map_gsm_chars src with
  | map_outcome.buffer result => c_string result
  | _ => none

/-! ## Unsigned arithmetic -/

/-- Truncation to `unsigned int` (32 bits). -/
def u32 (n : Nat) : Nat := n % 2 ^ 32

/-- The difference `a - b` of two `unsigned int` values: below zero it wraps to
`2 ^ 32 - (b - a)`. -/
def u32_sub (a b : Nat) : Nat := if b ≤ a then a - b else 2 ^ 32 - (b - a)

/-- The pattern `len = *ptr++ - 1; if (len <= 0 || len > max) len = max;` on an
`unsigned int` `len`, for the byte `b` read. -/
def clamp_len_minus_one (b max : Nat) : Nat :=
  if u32_sub b 1 ≤ 0 ∨ u32_sub b 1 > max then max else u32_sub b 1

/-! ## Packed BCD (`utils.c`) -/

/-- The table `BCD_basic_digits` of `utils.c`, as character codes. -/
def BCD_basic_digits : List Nat := c_str "0123456789abcdef"

/-- The table `BCD_telecom_digits` of `utils.c`, as character codes. -/
def BCD_telecom_digits : List Nat := c_str "0123456789*#,--f"

/-- One iteration of the loop of `scsisim_packed_bcd_to_ascii`: the two characters
written through `*tmp++` for the input byte `b`.  The nibbles are stored in
`unsigned char` variables; they index a 16-character table. -/
def bcd_byte_chars (b : Nat) (little_endian use_telecom_digits : Bool) : List Nat :=
  let lo_nibble := (b &&& 0xf) % 256
  let hi_nibble := (b >>> 4) % 256
  let lo_char :=
    if use_telecom_digits = true then BCD_telecom_digits.getD lo_nibble 0
    else BCD_basic_digits.getD lo_nibble 0
  let hi_char :=
    if use_telecom_digits = true then BCD_telecom_digits.getD hi_nibble 0
    else BCD_basic_digits.getD hi_nibble 0
  if little_endian = true then [lo_char, hi_char] else [hi_char, lo_char]

/-- The `for` loop of `scsisim_packed_bcd_to_ascii`: all characters it writes, in
order, before the terminator is placed. -/
def bcd_emitted : List Nat → Bool → Bool → List Nat
  | [], _, _ => []
  | b :: rest, little_endian, use_telecom_digits =>
    bcd_byte_chars b little_endian use_telecom_digits
      ++ bcd_emitted rest little_endian use_telecom_digits

/-- A `char *` result: `none` is the `NULL` pointer, otherwise the cells of the
allocated buffer (`none` for a cell never written). -/
abbrev c_chars := Option (List (Option Nat))

/-- The function `scsisim_packed_bcd_to_ascii` of `utils.c` (allocation succeeding).
The buffer has `2 * len + 1` cells; the loop fills the first `2 * len`; then the NUL is
stored over the last character when `strip_sign_flag` is set and that character is
`'f'`, and after the last character otherwise. -/
def scsisim_packed_bcd_to_ascii (bcd : Option (List Nat))
    (little_endian strip_sign_flag use_telecom_digits : Bool) : c_chars :=
  match bcd with
  | none => none
  | some bytes =>
    if bytes.length ≤ 0 then none
    else
      let emitted := bcd_emitted bytes little_endian use_telecom_digits
      let ascii : List (Option Nat) := emitted.map some ++ [none]
      let tmp := emitted.length
      if strip_sign_flag = true ∧ ascii[tmp - 1]? = some (some 0x66) then
        some (ascii.set (tmp - 1) (some 0))
      else some (ascii.set tmp (some 0))

/-- The string a caller reads from the pointer `scsisim_packed_bcd_to_ascii` returns. -/
def packed_bcd_string (bcd : Option (List Nat))
    (little_endian strip_sign_flag use_telecom_digits : Bool) : Option (List Nat) :=
  match scsisim_packed_bcd_to_ascii bcd little_endian strip_sign_flag use_telecom_digits with
  | none => none
  | some ascii => c_string ascii

/-- Packing of a string of ASCII decimal digits, following the specification: two
digits per byte, the earlier digit in the low nibble, and `0xf` in the final high
nibble when the number of digits is odd. -/
def spec_pack_bcd : List Nat → List Nat
  | [] => []
  | [a] => [16 * 0xf + (a - 0x30)]
  | a :: b :: rest => (16 * (b - 0x30) + (a - 0x30)) :: spec_pack_bcd rest

/-! ## GSM text (`gsm.c`) -/

/-- The function `scsisim_get_gsm_text` of `gsm.c`: unpack, then map the first
`unpacked_len` unpacked bytes.  After an early return of the unpacker the mapper is
handed the `NULL` pointer it started with. -/
def scsisim_get_gsm_text (packed : Option (List Nat)) (num_septets : Nat) : map_outcome :=
  match packed with
  | none => map_outcome.null
  | some pk =>
    if pk.length ≤ 0 ∨ num_septets ≤ 0 then map_outcome.null
    else
      match scsisim_unpack_septets num_septets (some pk) with
      | unpack_outcome.untouched => scsisim_map_gsm_chars none
      | unpack_outcome.fault => map_outcome.fault
      | unpack_outcome.done unpacked unpacked_len =>
        scsisim_map_gsm_chars (some (unpacked.take unpacked_len))

/-- A `memcpy` of `n` bytes out of `record`, starting at `off`: `none` when it would
read past the end of the record. -/
def copy_bytes (record : List Nat) (off n : Nat) : Option (List Nat) :=
  if off + n ≤ record.length then some ((record.drop off).take n) else none

/-! ## ADN records (`gsm.c`) -/

abbrev SCSISIM_GSM_INVALID_ADN_RECORD : Int := -40
/-- Length of the ADN number data buffer. -/
abbrev GSM_ADN_NUMBER_BUFFER_LEN : Nat := 14
/-- Maximum length of the actual ADN number. -/
abbrev GSM_MAX_ADN_NUMBER_LEN : Nat := 10

/-- What `scsisim_parse_adn` returns and prints: the return code, whether it printed
"ADN record unused", the string printed as contact name, the number length used, and
the string printed as contact number.  A field is `none` when the call returned
before reaching it. -/
structure adn_result where
  ret : Int
  unused : Bool
  name : Option c_chars
  number_len : Option Nat
  number : Option c_chars

/-- The second half of `scsisim_parse_adn`, after the contact name `name` has been
printed: the number length byte at offset `name_len`, its clamping, the skipped
TON/NPI byte, the copy of the number bytes and their decoding. -/
def adn_number (rcd : List Nat) (name_len : Nat) (name : c_chars) : Option adn_result :=
  match rcd[name_len]? with
  | none => none
  | some b =>
    let number_len := clamp_len_minus_one b GSM_MAX_ADN_NUMBER_LEN
    match copy_bytes rcd (name_len + 2) number_len with
    | none => none
    | some tmp =>
      some { ret := SCSISIM_SUCCESS, unused := false, name := some name,
             number_len := some number_len,
             number := some (scsisim_packed_bcd_to_ascii (some tmp) true true true) }

/-- The function `scsisim_parse_adn` of `gsm.c` (allocation succeeding).  `record` is
the possibly-`NULL` buffer of `record_len` bytes.  `number_len` is an `unsigned int`:
`*ptr++ - 1` wraps for a zero byte.  `none` stands for a read outside the record or a
fault in the mapper. -/
def scsisim_parse_adn (record : Option (List Nat)) : Option adn_result :=
  match record with
  | none =>
    some { ret := SCSISIM_GSM_INVALID_ADN_RECORD, unused := false, name := none,
           number_len := none, number := none }
  | some rcd =>
    let record_len := rcd.length
    if record_len < GSM_ADN_NUMBER_BUFFER_LEN + 1 then
      some { ret := SCSISIM_GSM_INVALID_ADN_RECORD, unused := false, name := none,
             number_len := none, number := none }
    else
      let name_len := record_len - GSM_ADN_NUMBER_BUFFER_LEN
      match rcd[0]? with
      | none => none
      | some first =>
        if first = 0xff then
          some { ret := SCSISIM_SUCCESS, unused := true, name := none,
                 number_len := none, number := none }
        else
          match scsisim_map_gsm_chars (some (rcd.take name_len)) with
          | map_outcome.fault => none
          | map_outcome.null => adn_number rcd name_len none
          | map_outcome.buffer result => adn_number rcd name_len (some result)

/-! ## SMS records (`gsm.c`) -/

abbrev SCSISIM_INVALID_PARAM : Int := -13
abbrev SCSISIM_SMS_INVALID_STATUS : Int := -16
abbrev SCSISIM_SMS_INVALID_SMSC : Int := -17
abbrev SCSISIM_SMS_INVALID_ADDRESS : Int := -18
/-- Length of an SMS record, in bytes. -/
abbrev GSM_SMS_RECORD_LEN : Nat := 176
/-- Maximum SM Service Center length (TON/NPI disregarded). -/
abbrev GSM_MAX_SMSC_LEN : Nat := 10
/-- Minimum length of TP-DA, TP-OA, or TP-RA. -/
abbrev GSM_MIN_ADDRESS_LEN : Nat := 2
/-- Maximum length of TP-DA, TP-OA, or TP-RA. -/
abbrev GSM_MAX_ADDRESS_LEN : Nat := 12

/-- The table `GSM_sms_status` of `gsm.c`. -/
def GSM_sms_status : List String := [
  "Unused space",
  "Message received and read",
  "[Undefined]",
  "Message received but unread",
  "[Undefined]",
  "Message sent",
  "[Undefined]",
  "Message not sent"]

/-- What `scsisim_parse_sms` returns, prints and computes on the way.  A field is
`none` (or `false`) when the call returned before reaching it.  `status` is the index
printed through `GSM_sms_status`; `sms_status` is the TPDU kind; `address_len` is in
bytes; `date` holds the month, day and year strings and `time` the hours, minutes and
seconds strings, as printed; `msg_len` is the number of user-data bytes after the
truncation to `bytes_remaining`. -/
structure sms_result where
  ret : Int
  status : Option Nat := none
  smsc_len : Option Nat := none
  smsc : Option c_chars := none
  sms_status : Option Nat := none
  address_len : Option Nat := none
  is_alphanum : Bool := false
  address : Option c_chars := none
  charset : Option Nat := none
  date : Option (c_chars × c_chars × c_chars) := none
  time : Option (c_chars × c_chars × c_chars) := none
  timezone : Option Nat := none
  num_septets : Option Nat := none
  bytes_used : Option Nat := none
  bytes_remaining : Option Nat := none
  msg_len : Option Nat := none
  message_empty : Bool := false
  message : Option c_chars := none
  unsupported_charset : Bool := false

/-- The end of `scsisim_parse_sms`: from the TP-UDL byte at offset `off` on.  All
quantities are `unsigned int`; `bytes_used` is `ptr - record` after TP-UDL has been
consumed. -/
def sms_user_data (record : List Nat) (off charset : Nat) (r : sms_result) :
    Option sms_result :=
  match record[off]? with
  | none => none
  | some num_septets =>
    let msg_len := u32 (num_septets * 7 + (8 - 1)) / 8
    let bytes_used := off + 1
    let bytes_remaining := u32_sub GSM_SMS_RECORD_LEN bytes_used
    let r := { r with num_septets := some num_septets, bytes_used := some bytes_used,
                      bytes_remaining := some bytes_remaining }
    if msg_len ≤ 0 then
      some { r with ret := SCSISIM_SUCCESS, msg_len := some msg_len, message_empty := true }
    else
      let msg_len := if msg_len > bytes_remaining then bytes_remaining else msg_len
      match copy_bytes record (off + 1) msg_len with
      | none => none
      | some tmp =>
        if charset = 0 then
          match scsisim_get_gsm_text (some tmp) num_septets with
          | map_outcome.fault => none
          | map_outcome.null =>
            some { r with ret := SCSISIM_SUCCESS, msg_len := some msg_len,
                          message := some none }
          | map_outcome.buffer text =>
            some { r with ret := SCSISIM_SUCCESS, msg_len := some msg_len,
                          message := some (some text) }
        else
          some { r with ret := SCSISIM_SUCCESS, msg_len := some msg_len,
                        unsupported_charset := true }

/-- The address text of `scsisim_parse_sms`: GSM 7-bit text when `is_alphanum`, packed
BCD digits otherwise.  The outer `none` stands for a fault. -/
def sms_address_text (tmp : List Nat) (address_len : Nat) (is_alphanum : Bool) :
    Option c_chars :=
  if is_alphanum = true then
    let num_septets := u32 (address_len * 8) / 7
    match scsisim_get_gsm_text (some tmp) num_septets with
    | map_outcome.fault => none
    | map_outcome.null => some none
    | map_outcome.buffer text => some (some text)
  else some (scsisim_packed_bcd_to_ascii (some tmp) true true false)

/-- The seven timestamp bytes of an SMS-DELIVER at offsets `off .. off + 6`: year,
month, day, hours, minutes, seconds, each decoded on its own, and the time zone. -/
def sms_timestamp (record : List Nat) (off : Nat) (r : sms_result) : Option sms_result :=
  match copy_bytes record off 7 with
  | some [year, month, day, hours, minutes, seconds, tz] =>
    some { r with
      date := some (scsisim_packed_bcd_to_ascii (some [month]) true false false,
                    scsisim_packed_bcd_to_ascii (some [day]) true false false,
                    scsisim_packed_bcd_to_ascii (some [year]) true false false),
      time := some (scsisim_packed_bcd_to_ascii (some [hours]) true false false,
                    scsisim_packed_bcd_to_ascii (some [minutes]) true false false,
                    scsisim_packed_bcd_to_ascii (some [seconds]) true false false),
      timezone := some tz }
  | _ => none

/-- The arm `case 0: case 1:` of the TPDU switch of `scsisim_parse_sms`; `off` is the
offset after the TPDU type byte and `sms_status` the TPDU kind. -/
def sms_tpdu (record : List Nat) (off sms_status : Nat) (r : sms_result) :
    Option sms_result :=
  let off := if sms_status = 1 then off + 1 else off
  match record[off]? with
  | none => none
  | some n =>
    let address_len := (n + (2 - 1)) / 2
    let r := { r with address_len := some address_len }
    if address_len < GSM_MIN_ADDRESS_LEN ∨ address_len > GSM_MAX_ADDRESS_LEN then
      some { r with ret := SCSISIM_SMS_INVALID_ADDRESS }
    else
      match record[off + 1]? with
      | none => none
      | some ton =>
        let is_alphanum := decide (ton &&& 0x70 = 0x50)
        match copy_bytes record (off + 2) address_len with
        | none => none
        | some tmp =>
          match sms_address_text tmp address_len is_alphanum with
          | none => none
          | some buf =>
            let r := { r with is_alphanum := is_alphanum, address := some buf }
            let off := off + 2 + address_len
            match record[off + 1]? with
            | none => none
            | some dcs =>
              let charset := ((dcs &&& 0x0c) >>> 2) % 256
              let r := { r with charset := some charset }
              if sms_status = 1 then sms_user_data record (off + 3) charset r
              else
                match sms_timestamp record (off + 2) r with
                | none => none
                | some r => sms_user_data record (off + 9) charset r

/-- The function `scsisim_parse_sms` of `gsm.c` (allocation succeeding).  `record` is
the possibly-`NULL` buffer of `record_len` bytes.  `smsc_len` is an `unsigned int`:
`*ptr++ - 1` wraps for a zero byte.  `none` stands for a read outside the record or a
fault in a decoder. -/
def scsisim_parse_sms (record : Option (List Nat)) : Option sms_result :=
  match record with
  | none => some { ret := SCSISIM_INVALID_PARAM }
  | some rcd =>
    if rcd.length ≠ GSM_SMS_RECORD_LEN then some { ret := SCSISIM_INVALID_PARAM }
    else
      match rcd[0]? with
      | none => none
      | some st =>
        if st > GSM_sms_status.length - 1 then some { ret := SCSISIM_SMS_INVALID_STATUS }
        else
          match rcd[1]? with
          | none => none
          | some b =>
            let smsc_len := clamp_len_minus_one b GSM_MAX_SMSC_LEN
            let r : sms_result :=
              { ret := SCSISIM_SUCCESS, status := some st, smsc_len := some smsc_len }
            match rcd[3]? with
            | none => none
            | some first =>
              if first = 0xff then some { r with ret := SCSISIM_SMS_INVALID_SMSC }
              else
                match copy_bytes rcd 3 smsc_len with
                | none => none
                | some tmp =>
                  let r :=
                    { r with smsc := some (scsisim_packed_bcd_to_ascii (some tmp) true true false) }
                  match rcd[3 + smsc_len]? with
                  | none => none
                  | some ty =>
                    let sms_status := (ty &&& 0x03) % 256
                    let r := { r with sms_status := some sms_status }
                    if sms_status = 0 ∨ sms_status = 1 then
                      sms_tpdu rcd (3 + smsc_len + 1) sms_status r
                    else some r

/-! ## Command engine (`sim.c`, `scsi.c`) -/

abbrev SCSISIM_SCSI_SEND_ERROR : Int := -8
/-- SCSI direction constants (the anonymous `enum` of `scsisim.h`). -/
abbrev SIM_NO_XFER : Nat := 0
abbrev SIM_WRITE : Nat := 1
abbrev SIM_READ : Nat := 2
/-- Two bytes of data for a SELECT command. -/
abbrev GSM_CMD_SELECT_DATA_LEN : Nat := 2

/-- Modelled from the spec: the full device profile, an element of `sim_devices[]`
(`device.h`, not among the sources), with the fields `sim.c` uses: CDB and sense
buffer lengths, the CDB template of each command, and the offsets at which the engine
patches a template.  Each template holds at least `cdb_len` bytes. -/
structure sim_device_profile extends sim_device where
  cdb_len : Nat
  sense_len : Nat
  CDB_select_file : List Nat
  CDB_get_response : List Nat
  get_response_len_offset : Nat
  CDB_read_record : List Nat
  read_record_rec_offset : Nat
  read_record_len_offset : Nat
  CDB_read_binary : List Nat
  read_binary_hi_offset : Nat
  read_binary_lo_offset : Nat
  read_binary_len_offset : Nat
  CDB_update_record : List Nat
  update_record_rec_offset : Nat
  update_record_len_offset : Nat
  CDB_update_binary : List Nat
  update_binary_hi_offset : Nat
  update_binary_lo_offset : Nat
  update_binary_len_offset : Nat
  CDB_verify_chv : List Nat
  verify_chv_chvnum_offset : Nat
  CDB_raw_cmd : List Nat
  raw_cmd_direction_offset : Nat
  raw_cmd_gsm_cmd_offset : Nat
  raw_cmd_p1_offset : Nat
  raw_cmd_p2_offset : Nat
  raw_cmd_p3_offset : Nat
  scsi_cmd_write : Nat
  scsi_cmd_read : Nat

/-- The input half of `struct scsi_cmd` (`scsi.h`): direction, the CDB (`cdb_len` is its
length), the data buffer as handed over (`data_len` is its length) and the length of
the zeroed sense buffer. -/
structure scsi_cmd where
  direction : Nat
  cdb : List Nat
  data : List Nat
  sense_len : Nat

/-- What the `SG_IO` ioctl leaves behind: its return value (0 on success), the data and
sense buffers afterwards, the residual count and the number of sense bytes written. -/
structure sg_io_result where
  status : Int
  data : List Nat
  resid : Int
  sense : List Nat
  sb_len_wr : Nat

/-- The device behind the ioctl: its answer to a command may depend on every command
sent before.  The list of commands sent so far is the state the engine threads. -/
abbrev sg_ioctl := List scsi_cmd → scsi_cmd → sg_io_result

/-- The output half of `struct scsi_cmd` after `scsi_send_cdb`, with its return code. -/
structure scsi_reply where
  ret : Int
  data : List Nat
  data_xfered : Nat
  sense : List Nat
  sense_xfered : Nat

/-- A buffer after the device has written `new` over its beginning: the length of the
buffer does not change. -/
def overwrite (buf new : List Nat) : List Nat :=
  (new ++ buf.drop new.length).take buf.length

/-- The function `scsi_send_cdb` of `scsi.c`: one ioctl.  Only a successful ioctl sets
`data_xfered` and `sense_xfered`; otherwise they keep the zero the caller initialised
them with.  The sense buffer starts zeroed.  The command is appended to the list of
commands sent. -/
def scsi_send_cdb (io : sg_ioctl) (sent : List scsi_cmd) (my_cmd : scsi_cmd) :
    scsi_reply × List scsi_cmd :=
  let io_hdr := io sent my_cmd
  let data := overwrite my_cmd.data io_hdr.data
  let sense := overwrite (List.replicate my_cmd.sense_len 0) io_hdr.sense
  if io_hdr.status = 0 then
    ({ ret := SCSISIM_SUCCESS, data := data,
       data_xfered := (((my_cmd.data.length : Int) - io_hdr.resid) % 2 ^ 32).toNat,
       sense := sense, sense_xfered := io_hdr.sb_len_wr % 256 },
     sent ++ [my_cmd])
  else
    ({ ret := SCSISIM_SCSI_SEND_ERROR, data := data, data_xfered := 0,
       sense := sense, sense_xfered := 0 },
     sent ++ [my_cmd])

/-- The sense translation of a reply: `sim_process_scsi_sense` on the first
`sense_xfered` bytes of the sense buffer; `none` when more sense bytes are reported
than the buffer holds. -/
def reply_sense (verbose : Bool) (device : sim_device_profile) (reply : scsi_reply) :
    Option Int :=
  if reply.sense_xfered ≤ reply.sense.length then
    sim_process_scsi_sense verbose device.tosim_device (reply.sense.take reply.sense_xfered)
  else none

/-- A store `cdb[off] = v` into the CDB: `none` when `off` is outside it. -/
def cdb_set (cdb : List Nat) (off v : Nat) : Option (List Nat) :=
  if off < cdb.length then some (cdb.set off v) else none

/-- The function `scsisim_select_file` of `sim.c`, for a present device.  The result is
the return code and the list of commands sent; `none` stands for a read outside the
sense slice. -/
def scsisim_select_file (verbose : Bool) (io : sg_ioctl) (device : sim_device_profile)
    (file : Nat) (sent : List scsi_cmd) : Option (Int × List scsi_cmd) :=
  let cdb := device.CDB_select_file.take device.cdb_len
  let data := [(file >>> 8) % 256, (file &&& 0xff) % 256]
  let my_cmd : scsi_cmd :=
    { direction := SIM_WRITE, cdb := cdb, data := data, sense_len := device.sense_len }
  let (reply, sent) := scsi_send_cdb io sent my_cmd
  if reply.ret = SCSISIM_SUCCESS then
    if reply.sense_xfered ≠ 0 then
      (reply_sense verbose device reply).map fun ret => (ret, sent)
    else some (SCSISIM_SCSI_NO_SENSE_DATA, sent)
  else some (reply.ret, sent)

/-- What a command of the engine leaves behind: the return code, the caller's data
buffer and response structure (`none` for `NULL`), and the list of commands sent. -/
structure engine_result where
  ret : Int
  data : Option (List Nat)
  resp : Option GSM_response
  sent : List scsi_cmd

/-- The function `scsisim_get_response` of `sim.c`, for a present device.  `data` is
the possibly-`NULL` buffer of `len` bytes (`len` is the length of the list).  `none`
stands for a store outside the CDB or a read outside a buffer. -/
def scsisim_get_response (verbose : Bool) (io : sg_ioctl) (device : sim_device_profile)
    (data : Option (List Nat)) (command : Int) (resp : Option GSM_response)
    (sent : List scsi_cmd) : Option engine_result :=
  match data, resp with
  | some buf, some rsp =>
    let len := buf.length
    if len ≤ 0 then
      some { ret := SCSISIM_INVALID_PARAM, data := data, resp := resp, sent := sent }
    else
      match cdb_set (device.CDB_get_response.take device.cdb_len)
          device.get_response_len_offset len with
      | none => none
      | some cdb =>
        let my_cmd : scsi_cmd :=
          { direction := SIM_READ, cdb := cdb, data := buf, sense_len := device.sense_len }
        let rsp : GSM_response := { rsp with command := command }
        let (reply, sent) := scsi_send_cdb io sent my_cmd
        if reply.ret = SCSISIM_SUCCESS then
          match gsm_parse_response (some reply.data) rsp with
          | none => none
          | some (ret, rsp) =>
            if reply.sense_xfered ≠ 0 then
              (reply_sense verbose device reply).map fun ret =>
                { ret := ret, data := some reply.data, resp := some rsp, sent := sent }
            else some { ret := ret, data := some reply.data, resp := some rsp, sent := sent }
        else some { ret := reply.ret, data := some reply.data, resp := some rsp, sent := sent }
  | _, _ => some { ret := SCSISIM_INVALID_PARAM, data := data, resp := resp, sent := sent }

/-- Modelled from the spec: the macro `MIN` of `utils.h` (not among the sources), the
smaller of its two arguments. -/
def MIN (a b : Int) : Int := if a < b then a else b

/-- The function `scsisim_select_file_and_get_response` of `sim.c`.  GET RESPONSE is
handed the first `MIN(ret, len)` bytes of the caller's buffer (the length passes
through a `uint8_t` parameter); the rest of the buffer stays as it was. -/
def scsisim_select_file_and_get_response (verbose : Bool) (io : sg_ioctl)
    (device : sim_device_profile) (file : Nat) (data : Option (List Nat)) (command : Int)
    (resp : Option GSM_response) (sent : List scsi_cmd) : Option engine_result :=
  match scsisim_select_file verbose io device file sent with
  | none => none
  | some (ret, sent) =>
    if ret > 0 then
      match data with
      | none => scsisim_get_response verbose io device none command resp sent
      | some buf =>
        let len := (MIN ret buf.length).toNat % 256
        match scsisim_get_response verbose io device (some (buf.take len)) command resp sent with
        | none => none
        | some r => some { r with data := r.data.map fun d => d ++ buf.drop len }
    else some { ret := ret, data := data, resp := resp, sent := sent }

/-! ## Record, binary, CHV and raw commands (`sim.c`) -/

abbrev SCSISIM_INVALID_PIN : Int := -11
/-- Eight bytes of data for a VERIFY CHV command. -/
abbrev GSM_CMD_VERIFY_CHV_DATA_LEN : Nat := 8

/-- What a read, update or raw command leaves behind: the return code, the caller's
data buffer (`none` for `NULL`) and the list of commands sent. -/
structure command_result where
  ret : Int
  data : Option (List Nat)
  sent : List scsi_cmd

/-- The lines on which `scsisim_read_record`, `scsisim_read_binary`,
`scsisim_update_record`, `scsisim_update_binary`, `scsisim_verify_chv` and
`scsisim_send_raw_command` all end: send the command, and if sense bytes were
transferred use their translation as the return code instead.  `none` stands for a
read outside the sense slice. -/
def send_command (verbose : Bool) (io : sg_ioctl) (device : sim_device_profile)
    (my_cmd : scsi_cmd) (sent : List scsi_cmd) : Option command_result :=
  let (reply, sent) := scsi_send_cdb io sent my_cmd
  if reply.sense_xfered ≠ 0 then
    (reply_sense verbose device reply).map fun ret =>
      { ret := ret, data := some reply.data, sent := sent }
  else some { ret := reply.ret, data := some reply.data, sent := sent }

/-- The CDB of READ RECORD: the template with the record number and then the length
stored into it.  `none` stands for a store outside the CDB. -/
def read_record_cdb (device : sim_device_profile) (recno len : Nat) : Option (List Nat) :=
  (cdb_set (device.CDB_read_record.take device.cdb_len)
    device.read_record_rec_offset recno).bind fun cdb =>
  cdb_set cdb device.read_record_len_offset len

/-- The function `scsisim_read_record` of `sim.c`, for a present device.  `data` is the
possibly-`NULL` buffer of `len` bytes. -/
def scsisim_read_record (verbose : Bool) (io : sg_ioctl) (device : sim_device_profile)
    (recno : Nat) (data : Option (List Nat)) (sent : List scsi_cmd) :
    Option command_result :=
  match data with
  | none => some { ret := SCSISIM_INVALID_PARAM, data := data, sent := sent }
  | some buf =>
    let len := buf.length
    if recno = 0 ∨ len ≤ 0 then
      some { ret := SCSISIM_INVALID_PARAM, data := data, sent := sent }
    else
      match read_record_cdb device recno len with
      | none => none
      | some cdb =>
        send_command verbose io device
          { direction := SIM_READ, cdb := cdb, data := buf, sense_len := device.sense_len }
          sent

/-- The CDB of READ BINARY: the template with the high and low byte of the 16-bit
offset and then the length stored into it. -/
def read_binary_cdb (device : sim_device_profile) (offset len : Nat) : Option (List Nat) :=
  (cdb_set (device.CDB_read_binary.take device.cdb_len)
    device.read_binary_hi_offset ((offset >>> 8) % 256)).bind fun cdb =>
  (cdb_set cdb device.read_binary_lo_offset ((offset &&& 0xff) % 256)).bind fun cdb =>
  cdb_set cdb device.read_binary_len_offset len

/-- The function `scsisim_read_binary` of `sim.c`, for a present device. -/
def scsisim_read_binary (verbose : Bool) (io : sg_ioctl) (device : sim_device_profile)
    (data : Option (List Nat)) (offset : Nat) (sent : List scsi_cmd) :
    Option command_result :=
  match data with
  | none => some { ret := SCSISIM_INVALID_PARAM, data := data, sent := sent }
  | some buf =>
    let len := buf.length
    if len = 0 then some { ret := SCSISIM_INVALID_PARAM, data := data, sent := sent }
    else
      match read_binary_cdb device offset len with
      | none => none
      | some cdb =>
        send_command verbose io device
          { direction := SIM_READ, cdb := cdb, data := buf, sense_len := device.sense_len }
          sent

/-- The CDB of UPDATE RECORD: the template with the record number and then the length
stored into it. -/
def update_record_cdb (device : sim_device_profile) (recno len : Nat) : Option (List Nat) :=
  (cdb_set (device.CDB_update_record.take device.cdb_len)
    device.update_record_rec_offset recno).bind fun cdb =>
  cdb_set cdb device.update_record_len_offset len

/-- The function `scsisim_update_record` of `sim.c`, for a present device. -/
def scsisim_update_record (verbose : Bool) (io : sg_ioctl) (device : sim_device_profile)
    (recno : Nat) (data : Option (List Nat)) (sent : List scsi_cmd) :
    Option command_result :=
  match data with
  | none => some { ret := SCSISIM_INVALID_PARAM, data := data, sent := sent }
  | some buf =>
    let len := buf.length
    if recno = 0 ∨ len ≤ 0 then
      some { ret := SCSISIM_INVALID_PARAM, data := data, sent := sent }
    else
      match update_record_cdb device recno len with
      | none => none
      | some cdb =>
        send_command verbose io device
          { direction := SIM_WRITE, cdb := cdb, data := buf, sense_len := device.sense_len }
          sent

/-- The CDB of UPDATE BINARY: the template with the high and low byte of the 16-bit
offset and then the length stored into it. -/
def update_binary_cdb (device : sim_device_profile) (offset len : Nat) :
    Option (List Nat) :=
  (cdb_set (device.CDB_update_binary.take device.cdb_len)
    device.update_binary_hi_offset ((offset >>> 8) % 256)).bind fun cdb =>
  (cdb_set cdb device.update_binary_lo_offset ((offset &&& 0xff) % 256)).bind fun cdb =>
  cdb_set cdb device.update_binary_len_offset len

/-- The function `scsisim_update_binary` of `sim.c`, for a present device. -/
def scsisim_update_binary (verbose : Bool) (io : sg_ioctl) (device : sim_device_profile)
    (data : Option (List Nat)) (offset : Nat) (sent : List scsi_cmd) :
    Option command_result :=
  match data with
  | none => some { ret := SCSISIM_INVALID_PARAM, data := data, sent := sent }
  | some buf =>
    let len := buf.length
    if len = 0 then some { ret := SCSISIM_INVALID_PARAM, data := data, sent := sent }
    else
      match update_binary_cdb device offset len with
      | none => none
      | some cdb =>
        send_command verbose io device
          { direction := SIM_WRITE, cdb := cdb, data := buf, sense_len := device.sense_len }
          sent

/-- The C library test `isdigit` on a character code. -/
def isdigit (c : Nat) : Bool := decide (0x30 ≤ c ∧ c ≤ 0x39)

/-- The loop of `is_digit_string` over the characters before the terminating NUL. -/
def is_digit_loop : List Nat → Bool
  | [] => true
  | c :: rest => if isdigit c = false then false else is_digit_loop rest

/-- The function `is_digit_string` of `utils.c`.  A C string is the list of its
characters before the terminating NUL; `none` is the `NULL` pointer. -/
def is_digit_string (str : Option (List Nat)) : Bool :=
  match str with
  | none => false
  | some s => is_digit_loop s

/-- The CDB of VERIFY CHV: the template with the CHV number stored into it. -/
def verify_chv_cdb (device : sim_device_profile) (chv : Nat) : Option (List Nat) :=
  cdb_set (device.CDB_verify_chv.take device.cdb_len) device.verify_chv_chvnum_offset chv

/-- The function `scsisim_verify_chv` of `sim.c`, for a present device (allocation
succeeding).  `pin` is the possibly-`NULL` C string.  The data block is eight bytes
of `0xff` with the characters of the PIN copied over its beginning.  The result is the
return code and the list of commands sent. -/
def scsisim_verify_chv (verbose : Bool) (io : sg_ioctl) (device : sim_device_profile)
    (chv : Nat) (pin : Option (List Nat)) (sent : List scsi_cmd) :
    Option (Int × List scsi_cmd) :=
  match pin with
  | none => some (SCSISIM_INVALID_PARAM, sent)
  | some p =>
    if is_digit_string (some p) = false then some (SCSISIM_INVALID_PIN, sent)
    else if p.length > GSM_CMD_VERIFY_CHV_DATA_LEN then some (SCSISIM_GSM_ERROR_PARAM_3, sent)
    else
      match verify_chv_cdb device chv with
      | none => none
      | some cdb =>
        let data := overwrite (List.replicate GSM_CMD_VERIFY_CHV_DATA_LEN 0xff) p
        (send_command verbose io device
          { direction := SIM_WRITE, cdb := cdb, data := data, sense_len := device.sense_len }
          sent).map fun r => (r.ret, r.sent)

/-- The CDB of a raw command: the template with the SCSI direction code, the GSM
command and the parameters P1, P2, P3 stored into it, in this order. -/
def raw_cmd_cdb (device : sim_device_profile) (direction command P1 P2 P3 : Nat) :
    Option (List Nat) :=
  (cdb_set (device.CDB_raw_cmd.take device.cdb_len) device.raw_cmd_direction_offset
    (if direction = SIM_WRITE then device.scsi_cmd_write else device.scsi_cmd_read)).bind
      fun cdb =>
  (cdb_set cdb device.raw_cmd_gsm_cmd_offset command).bind fun cdb =>
  (cdb_set cdb device.raw_cmd_p1_offset P1).bind fun cdb =>
  (cdb_set cdb device.raw_cmd_p2_offset P2).bind fun cdb =>
  cdb_set cdb device.raw_cmd_p3_offset P3

/-- The function `scsisim_send_raw_command` of `sim.c`, for a present device.  `data`
is the buffer of `len` bytes; a `NULL` pointer with `len = 0` is the empty list. -/
def scsisim_send_raw_command (verbose : Bool) (io : sg_ioctl)
    (device : sim_device_profile) (direction command P1 P2 P3 : Nat) (data : List Nat)
    (sent : List scsi_cmd) : Option command_result :=
  match raw_cmd_cdb device direction command P1 P2 P3 with
  | none => none
  | some cdb =>
    send_command verbose io device
      { direction := direction, cdb := cdb, data := data, sense_len := device.sense_len }
      sent

/-! ## Sample inputs for the command engine -/

/-- A device profile for the examples (the real table `sim_devices[]` is not among the
sources): fixed-format sense data with the sense type at offset 0, ASC at 12 and ASCQ
at 13, six-byte CDBs, and the GET RESPONSE length at CDB offset 4. -/
def example_device : sim_device_profile :=
  { sense_type_offset := 0, sense_asc_offset := 12, sense_ascq_offset := 13,
    cdb_len := 6, sense_len := 18,
    CDB_select_file := [0xdf, 0xa4, 0, 0, 2, 0],
    CDB_get_response := [0xdf, 0xc0, 0, 0, 0, 0], get_response_len_offset := 4,
    CDB_read_record := [], read_record_rec_offset := 0, read_record_len_offset := 0,
    CDB_read_binary := [], read_binary_hi_offset := 0, read_binary_lo_offset := 0,
    read_binary_len_offset := 0,
    CDB_update_record := [], update_record_rec_offset := 0, update_record_len_offset := 0,
    CDB_update_binary := [], update_binary_hi_offset := 0, update_binary_lo_offset := 0,
    update_binary_len_offset := 0,
    CDB_verify_chv := [], verify_chv_chvnum_offset := 0,
    CDB_raw_cmd := [], raw_cmd_direction_offset := 0, raw_cmd_gsm_cmd_offset := 0,
    raw_cmd_p1_offset := 0, raw_cmd_p2_offset := 0, raw_cmd_p3_offset := 0,
    scsi_cmd_write := 0, scsi_cmd_read := 0 }

/-- A device for the examples: a write command (SELECT) is answered with the status
word `0x9f sw2`, a read command with 15 bytes of `0x11` and the status word `0x90 00`. -/
def example_ioctl (sw2 : Nat) : sg_ioctl := fun _ cmd =>
  if cmd.direction = SIM_WRITE then
    { status := 0, data := [], resid := 0,
      sense := [0x70, 0, 0, 0, 0, 0, 0, 0, 0, 0, 0, 0, 0x9f, sw2, 0, 0, 0, 0],
      sb_len_wr := 18 }
  else
    { status := 0, data := List.replicate 15 0x11, resid := 0,
      sense := [0x70, 0, 0, 0, 0, 0, 0, 0, 0, 0, 0, 0, 0x90, 0, 0, 0, 0, 0],
      sb_len_wr := 18 }

/-- The example profile with a template for every command: the record number at CDB
offset 2, the binary offset at 2 and 3, the length at 4, the CHV number at 3, and for
the raw command the direction code at 0, the GSM command at 1 and P1, P2, P3 at
2, 3, 4. -/
def example_device_full : sim_device_profile :=
  { example_device with
    CDB_read_record := [0xdf, 0xb2, 0, 4, 0, 0], read_record_rec_offset := 2,
    read_record_len_offset := 4,
    CDB_read_binary := [0xdf, 0xb0, 0, 0, 0, 0], read_binary_hi_offset := 2,
    read_binary_lo_offset := 3, read_binary_len_offset := 4,
    CDB_update_record := [0xde, 0xdc, 0, 4, 0, 0], update_record_rec_offset := 2,
    update_record_len_offset := 4,
    CDB_update_binary := [0xde, 0xd6, 0, 0, 0, 0], update_binary_hi_offset := 2,
    update_binary_lo_offset := 3, update_binary_len_offset := 4,
    CDB_verify_chv := [0xde, 0x20, 0, 0, 8, 0], verify_chv_chvnum_offset := 3,
    CDB_raw_cmd := [0, 0, 0, 0, 0, 0], raw_cmd_direction_offset := 0,
    raw_cmd_gsm_cmd_offset := 1, raw_cmd_p1_offset := 2, raw_cmd_p2_offset := 3,
    raw_cmd_p3_offset := 4, scsi_cmd_write := 0xde, scsi_cmd_read := 0xdf }

/-- A device for the examples that answers every command with the status word
`sw1 sw2` in its sense data and leaves the data buffer alone. -/
def example_ioctl_status (sw1 sw2 : Nat) : sg_ioctl := fun _ _ =>
  { status := 0, data := [], resid := 0,
    sense := [0x70, 0, 0, 0, 0, 0, 0, 0, 0, 0, 0, 0, sw1, sw2, 0, 0, 0, 0],
    sb_len_wr := 18 }

/-- A device for the examples whose ioctl fails. -/
def example_ioctl_failing : sg_ioctl := fun _ _ =>
  { status := -1, data := [], resid := 0, sense := [], sb_len_wr := 0 }

/-! ## Theorems: sense-word translator -/

/-- C1 (counterexample): with the sense type byte `0x70` at offset 0, ASC `0x9f` at
offset 12 and ASCQ `0x00` at offset 13 the buffer passes both checks, yet the result
is `0`, the value of `SCSISIM_SUCCESS`, and not a positive byte count. -/
theorem C1_ascq_zero_not_positive :
    ([0x70, 0, 0, 0, 0, 0, 0, 0, 0, 0, 0, 0, 0x9f, 0x00] : List Nat)[0]? = some 0x70 ∧
    ([0x70, 0, 0, 0, 0, 0, 0, 0, 0, 0, 0, 0, 0x9f, 0x00] : List Nat)[12]? = some 0x9f ∧
    ([0x70, 0, 0, 0, 0, 0, 0, 0, 0, 0, 0, 0, 0x9f, 0x00] : List Nat)[13]? = some 0x00 ∧
    sim_process_scsi_sense false ⟨0, 12, 13⟩
      [0x70, 0, 0, 0, 0, 0, 0, 0, 0, 0, 0, 0, 0x9f, 0x00] = some SCSISIM_SUCCESS ∧
    ¬ ∃ n : Int, sim_process_scsi_sense false ⟨0, 12, 13⟩
      [0x70, 0, 0, 0, 0, 0, 0, 0, 0, 0, 0, 0, 0x9f, 0x00] = some n ∧ 0 < n := by
  decide

/-- Unfolding of the translator once both checks have passed and the ASC and ASCQ
bytes are known: only the dispatch on the two bytes remains. -/
theorem sim_process_scsi_sense_dispatch (verbose : Bool) (device : sim_device)
    (sense : List Nat) (asc ascq : Nat)
    (hty : sense[device.sense_type_offset]? = some 0x70)
    (hasc : sense[device.sense_asc_offset]? = some asc)
    (hascq : sense[device.sense_ascq_offset]? = some ascq) :
    sim_process_scsi_sense verbose device sense =
      if asc = 0x67 then some SCSISIM_GSM_ERROR_PARAM_3
      else if asc = 0x6b then some SCSISIM_GSM_ERROR_PARAM_1_OR_2
      else if asc = 0x6d then some SCSISIM_GSM_UNKNOWN_INSTRUCTION
      else if asc = 0x6e then some SCSISIM_GSM_WRONG_INSTRUCTION_CLASS
      else if asc = 0x6f then some SCSISIM_GSM_TECHNICAL_PROBLEM
      else if asc = 0x90 then some (sw2_0x90 ascq)
      else if asc = 0x92 then some (sw2_0x92 ascq)
      else if asc = 0x93 then some SCSISIM_GSM_BUSY
      else if asc = 0x94 then some (sw2_0x94 ascq)
      else if asc = 0x98 then some (sw2_0x98 ascq)
      else if asc = 0x91 ∨ asc = 0x9e ∨ asc = 0x9f then some (ascq : Int)
      else some SCSISIM_GSM_UNKNOWN_SW1 := by
  have hlen : ¬ sense.length < device.sense_ascq_offset + 1 := by
    have := (List.getElem?_eq_some_iff.mp hascq).1
    omega
  unfold sim_process_scsi_sense
  rw [if_neg hlen]
  simp only [hty, hasc, hascq, Option.map_some', Option.bind_some, ne_eq, not_true_eq_false,
    if_false]
  cases verbose <;> simp

/-- C1 (amended): for every sense buffer that passes the length and `0x70` type checks
and whose ASC byte is `0x91`, `0x9e` or `0x9f`, the result is the ASCQ byte itself.  It
is never negative, hence different from every error code, and it is positive exactly
when the ASCQ byte is not zero; for ASCQ `0` it is `0`, the value of Success. -/
theorem C1_count_is_ascq (verbose : Bool) (device : sim_device) (sense : List Nat)
    (asc ascq : Nat)
    (hty : sense[device.sense_type_offset]? = some 0x70)
    (hasc : sense[device.sense_asc_offset]? = some asc)
    (hascq : sense[device.sense_ascq_offset]? = some ascq)
    (hcount : asc = 0x91 ∨ asc = 0x9e ∨ asc = 0x9f) :
    sim_process_scsi_sense verbose device sense = some (ascq : Int) ∧
    (0 : Int) ≤ (ascq : Int) ∧
    ((0 : Int) < (ascq : Int) ↔ ascq ≠ 0) ∧
    (ascq ≠ 0 → (ascq : Int) ≠ SCSISIM_SUCCESS) ∧
    (∀ e : Int, e < 0 → (ascq : Int) ≠ e) := by
  refine ⟨?_, by omega, by omega, fun h => by simpa using h, by omega⟩
  rw [sim_process_scsi_sense_dispatch verbose device sense asc ascq hty hasc hascq]
  rcases hcount with h | h | h <;> subst h <;> simp

/-- C1 (witness): sense type `0x70`, ASC `0x9f`, ASCQ `0x16` gives the count 22. -/
theorem C1_count_is_ascq_witness :
    sim_process_scsi_sense false ⟨0, 12, 13⟩
      [0x70, 0, 0, 0, 0, 0, 0, 0, 0, 0, 0, 0, 0x9f, 0x16] = some 22 ∧
    (0 : Int) < 22 :=
  ⟨(C1_count_is_ascq false ⟨0, 12, 13⟩ [0x70, 0, 0, 0, 0, 0, 0, 0, 0, 0, 0, 0, 0x9f, 0x16]
      0x9f 0x16 (by decide) (by decide) (by decide) (by decide)).1, by decide⟩

/-- C2: for every sense buffer that passes the length and `0x70` type checks the result
follows the ASC/ASCQ table on every row other than the byte-count row. -/
theorem C2_sense_table (verbose : Bool) (device : sim_device) (sense : List Nat)
    (asc ascq : Nat)
    (hty : sense[device.sense_type_offset]? = some 0x70)
    (hasc : sense[device.sense_asc_offset]? = some asc)
    (hascq : sense[device.sense_ascq_offset]? = some ascq) :
    (asc = 0x67 → sim_process_scsi_sense verbose device sense
        = some SCSISIM_GSM_ERROR_PARAM_3) ∧
    (asc = 0x6b → sim_process_scsi_sense verbose device sense
        = some SCSISIM_GSM_ERROR_PARAM_1_OR_2) ∧
    (asc = 0x6d → sim_process_scsi_sense verbose device sense
        = some SCSISIM_GSM_UNKNOWN_INSTRUCTION) ∧
    (asc = 0x6e → sim_process_scsi_sense verbose device sense
        = some SCSISIM_GSM_WRONG_INSTRUCTION_CLASS) ∧
    (asc = 0x6f → sim_process_scsi_sense verbose device sense
        = some SCSISIM_GSM_TECHNICAL_PROBLEM) ∧
    (asc = 0x93 → sim_process_scsi_sense verbose device sense = some SCSISIM_GSM_BUSY) ∧
    (asc = 0x90 → sim_process_scsi_sense verbose device sense
        = some (if ascq = 0x00 then SCSISIM_SUCCESS else SCSISIM_GSM_UNKNOWN_SW2)) ∧
    (asc = 0x92 → sim_process_scsi_sense verbose device sense
        = some (if ascq = 0x40 then SCSISIM_GSM_MEMORY_ERROR else SCSISIM_SUCCESS)) ∧
    (asc = 0x94 → sim_process_scsi_sense verbose device sense
        = some (if ascq = 0x00 then SCSISIM_GSM_NO_EF_SELECTED
          else if ascq = 0x02 then SCSISIM_GSM_INVALID_ADDRESS
          else if ascq = 0x04 then SCSISIM_GSM_FILE_NOT_FOUND
          else if ascq = 0x08 then SCSISIM_GSM_FILE_INCONSISTENT_WITH_COMMAND
          else SCSISIM_GSM_UNKNOWN_SW2)) ∧
    (asc = 0x98 → sim_process_scsi_sense verbose device sense
        = some (if ascq = 0x02 then SCSISIM_GSM_NO_CHV_INITIALIZED
          else if ascq = 0x04 then SCSISIM_GSM_CHV_VERIFICATION_FAILED
          else if ascq = 0x08 then SCSISIM_GSM_CHV_STATUS_CONTRADICTION
          else if ascq = 0x10 then SCSISIM_GSM_INVALIDATION_STATUS_CONTRADICTION
          else if ascq = 0x40 then SCSISIM_GSM_CHV_BLOCKED
          else if ascq = 0x50 then SCSISIM_GSM_INCREASE_FAILED
          else SCSISIM_GSM_SECURITY_ERROR)) ∧
    (asc ∉ [0x67, 0x6b, 0x6d, 0x6e, 0x6f, 0x90, 0x91, 0x92, 0x93, 0x94, 0x98, 0x9e, 0x9f] →
      sim_process_scsi_sense verbose device sense = some SCSISIM_GSM_UNKNOWN_SW1) := by
  rw [sim_process_scsi_sense_dispatch verbose device sense asc ascq hty hasc hascq]
  refine ⟨?_, ?_, ?_, ?_, ?_, ?_, ?_, ?_, ?_, ?_, ?_⟩
  · rintro rfl; simp
  · rintro rfl; simp
  · rintro rfl; simp
  · rintro rfl; simp
  · rintro rfl; simp
  · rintro rfl; simp
  · rintro rfl; simp [sw2_0x90]
  · rintro rfl; simp [sw2_0x92]
  · rintro rfl; simp [sw2_0x94]
  · rintro rfl; simp [sw2_0x98]
  · intro h
    simp only [List.mem_cons, List.mem_singleton, List.not_mem_nil, or_false, not_or] at h
    obtain ⟨h1, h2, h3, h4, h5, h6, h7, h8, h9, h10, h11, h12, h13⟩ := h
    simp [h1, h2, h3, h4, h5, h6, h7, h8, h9, h10, h11, h12, h13]

/-- C2 (witness): ASC `0x98` with ASCQ `0x40` is `ChvBlocked`. -/
theorem C2_sense_table_witness :
    sim_process_scsi_sense false ⟨0, 12, 13⟩
      [0x70, 0, 0, 0, 0, 0, 0, 0, 0, 0, 0, 0, 0x98, 0x40] = some SCSISIM_GSM_CHV_BLOCKED :=
  (C2_sense_table false ⟨0, 12, 13⟩ [0x70, 0, 0, 0, 0, 0, 0, 0, 0, 0, 0, 0, 0x98, 0x40]
    0x98 0x40 (by decide) (by decide) (by decide)).2.2.2.2.2.2.2.2.2.1 (by decide)

/-- C3: a sense slice shorter than `ascq_offset + 1` gives `NoSenseData` whatever it
holds; otherwise a byte other than `0x70` at `type_offset` gives `UnknownSenseData`
whatever the other bytes are; and when the type and ASC offsets do not exceed the ASCQ
offset, no read leaves the slice (the result is never `none`). -/
theorem C3_sense_preconditions (verbose : Bool) (device : sim_device) (sense : List Nat) :
    (sense.length < device.sense_ascq_offset + 1 →
      sim_process_scsi_sense verbose device sense = some SCSISIM_SCSI_NO_SENSE_DATA) ∧
    (∀ ty : Nat, device.sense_ascq_offset + 1 ≤ sense.length →
      sense[device.sense_type_offset]? = some ty → ty ≠ 0x70 →
      sim_process_scsi_sense verbose device sense = some SCSISIM_SCSI_UNKNOWN_SENSE_DATA) ∧
    (device.sense_type_offset ≤ device.sense_ascq_offset →
      device.sense_asc_offset ≤ device.sense_ascq_offset →
      (sim_process_scsi_sense verbose device sense).isSome = true) := by
  have short : sense.length < device.sense_ascq_offset + 1 →
      sim_process_scsi_sense verbose device sense = some SCSISIM_SCSI_NO_SENSE_DATA := by
    intro h
    unfold sim_process_scsi_sense
    rw [if_pos h]
  have badtype : ∀ ty : Nat, device.sense_ascq_offset + 1 ≤ sense.length →
      sense[device.sense_type_offset]? = some ty → ty ≠ 0x70 →
      sim_process_scsi_sense verbose device sense
        = some SCSISIM_SCSI_UNKNOWN_SENSE_DATA := by
    intro ty hlen hty hne
    unfold sim_process_scsi_sense
    rw [if_neg (by omega)]
    simp only [hty]
    rw [if_pos hne]
  refine ⟨short, badtype, ?_⟩
  intro h1 h2
  by_cases hlen : sense.length < device.sense_ascq_offset + 1
  · rw [short hlen]
    rfl
  · obtain ⟨ty, e1⟩ : ∃ ty, sense[device.sense_type_offset]? = some ty :=
      ⟨_, List.getElem?_eq_getElem (by omega)⟩
    obtain ⟨a, e2⟩ : ∃ a, sense[device.sense_asc_offset]? = some a :=
      ⟨_, List.getElem?_eq_getElem (by omega)⟩
    obtain ⟨q, e3⟩ : ∃ q, sense[device.sense_ascq_offset]? = some q :=
      ⟨_, List.getElem?_eq_getElem (by omega)⟩
    by_cases hty : ty = 0x70
    · rw [hty] at e1
      rw [sim_process_scsi_sense_dispatch verbose device sense a q e1 e2 e3]
      simp only [apply_ite Option.isSome, Option.isSome_some, ite_self]
    · rw [badtype ty (by omega) e1 hty]
      rfl

/-- C3 (witness): a 14-byte slice with type byte `0x71` passes the length check and is
reported as unknown sense data. -/
theorem C3_sense_preconditions_witness :
    sim_process_scsi_sense false ⟨0, 12, 13⟩
      [0x71, 0, 0, 0, 0, 0, 0, 0, 0, 0, 0, 0, 0x9f, 0x16]
      = some SCSISIM_SCSI_UNKNOWN_SENSE_DATA ∧
    sim_process_scsi_sense false ⟨0, 12, 13⟩ [0x70, 0, 0x9f] = some SCSISIM_SCSI_NO_SENSE_DATA ∧
    (sim_process_scsi_sense false ⟨0, 12, 13⟩
      [0x70, 0, 0, 0, 0, 0, 0, 0, 0, 0, 0, 0, 0x9f, 0x16]).isSome = true :=
  ⟨(C3_sense_preconditions false ⟨0, 12, 13⟩
      [0x71, 0, 0, 0, 0, 0, 0, 0, 0, 0, 0, 0, 0x9f, 0x16]).2.1 0x71
      (by decide) (by decide) (by decide),
   (C3_sense_preconditions false ⟨0, 12, 13⟩ [0x70, 0, 0x9f]).1 (by decide),
   (C3_sense_preconditions false ⟨0, 12, 13⟩
      [0x70, 0, 0, 0, 0, 0, 0, 0, 0, 0, 0, 0, 0x9f, 0x16]).2.2 (by decide) (by decide)⟩

/-! ## Theorems: GSM response parser -/

/-- Reading inside a list gives the element, written with a default. -/
theorem getElem?_eq_some_getD (l : List Nat) (i : Nat) (h : i < l.length) :
    l[i]? = some (l.getD i 0) := by
  rw [List.getD_eq_getElem?_getD, List.getElem?_eq_getElem h]
  rfl

/-- Every element read with a default from a list of bytes is a byte. -/
theorem getD_lt_256 (l : List Nat) (hb : ∀ b ∈ l, b < 256) (i : Nat) : l.getD i 0 < 256 := by
  rw [List.getD_eq_getElem?_getD]
  by_cases h : i < l.length
  · rw [List.getElem?_eq_getElem h]
    exact hb _ (List.getElem_mem h)
  · rw [List.getElem?_eq_none (by omega)]
    decide

/-- The 16-bit big-endian store `x = hi << 8; x |= lo` of two bytes. -/
theorem be16_eq (hi lo : Nat) (h1 : hi < 256) (h2 : lo < 256) :
    (((hi <<< 8) % 2 ^ 16) ||| lo) % 2 ^ 16 = 256 * hi + lo := by
  have e : (hi <<< 8) % 2 ^ 16 = 2 ^ 8 * hi := by
    rw [Nat.shiftLeft_eq]; omega
  rw [e, ← Nat.mul_add_lt_is_or (by omega : lo < 2 ^ 8)]
  omega

/-- Masking with `0x80` tests bit 7. -/
theorem and_0x80_ne_zero (n : Nat) : (n &&& 0x80 ≠ 0) ↔ n.testBit 7 = true := by
  have e : n &&& 0x80 = (n.testBit 7).toNat * 2 ^ 7 := Nat.and_two_pow n 7
  rw [e]
  cases n.testBit 7 <;> simp

/-- The EF arm succeeds on every buffer of at least 15 bytes and yields these fields. -/
theorem parse_select_ef_eq (r : List Nat) (hlen : 15 ≤ r.length) :
    parse_select_ef r = some
      { file_size := ((((r.getD 2 0) <<< 8) % 2 ^ 16) ||| r.getD 3 0) % 2 ^ 16,
        file_id := ((((r.getD 4 0) <<< 8) % 2 ^ 16) ||| r.getD 5 0) % 2 ^ 16,
        file_type := r.getD 6 0, status := r.getD 11 0,
        structure_code := r.getD 13 0, record_len := r.getD 14 0 } := by
  simp only [parse_select_ef,
    getElem?_eq_some_getD r 2 (by omega), getElem?_eq_some_getD r 3 (by omega),
    getElem?_eq_some_getD r 4 (by omega), getElem?_eq_some_getD r 5 (by omega),
    getElem?_eq_some_getD r 6 (by omega), getElem?_eq_some_getD r 11 (by omega),
    getElem?_eq_some_getD r 13 (by omega), getElem?_eq_some_getD r 14 (by omega)]

/-- The MF/DF arm succeeds on every buffer of at least 22 bytes and yields these
fields. -/
theorem parse_select_mf_df_eq (r : List Nat) (hlen : 22 ≤ r.length) :
    parse_select_mf_df r = some
      { file_memory := ((((r.getD 2 0) <<< 8) % 2 ^ 16) ||| r.getD 3 0) % 2 ^ 16,
        file_id := ((((r.getD 4 0) <<< 8) % 2 ^ 16) ||| r.getD 5 0) % 2 ^ 16,
        file_type := r.getD 6 0,
        characteristics := r.getD 13 0,
        CHV1_enabled := if r.getD 13 0 &&& 0x80 ≠ 0 then false else true,
        df_children := r.getD 14 0, ef_children := r.getD 15 0, num_chvs := r.getD 16 0,
        CHV1_initialized := if r.getD 18 0 &&& 0x80 ≠ 0 then true else false,
        CHV1_attempts_remaining := r.getD 18 0 &&& 0x0f,
        CHV1_unblock_attempts_remaining := r.getD 19 0 &&& 0x0f,
        CHV2_initialized := if r.getD 20 0 &&& 0x80 ≠ 0 then true else false,
        CHV2_attempts_remaining := r.getD 20 0 &&& 0x0f,
        CHV2_unblock_attempts_remaining := r.getD 21 0 &&& 0x0f } := by
  simp only [parse_select_mf_df,
    getElem?_eq_some_getD r 2 (by omega), getElem?_eq_some_getD r 3 (by omega),
    getElem?_eq_some_getD r 4 (by omega), getElem?_eq_some_getD r 5 (by omega),
    getElem?_eq_some_getD r 6 (by omega), getElem?_eq_some_getD r 13 (by omega),
    getElem?_eq_some_getD r 14 (by omega), getElem?_eq_some_getD r 15 (by omega),
    getElem?_eq_some_getD r 16 (by omega), getElem?_eq_some_getD r 18 (by omega),
    getElem?_eq_some_getD r 19 (by omega), getElem?_eq_some_getD r 20 (by omega),
    getElem?_eq_some_getD r 21 (by omega)]

/-- C4: on a buffer of at least 22 bytes, with the tag `SELECT_MF_DF`, the parser
returns Success and fills the MF/DF descriptor from the fixed offsets: big-endian
16-bit free memory and file id, the copied bytes, `CHV1_enabled` as bit 7 of the
characteristics byte inverted, the two initialised flags as bit 7 and the four
counters as low nibbles. -/
theorem C4_select_mf_df (r : List Nat) (resp : GSM_response)
    (hcmd : resp.command = SELECT_MF_DF) (hlen : 22 ≤ r.length)
    (hbytes : ∀ b ∈ r, b < 256) :
    gsm_parse_response (some r) resp = some (SCSISIM_SUCCESS,
      { command := SELECT_MF_DF,
        type := GSM_type.mf_df
          { file_memory := 256 * r.getD 2 0 + r.getD 3 0,
            file_id := 256 * r.getD 4 0 + r.getD 5 0,
            file_type := r.getD 6 0,
            characteristics := r.getD 13 0,
            CHV1_enabled := decide (r.getD 13 0 &&& 0x80 = 0),
            df_children := r.getD 14 0,
            ef_children := r.getD 15 0,
            num_chvs := r.getD 16 0,
            CHV1_initialized := (r.getD 18 0).testBit 7,
            CHV1_attempts_remaining := r.getD 18 0 &&& 0x0f,
            CHV1_unblock_attempts_remaining := r.getD 19 0 &&& 0x0f,
            CHV2_initialized := (r.getD 20 0).testBit 7,
            CHV2_attempts_remaining := r.getD 20 0 &&& 0x0f,
            CHV2_unblock_attempts_remaining := r.getD 21 0 &&& 0x0f } }) := by
  have hguard : ¬ ((resp.command = SELECT_EF ∧ r.length < GSM_MIN_EF_RESPONSE_LEN) ∨
      (resp.command = SELECT_MF_DF ∧ r.length < GSM_MIN_MF_DF_RESPONSE_LEN)) := by
    rw [hcmd]
    simp only [GSM_MIN_MF_DF_RESPONSE_LEN]
    rintro (⟨h, -⟩ | ⟨-, h⟩)
    · exact absurd h (by decide)
    · omega
  have hne : ¬ resp.command = SELECT_EF := by rw [hcmd]; decide
  have init : ∀ n : Nat, (if n &&& 0x80 ≠ 0 then true else false) = n.testBit 7 := by
    intro n
    by_cases h : n &&& 0x80 ≠ 0
    · rw [if_pos h, (and_0x80_ne_zero n).mp h]
    · rw [if_neg h]
      cases hb : n.testBit 7
      · rfl
      · exact absurd ((and_0x80_ne_zero n).mpr hb) h
  have enab : ∀ n : Nat, (if n &&& 0x80 ≠ 0 then false else true) = decide (n &&& 0x80 = 0) := by
    intro n
    by_cases h : n &&& 0x80 = 0 <;> simp [h]
  unfold gsm_parse_response
  simp only []
  rw [if_neg hguard, if_neg hne, if_pos hcmd, parse_select_mf_df_eq r hlen]
  simp only [Option.map_some', init, enab,
    be16_eq _ _ (getD_lt_256 r hbytes 2) (getD_lt_256 r hbytes 3),
    be16_eq _ _ (getD_lt_256 r hbytes 4) (getD_lt_256 r hbytes 5)]
  rw [← hcmd]

/-- C4 (witness): 23 bytes with `[13] = 0x80`, `[14] = 2`, `[15] = 5`, `[18] = 0x83` give
`CHV1_enabled = false`, `df_children = 2`, `ef_children = 5`, `CHV1_initialized = true`
and `CHV1_attempts_remaining = 3`. -/
theorem C4_select_mf_df_witness :
    gsm_parse_response
      (some [0, 0, 0, 0, 0, 0, 0, 0, 0, 0, 0, 0, 0, 0x80, 2, 5, 0, 0, 0x83, 0, 0, 0, 0])
      ⟨SELECT_MF_DF, GSM_type.ef ⟨0, 0, 0, 0, 0, 0⟩⟩ = some (SCSISIM_SUCCESS,
      { command := SELECT_MF_DF,
        type := GSM_type.mf_df
          { file_memory := 0, file_id := 0, file_type := 0, characteristics := 0x80,
            CHV1_enabled := false, df_children := 2, ef_children := 5, num_chvs := 0,
            CHV1_initialized := true, CHV1_attempts_remaining := 3,
            CHV1_unblock_attempts_remaining := 0, CHV2_initialized := false,
            CHV2_attempts_remaining := 0, CHV2_unblock_attempts_remaining := 0 } }) :=
  C4_select_mf_df [0, 0, 0, 0, 0, 0, 0, 0, 0, 0, 0, 0, 0, 0x80, 2, 5, 0, 0, 0x83, 0, 0, 0, 0]
    ⟨SELECT_MF_DF, GSM_type.ef ⟨0, 0, 0, 0, 0, 0⟩⟩ rfl (by decide) (by decide)

/-- C5: on a buffer of at least 15 bytes, with the tag `SELECT_EF`, the parser returns
Success and fills the EF descriptor: big-endian 16-bit file size and file id, and the
file type (whatever its value), status, structure and record length bytes copied from
offsets 6, 11, 13 and 14.  Two accepted buffers that agree at the offsets
2, 3, 4, 5, 6, 11, 13 and 14 give the same EF descriptor. -/
theorem C5_select_ef (r : List Nat) (resp : GSM_response)
    (hcmd : resp.command = SELECT_EF) (hlen : 15 ≤ r.length)
    (hbytes : ∀ b ∈ r, b < 256) :
    gsm_parse_response (some r) resp = some (SCSISIM_SUCCESS,
      { command := SELECT_EF,
        type := GSM_type.ef
          { file_size := 256 * r.getD 2 0 + r.getD 3 0,
            file_id := 256 * r.getD 4 0 + r.getD 5 0,
            file_type := r.getD 6 0,
            status := r.getD 11 0,
            structure_code := r.getD 13 0,
            record_len := r.getD 14 0 } }) ∧
    (∀ (r' : List Nat) (resp' : GSM_response), resp'.command = SELECT_EF →
      15 ≤ r'.length → (∀ i ∈ [2, 3, 4, 5, 6, 11, 13, 14], r'.getD i 0 = r.getD i 0) →
      (gsm_parse_response (some r') resp').map (fun x => x.2.type) =
        (gsm_parse_response (some r) resp).map (fun x => x.2.type)) := by
  have step : ∀ (r' : List Nat) (resp' : GSM_response), resp'.command = SELECT_EF →
      15 ≤ r'.length →
      gsm_parse_response (some r') resp' = some (SCSISIM_SUCCESS,
        { command := SELECT_EF,
          type := GSM_type.ef
            { file_size := ((((r'.getD 2 0) <<< 8) % 2 ^ 16) ||| r'.getD 3 0) % 2 ^ 16,
              file_id := ((((r'.getD 4 0) <<< 8) % 2 ^ 16) ||| r'.getD 5 0) % 2 ^ 16,
              file_type := r'.getD 6 0, status := r'.getD 11 0,
              structure_code := r'.getD 13 0, record_len := r'.getD 14 0 } }) := by
    intro r' resp' hc hl
    have hguard : ¬ ((resp'.command = SELECT_EF ∧ r'.length < GSM_MIN_EF_RESPONSE_LEN) ∨
        (resp'.command = SELECT_MF_DF ∧ r'.length < GSM_MIN_MF_DF_RESPONSE_LEN)) := by
      rw [hc]
      simp only [GSM_MIN_EF_RESPONSE_LEN]
      rintro (⟨-, h⟩ | ⟨h, -⟩)
      · omega
      · exact absurd h (by decide)
    unfold gsm_parse_response
    simp only []
    rw [if_neg hguard, if_pos hc, parse_select_ef_eq r' hl]
    simp only [Option.map_some']
    rw [← hc]
  refine ⟨?_, ?_⟩
  · rw [step r resp hcmd hlen]
    simp only [be16_eq _ _ (getD_lt_256 r hbytes 2) (getD_lt_256 r hbytes 3),
      be16_eq _ _ (getD_lt_256 r hbytes 4) (getD_lt_256 r hbytes 5)]
  · intro r' resp' hc hl hagree
    rw [step r resp hcmd hlen, step r' resp' hc hl]
    simp only [Option.map_some', hagree 2 (by decide), hagree 3 (by decide),
      hagree 4 (by decide), hagree 5 (by decide), hagree 6 (by decide),
      hagree 11 (by decide), hagree 13 (by decide), hagree 14 (by decide)]

/-- C5 (witness): a 15-byte response with size `0x0100`, id `0x6f3a`, type 4, status 1,
linear-fixed structure and record length `0x1c`. -/
theorem C5_select_ef_witness :
    gsm_parse_response
      (some [0, 0, 0x01, 0x00, 0x6f, 0x3a, 4, 0, 0, 0, 0, 1, 0, 1, 0x1c])
      ⟨SELECT_EF, GSM_type.ef ⟨0, 0, 0, 0, 0, 0⟩⟩ = some (SCSISIM_SUCCESS,
      { command := SELECT_EF,
        type := GSM_type.ef
          { file_size := 0x0100, file_id := 0x6f3a, file_type := 4, status := 1,
            structure_code := 1, record_len := 0x1c } }) :=
  (C5_select_ef [0, 0, 0x01, 0x00, 0x6f, 0x3a, 4, 0, 0, 0, 0, 1, 0, 1, 0x1c]
    ⟨SELECT_EF, GSM_type.ef ⟨0, 0, 0, 0, 0, 0⟩⟩ rfl (by decide) (by decide)).1

/-- The EF arm reads index 14: it fails on every buffer shorter than 15 bytes. -/
theorem parse_select_ef_short (r : List Nat) (h : r.length < 15) :
    parse_select_ef r = none := by
  have h14 : r[14]? = none := List.getElem?_eq_none (by omega)
  unfold parse_select_ef
  repeat' split
  all_goals first | rfl | simp_all

/-- The MF/DF arm reads index 21: it fails on every buffer shorter than 22 bytes. -/
theorem parse_select_mf_df_short (r : List Nat) (h : r.length < 22) :
    parse_select_mf_df r = none := by
  have h21 : r[21]? = none := List.getElem?_eq_none (by omega)
  unfold parse_select_mf_df
  repeat' split
  all_goals first | rfl | simp_all

/-- The parser with a present buffer, by tag: the length guard, then the arm. -/
theorem gsm_parse_response_some (r : List Nat) (resp : GSM_response) :
    gsm_parse_response (some r) resp =
      if resp.command = SELECT_EF then
        if r.length < 15 then some (SCSISIM_INVALID_GSM_RESPONSE, resp)
        else (parse_select_ef r).map
          fun d => (SCSISIM_SUCCESS, { resp with type := GSM_type.ef d })
      else if resp.command = SELECT_MF_DF then
        if r.length < 22 then some (SCSISIM_INVALID_GSM_RESPONSE, resp)
        else (parse_select_mf_df r).map
          fun d => (SCSISIM_SUCCESS, { resp with type := GSM_type.mf_df d })
      else some (SCSISIM_SUCCESS, resp) := by
  unfold gsm_parse_response
  simp only [GSM_MIN_EF_RESPONSE_LEN, GSM_MIN_MF_DF_RESPONSE_LEN]
  by_cases h1 : resp.command = SELECT_EF
  · have h2 : ¬ resp.command = SELECT_MF_DF := by rw [h1]; decide
    by_cases hl : r.length < 15 <;> simp [h1, hl]
  · by_cases h2 : resp.command = SELECT_MF_DF
    · by_cases hl : r.length < 22 <;> simp [h2, hl]
    · simp [h1, h2]

/-- C6: for a present buffer the parser rejects the tag `SELECT_EF` exactly when the
length is below 15 and the tag `SELECT_MF_DF` exactly when it is below 22.  These
minimum lengths are 14 + 1 and 21 + 1: the EF arm succeeds exactly on buffers that
hold index 14 and the MF/DF arm exactly on buffers that hold index 21.  Hence no call
with a present buffer reads outside it (the result is never `none`). -/
theorem C6_minimum_lengths :
    (∀ (r : List Nat) (resp : GSM_response), resp.command = SELECT_EF →
      ((gsm_parse_response (some r) resp).map Prod.fst = some SCSISIM_INVALID_GSM_RESPONSE
        ↔ r.length < 15)) ∧
    (∀ (r : List Nat) (resp : GSM_response), resp.command = SELECT_MF_DF →
      ((gsm_parse_response (some r) resp).map Prod.fst = some SCSISIM_INVALID_GSM_RESPONSE
        ↔ r.length < 22)) ∧
    GSM_MIN_EF_RESPONSE_LEN = 14 + 1 ∧
    GSM_MIN_MF_DF_RESPONSE_LEN = 21 + 1 ∧
    (∀ r : List Nat, (parse_select_ef r).isSome = true ↔ 14 < r.length) ∧
    (∀ r : List Nat, (parse_select_mf_df r).isSome = true ↔ 21 < r.length) ∧
    (∀ (r : List Nat) (resp : GSM_response),
      (gsm_parse_response (some r) resp).isSome = true) := by
  have ef_iff : ∀ r : List Nat, (parse_select_ef r).isSome = true ↔ 14 < r.length := by
    intro r
    by_cases h : r.length < 15
    · rw [parse_select_ef_short r h]
      simp only [Option.isSome_none, Bool.false_eq_true, false_iff]
      omega
    · rw [parse_select_ef_eq r (by omega)]
      simp only [Option.isSome_some, true_iff]
      omega
  have mf_iff : ∀ r : List Nat, (parse_select_mf_df r).isSome = true ↔ 21 < r.length := by
    intro r
    by_cases h : r.length < 22
    · rw [parse_select_mf_df_short r h]
      simp only [Option.isSome_none, Bool.false_eq_true, false_iff]
      omega
    · rw [parse_select_mf_df_eq r (by omega)]
      simp only [Option.isSome_some, true_iff]
      omega
  refine ⟨?_, ?_, rfl, rfl, ef_iff, mf_iff, ?_⟩
  · intro r resp hc
    rw [gsm_parse_response_some, if_pos hc]
    by_cases h : r.length < 15
    · rw [if_pos h]
      simp [h]
    · rw [if_neg h, parse_select_ef_eq r (by omega)]
      simp [h]
  · intro r resp hc
    have hne : ¬ resp.command = SELECT_EF := by rw [hc]; decide
    rw [gsm_parse_response_some, if_neg hne, if_pos hc]
    by_cases h : r.length < 22
    · rw [if_pos h]
      simp [h]
    · rw [if_neg h, parse_select_mf_df_eq r (by omega)]
      simp [h]
  · intro r resp
    rw [gsm_parse_response_some]
    by_cases h1 : resp.command = SELECT_EF
    · rw [if_pos h1]
      by_cases h : r.length < 15
      · rw [if_pos h]; rfl
      · rw [if_neg h, parse_select_ef_eq r (by omega)]; rfl
    · rw [if_neg h1]
      by_cases h2 : resp.command = SELECT_MF_DF
      · rw [if_pos h2]
        by_cases h : r.length < 22
        · rw [if_pos h]; rfl
        · rw [if_neg h, parse_select_mf_df_eq r (by omega)]; rfl
      · rw [if_neg h2]; rfl

/-- C6 (witness): 14 bytes are rejected for `SELECT_EF`, and 21 bytes for
`SELECT_MF_DF`. -/
theorem C6_minimum_lengths_witness :
    (gsm_parse_response (some (List.replicate 14 0))
        ⟨SELECT_EF, GSM_type.ef ⟨0, 0, 0, 0, 0, 0⟩⟩).map Prod.fst
      = some SCSISIM_INVALID_GSM_RESPONSE ∧
    (gsm_parse_response (some (List.replicate 21 0))
        ⟨SELECT_MF_DF, GSM_type.ef ⟨0, 0, 0, 0, 0, 0⟩⟩).map Prod.fst
      = some SCSISIM_INVALID_GSM_RESPONSE :=
  ⟨(C6_minimum_lengths.1 (List.replicate 14 0)
      ⟨SELECT_EF, GSM_type.ef ⟨0, 0, 0, 0, 0, 0⟩⟩ rfl).mpr (by decide),
   (C6_minimum_lengths.2.1 (List.replicate 21 0)
      ⟨SELECT_MF_DF, GSM_type.ef ⟨0, 0, 0, 0, 0, 0⟩⟩ rfl).mpr (by decide)⟩

/-- C7 (counterexample): with the tag `RUN_GSM_ALGORITHM` and a present one-byte
buffer the parser returns Success, not `InvalidGsmResponse`. -/
theorem C7_other_tag_not_rejected :
    (gsm_parse_response (some [0]) ⟨RUN_GSM_ALGORITHM, GSM_type.ef ⟨0, 0, 0, 0, 0, 0⟩⟩).map
        Prod.fst = some SCSISIM_SUCCESS ∧
    (gsm_parse_response (some [0]) ⟨RUN_GSM_ALGORITHM, GSM_type.ef ⟨0, 0, 0, 0, 0, 0⟩⟩).map
        Prod.fst ≠ some SCSISIM_INVALID_GSM_RESPONSE := by
  decide

/-- C7 (amended): for every command tag other than `SELECT_EF` and `SELECT_MF_DF` and
every present response buffer, the parser returns Success and leaves the response
structure as it was. -/
theorem C7_other_tag_success (r : List Nat) (resp : GSM_response)
    (h1 : resp.command ≠ SELECT_EF) (h2 : resp.command ≠ SELECT_MF_DF) :
    gsm_parse_response (some r) resp = some (SCSISIM_SUCCESS, resp) := by
  rw [gsm_parse_response_some, if_neg h1, if_neg h2]

/-- C7 (witness): the tag `SEEK` with an empty buffer. -/
theorem C7_other_tag_success_witness :
    gsm_parse_response (some []) ⟨SEEK, GSM_type.ef ⟨0, 0, 0, 0, 0, 0⟩⟩
      = some (SCSISIM_SUCCESS, ⟨SEEK, GSM_type.ef ⟨0, 0, 0, 0, 0, 0⟩⟩) :=
  C7_other_tag_success [] ⟨SEEK, GSM_type.ef ⟨0, 0, 0, 0, 0, 0⟩⟩ (by decide) (by decide)

/-! ## Theorems: septet unpacking -/

/-- The loop body reads inside `packed` for every index below its length and writes
one byte, or two at the end of a 7-byte group. -/
theorem unpack_septets_body_total (packed : List Nat) (i : Nat) (h : i < packed.length) :
    ∃ w, unpack_septets_body packed i = some w ∧
      w.length = if i % 7 = 6 then 2 else 1 := by
  unfold unpack_septets_body
  rw [List.getElem?_eq_getElem h]
  by_cases hpos : i % 7 > 0
  · have hi : i - 1 < packed.length := by omega
    simp only [hpos, if_true, List.getElem?_eq_getElem hi]
    by_cases h6 : i % 7 = 6
    · exact ⟨_, by rw [if_pos h6], by simp [h6]⟩
    · exact ⟨_, by rw [if_neg h6], by simp [h6]⟩
  · have h0 : ¬ i % 7 = 6 := by omega
    simp only [hpos, if_false]
    exact ⟨_, by rw [if_neg h0], by simp [h0]⟩

/-- The loop runs to the end without a bad read and writes `i + i / 7` bytes up to
index `i`. -/
theorem unpack_septets_loop_total (packed : List Nat) (n : Nat) :
    ∀ i, i + n ≤ packed.length →
      ∃ out, unpack_septets_loop packed i n = some out ∧
        out.length + (i + i / 7) = (i + n) + (i + n) / 7 := by
  induction n with
  | zero => intro i _; exact ⟨[], rfl, by simp⟩
  | succ n ih =>
    intro i h
    obtain ⟨w, hw, hwl⟩ := unpack_septets_body_total packed i (by omega)
    obtain ⟨rest, hr, hrl⟩ := ih (i + 1) (by omega)
    refine ⟨w ++ rest, ?_, ?_⟩
    · simp only [unpack_septets_loop, hw, hr]
    · rw [List.length_append, hwl]
      split_ifs with h6 <;> omega

/-- The outcome of `scsisim_unpack_septets` once the loop output is known, when
`packed_len * 8` does not wrap: the written bytes fill the buffer of `8 P / 7` bytes
exactly and the reported length is the smaller of `num_septets` and `8 P / 7`. -/
theorem scsisim_unpack_septets_done (num_septets : Nat) (packed out : List Nat)
    (hN : 1 ≤ num_septets) (hP : 1 ≤ packed.length) (hsize : 8 * packed.length < 2 ^ 32)
    (hout : unpack_septets_loop packed 0 packed.length = some out) :
    scsisim_unpack_septets num_septets (some packed)
        = unpack_outcome.done out (min num_septets (8 * packed.length / 7)) ∧
      out.length = 8 * packed.length / 7 := by
  obtain ⟨out', hout', hlen⟩ := unpack_septets_loop_total packed packed.length 0 (by omega)
  rw [hout] at hout'
  cases Option.some.inj hout'
  have hl : out.length = 8 * packed.length / 7 := by omega
  have hmod : packed.length * 8 % 2 ^ 32 = 8 * packed.length := by omega
  refine ⟨?_, hl⟩
  unfold scsisim_unpack_septets
  simp only [hout, hmod, hl]
  rw [if_neg (by omega), if_neg (by omega)]
  by_cases h : 8 * packed.length / 7 > num_septets
  · rw [if_pos h, Nat.min_eq_left (by omega)]
  · rw [if_neg h, Nat.min_eq_right (by omega)]

/-- When `packed_len * 8` wraps, the loop writes past the allocated buffer. -/
theorem unpack_septets_wrap_fault (num_septets : Nat) (packed : List Nat)
    (hN : 1 ≤ num_septets) (hwrap : 2 ^ 32 ≤ 8 * packed.length) :
    scsisim_unpack_septets num_septets (some packed) = unpack_outcome.fault := by
  obtain ⟨out, hout, hlen⟩ := unpack_septets_loop_total packed packed.length 0 (by omega)
  have hl : out.length = 8 * packed.length / 7 := by omega
  unfold scsisim_unpack_septets
  simp only [hout, hl]
  rw [if_neg (by omega), if_pos (by omega)]

/-- Bit `k` of `of_bits l` is the `k`-th element of `l`. -/
theorem testBit_of_bits (l : List Bool) : ∀ k, (of_bits l).testBit k = l.getD k false := by
  induction l with
  | nil => intro k; simp [of_bits]
  | cons b l ih =>
    intro k
    cases k with
    | zero =>
      simp only [of_bits, Nat.testBit_zero, List.getD_cons_zero]
      cases b <;> simp
    | succ k =>
      rw [Nat.testBit_succ, List.getD_cons_succ, ← ih k]
      congr 1
      simp only [of_bits]
      cases b <;> simp
      all_goals omega

/-- Bit `b` of packed byte `i` is stream bit `8 i + b`. -/
theorem testBit_pack_byte (s : List Nat) (i b : Nat) :
    (spec_pack_byte s i).testBit b = (decide (b < 8) && spec_septet_stream_bit s (8 * i + b)) := by
  unfold spec_pack_byte
  rw [testBit_of_bits, List.getD_eq_getElem?_getD, List.getElem?_map]
  by_cases h : b < 8
  · rw [List.getElem?_range h]
    simp [h]
  · rw [List.getElem?_eq_none (by simp; omega)]
    simp [h]

/-- A septet below `0x80` is given by its seven stream bits. -/
theorem testBit_septet (s : List Nat) (hs : ∀ x ∈ s, x < 0x80) (j t : Nat) :
    (s.getD j 0).testBit t = (decide (t < 7) && spec_septet_stream_bit s (7 * j + t)) := by
  by_cases h : t < 7
  · have e1 : (7 * j + t) / 7 = j := by omega
    have e2 : (7 * j + t) % 7 = t := by omega
    simp [spec_septet_stream_bit, e1, e2, h]
  · have hlt : s.getD j 0 < 2 ^ 7 := by
      rw [List.getD_eq_getElem?_getD]
      by_cases hj : j < s.length
      · rw [List.getElem?_eq_getElem hj]
        exact hs _ (List.getElem_mem hj)
      · rw [List.getElem?_eq_none (by omega)]
        decide
    have hle : 2 ^ 7 ≤ 2 ^ t := Nat.pow_le_pow_right (by decide) (by omega)
    rw [Nat.testBit_lt_two_pow (by omega)]
    simp [h]

/-- The shifted and masked byte the loop body writes first, on a packed stream: it is
septet `i + i / 7`. -/
theorem unpack_first_septet (s : List Nat) (hs : ∀ x ∈ s, x < 0x80) (i : Nat)
    (hpos : 0 < i % 7) :
    ((((spec_pack_byte s i <<< (i % 7)) % 256) ||| (spec_pack_byte s (i - 1) >>> (8 - i % 7))) % 256)
      &&& 0x7f = s.getD (i + i / 7) 0 := by
  apply Nat.eq_of_testBit_eq
  intro t
  have e7f : (0x7f : Nat) = 2 ^ 7 - 1 := by decide
  have e256 : (256 : Nat) = 2 ^ 8 := by decide
  rw [testBit_septet s hs, e7f, e256, Nat.testBit_and, Nat.testBit_two_pow_sub_one,
    Nat.testBit_mod_two_pow, Nat.testBit_or, Nat.testBit_mod_two_pow, Nat.testBit_shiftLeft,
    Nat.testBit_shiftRight, testBit_pack_byte, testBit_pack_byte]
  by_cases h7 : t < 7
  · by_cases hlt : t < i % 7
    · have e : 8 * (i - 1) + (8 - i % 7 + t) = 7 * (i + i / 7) + t := by omega
      have a1 : ¬ t ≥ i % 7 := by omega
      have a2 : 8 - i % 7 + t < 8 := by omega
      have a3 : t < 8 := by omega
      simp [h7, a1, a2, a3, e]
    · have e : 8 * i + (t - i % 7) = 7 * (i + i / 7) + t := by omega
      have a1 : t ≥ i % 7 := by omega
      have a2 : ¬ 8 - i % 7 + t < 8 := by omega
      have a3 : t < 8 := by omega
      have a4 : t - i % 7 < 8 := by omega
      simp [h7, a1, a2, a3, a4, e]
  · simp [h7]

/-- At the start of a 7-byte group the masked byte is septet `i + i / 7`. -/
theorem unpack_first_septet_zero (s : List Nat) (hs : ∀ x ∈ s, x < 0x80) (i : Nat)
    (hpos : i % 7 = 0) :
    spec_pack_byte s i &&& 0x7f = s.getD (i + i / 7) 0 := by
  apply Nat.eq_of_testBit_eq
  intro t
  have e7f : (0x7f : Nat) = 2 ^ 7 - 1 := by decide
  rw [testBit_septet s hs, e7f, Nat.testBit_and, Nat.testBit_two_pow_sub_one,
    testBit_pack_byte]
  by_cases h7 : t < 7
  · have e : 8 * i + t = 7 * (i + i / 7) + t := by omega
    have a3 : t < 8 := by omega
    simp [h7, a3, e]
  · simp [h7]

/-- At the end of a 7-byte group the extra byte is septet `i + i / 7 + 1`. -/
theorem unpack_eighth_septet (s : List Nat) (hs : ∀ x ∈ s, x < 0x80) (i : Nat)
    (hpos : i % 7 = 6) :
    (spec_pack_byte s i >>> 1) % 256 = s.getD (i + i / 7 + 1) 0 := by
  apply Nat.eq_of_testBit_eq
  intro t
  have e256 : (256 : Nat) = 2 ^ 8 := by decide
  rw [testBit_septet s hs, e256, Nat.testBit_mod_two_pow, Nat.testBit_shiftRight,
    testBit_pack_byte]
  by_cases h7 : t < 7
  · have e : 8 * i + (1 + t) = 7 * (i + i / 7 + 1) + t := by omega
    have a3 : t < 8 := by omega
    have a4 : 1 + t < 8 := by omega
    simp [h7, a3, a4, e]
  · have a4 : ¬ 1 + t < 8 := by omega
    simp [h7, a4]

/-- The packed stream has `ceil(7M/8)` bytes. -/
theorem length_pack_septets (s : List Nat) :
    (spec_pack_septets s).length = (7 * s.length + 7) / 8 := by
  simp [spec_pack_septets]

/-- Byte `i` of the packed stream. -/
theorem getElem?_pack_septets (s : List Nat) (i : Nat) (h : i < (7 * s.length + 7) / 8) :
    (spec_pack_septets s)[i]? = some (spec_pack_byte s i) := by
  unfold spec_pack_septets
  rw [List.getElem?_map, List.getElem?_range h]
  rfl

/-- On a packed stream the loop body at byte `i` writes septet `i + i / 7`, and septet
`i + i / 7 + 1` as well at the end of a 7-byte group. -/
theorem unpack_septets_body_pack (s : List Nat) (hs : ∀ x ∈ s, x < 0x80) (i : Nat)
    (h : i < (7 * s.length + 7) / 8) :
    unpack_septets_body (spec_pack_septets s) i =
      some (if i % 7 = 6 then [s.getD (i + i / 7) 0, s.getD (i + i / 7 + 1) 0]
        else [s.getD (i + i / 7) 0]) := by
  unfold unpack_septets_body
  rw [getElem?_pack_septets s i h]
  by_cases hpos : i % 7 > 0
  · simp only [hpos, if_true, getElem?_pack_septets s (i - 1) (by omega),
      unpack_first_septet s hs i hpos]
    by_cases h6 : i % 7 = 6
    · rw [if_pos h6, if_pos h6, unpack_eighth_septet s hs i h6]
    · rw [if_neg h6, if_neg h6]
  · have h0 : i % 7 = 0 := by omega
    have h6 : ¬ i % 7 = 6 := by omega
    simp only [hpos, if_false, unpack_first_septet_zero s hs i h0]
    rw [if_neg h6, if_neg h6]

/-- On a packed stream the loop from byte `i` on writes the septets from `i + i / 7`
on, in order. -/
theorem unpack_septets_loop_pack (s : List Nat) (hs : ∀ x ∈ s, x < 0x80) (n : Nat) :
    ∀ i, i + n ≤ (7 * s.length + 7) / 8 →
      unpack_septets_loop (spec_pack_septets s) i n =
        some ((List.range' (i + i / 7) ((i + n) + (i + n) / 7 - (i + i / 7))).map
          fun j => s.getD j 0) := by
  induction n with
  | zero =>
    intro i _
    simp [unpack_septets_loop]
  | succ n ih =>
    intro i h
    simp only [unpack_septets_loop, unpack_septets_body_pack s hs i (by omega),
      ih (i + 1) (by omega)]
    by_cases h6 : i % 7 = 6
    · have e1 : i + (n + 1) + (i + (n + 1)) / 7 - (i + i / 7)
          = (i + 1 + n + (i + 1 + n) / 7 - (i + 1 + (i + 1) / 7)) + 1 + 1 := by omega
      have e2 : i + 1 + (i + 1) / 7 = i + i / 7 + 1 + 1 := by omega
      rw [if_pos h6, e1, e2, List.range'_succ, List.range'_succ]
      simp
    · have e1 : i + (n + 1) + (i + (n + 1)) / 7 - (i + i / 7)
          = (i + 1 + n + (i + 1 + n) / 7 - (i + 1 + (i + 1) / 7)) + 1 := by omega
      have e2 : i + 1 + (i + 1) / 7 = i + i / 7 + 1 := by omega
      rw [if_neg h6, e1, e2, List.range'_succ]
      simp

/-- The first `N` septets come back from the list of all septets the loop writes. -/
theorem take_unpacked (s : List Nat) (N T : Nat) (h1 : N ≤ s.length) (h2 : s.length ≤ T) :
    ((List.range' 0 T).map fun j => s.getD j 0).take N = s.take N := by
  apply List.ext_getElem?
  intro k
  by_cases hk : k < N
  · rw [List.getElem?_take_of_lt hk, List.getElem?_take_of_lt hk, List.getElem?_map,
      List.getElem?_range' _ _ (by omega), List.getElem?_eq_getElem (by omega)]
    simp only [Option.map_some', Nat.zero_add, Nat.one_mul, List.getD_eq_getElem?_getD]
    rw [List.getElem?_eq_getElem (by omega)]
    rfl
  · rw [List.getElem?_eq_none (by simp; omega), List.getElem?_eq_none (by simp; omega)]

/-- C8 (counterexample): 613566757 zero septets pack into 536870913 bytes, for which
`packed_len * 8` wraps to 8; the buffer then has one byte and the loop writes past it,
so with `N = 2` the call does not report length 2. -/
theorem C8_round_trip_wraps :
    (∀ x ∈ List.replicate 613566757 0, x < 0x80) ∧
    2 ≤ (List.replicate 613566757 0).length ∧
    (spec_pack_septets (List.replicate 613566757 0)).length = 536870913 ∧
    (536870913 * 8 % 2 ^ 32) / 7 = 1 ∧
    scsisim_unpack_septets 2 (some (spec_pack_septets (List.replicate 613566757 0)))
      = unpack_outcome.fault ∧
    ¬ ∃ unpacked, scsisim_unpack_septets 2 (some (spec_pack_septets (List.replicate 613566757 0)))
      = unpack_outcome.done unpacked 2 := by
  have hlen : (spec_pack_septets (List.replicate 613566757 0)).length = 536870913 := by
    rw [length_pack_septets, List.length_replicate]
  have hf : scsisim_unpack_septets 2 (some (spec_pack_septets (List.replicate 613566757 0)))
      = unpack_outcome.fault :=
    unpack_septets_wrap_fault 2 _ (by omega) (by rw [hlen]; omega)
  refine ⟨?_, ?_, hlen, by decide, hf, ?_⟩
  · intro x hx
    rw [List.eq_of_mem_replicate hx]
    decide
  · rw [List.length_replicate]
    omega
  · rintro ⟨w, hw⟩
    rw [hf] at hw
    exact unpack_outcome.noConfusion hw

/-- C8 (amended): septet round trip.  For every list `s` of `M ≥ 1` septets, each below
`0x80`, whose packed length `P = ceil(7M/8)` satisfies `8 P < 2 ^ 32`, and every `N`
with `1 ≤ N ≤ M`, unpacking the GSM 03.38 packing of `s` reports length `N` and
yields exactly the first `N` septets of `s`. -/
theorem C8_round_trip (s : List Nat) (N : Nat) (hs : ∀ x ∈ s, x < 0x80)
    (hN : 1 ≤ N) (hNM : N ≤ s.length) (hsize : 8 * ((7 * s.length + 7) / 8) < 2 ^ 32) :
    ∃ unpacked, scsisim_unpack_septets N (some (spec_pack_septets s))
        = unpack_outcome.done unpacked N ∧
      unpacked.take N = s.take N := by
  have hloop := unpack_septets_loop_pack s hs ((7 * s.length + 7) / 8) 0 (by omega)
  rw [← length_pack_septets s] at hloop
  have hdone := (scsisim_unpack_septets_done N (spec_pack_septets s) _ hN
    (by rw [length_pack_septets]; omega) (by rw [length_pack_septets]; exact hsize) hloop).1
  rw [length_pack_septets] at hdone
  rw [Nat.min_eq_left (by omega)] at hdone
  refine ⟨_, hdone, ?_⟩
  simp only [Nat.zero_add, Nat.zero_div, Nat.sub_zero]
  exact take_unpacked s N _ hNM (by omega)

/-- C8 (witness): the septets of "Hello" pack to `c8 32 9b fd 06` and come back. -/
theorem C8_round_trip_witness :
    spec_pack_septets [0x48, 0x65, 0x6c, 0x6c, 0x6f] = [0xc8, 0x32, 0x9b, 0xfd, 0x06] ∧
    ∃ unpacked, scsisim_unpack_septets 5 (some (spec_pack_septets [0x48, 0x65, 0x6c, 0x6c, 0x6f]))
        = unpack_outcome.done unpacked 5 ∧
      unpacked.take 5 = [0x48, 0x65, 0x6c, 0x6c, 0x6f].take 5 :=
  ⟨by decide, C8_round_trip [0x48, 0x65, 0x6c, 0x6c, 0x6f] 5 (by decide) (by decide)
    (by decide) (by decide)⟩

/-- C9 (counterexample): for `P = 2 ^ 29 + 1` packed bytes `packed_len * 8` wraps to 8,
the buffer has one byte, and the loop writes past it: with `N = 1` the call does not
report `min(1, floor(8 P / 7)) = 1`. -/
theorem C9_unpacked_len_wraps :
    (List.replicate (2 ^ 29 + 1) 0).length = 2 ^ 29 + 1 ∧
    ((2 ^ 29 + 1) * 8 % 2 ^ 32) / 7 = 1 ∧
    scsisim_unpack_septets 1 (some (List.replicate (2 ^ 29 + 1) 0)) = unpack_outcome.fault ∧
    ¬ ∃ written, scsisim_unpack_septets 1 (some (List.replicate (2 ^ 29 + 1) 0))
        = unpack_outcome.done written (min 1 (8 * (2 ^ 29 + 1) / 7)) := by
  have hf : scsisim_unpack_septets 1 (some (List.replicate (2 ^ 29 + 1) 0))
      = unpack_outcome.fault :=
    unpack_septets_wrap_fault 1 _ (by omega) (by rw [List.length_replicate]; omega)
  refine ⟨List.length_replicate _ _, by decide, hf, ?_⟩
  rintro ⟨w, hw⟩
  rw [hf] at hw
  exact unpack_outcome.noConfusion hw

/-- C9 (amended): for every `num_septets = N ≥ 1` and every packed slice of length
`P ≥ 1` with `8 P < 2 ^ 32`, the call reports `unpacked_len = min(N, floor(8 P / 7))`,
and the buffer holds `floor(8 P / 7)` written bytes. -/
theorem C9_unpacked_len (num_septets : Nat) (packed : List Nat)
    (hN : 1 ≤ num_septets) (hP : 1 ≤ packed.length) (hsize : 8 * packed.length < 2 ^ 32) :
    ∃ written, scsisim_unpack_septets num_septets (some packed)
        = unpack_outcome.done written (min num_septets (8 * packed.length / 7)) ∧
      written.length = 8 * packed.length / 7 := by
  obtain ⟨out, hout, -⟩ := unpack_septets_loop_total packed packed.length 0 (by omega)
  exact ⟨out, scsisim_unpack_septets_done num_septets packed out hN hP hsize hout⟩

/-- C9 (witness): five packed bytes hold `floor(40 / 7) = 5` septets; with `N = 3` the
reported length is 3, with `N = 9` it stays 5. -/
theorem C9_unpacked_len_witness :
    (∃ written, scsisim_unpack_septets 3 (some [0xc8, 0x32, 0x9b, 0xfd, 0x06])
        = unpack_outcome.done written 3 ∧ written.length = 5) ∧
    (∃ written, scsisim_unpack_septets 9 (some [0xc8, 0x32, 0x9b, 0xfd, 0x06])
        = unpack_outcome.done written 5 ∧ written.length = 5) :=
  ⟨C9_unpacked_len 3 [0xc8, 0x32, 0x9b, 0xfd, 0x06] (by decide) (by decide) (by decide),
   C9_unpacked_len 9 [0xc8, 0x32, 0x9b, 0xfd, 0x06] (by decide) (by decide) (by decide)⟩

/-! ## Theorems: GSM 7-bit alphabet -/

/-- The basic table has 128 entries. -/
theorem length_GSM_basic_charset : GSM_basic_charset.length = 128 := rfl

set_option maxRecDepth 100000 in
/-- Every byte below `0x80` other than the escape, mapped on its own, reads back as
its entry of the basic table. -/
theorem map_gsm_chars_single_basic :
    ∀ b < 0x80, b ≠ 0x1b →
      map_gsm_chars_string (some [b]) = (GSM_basic_charset[b]?).map c_str := by
  decide

/-- C10: for every byte `b < 0x80` other than `0x1b`, `scsisim_map_gsm_chars` applied
to the one-byte input `[b]` returns a buffer whose C string is exactly the UTF-8
string `GSM_basic_charset[b]`. -/
theorem C10_single_basic (b : Nat) (hb : b < 0x80) (hne : b ≠ 0x1b) :
    ∃ str result, GSM_basic_charset[b]? = some str ∧
      scsisim_map_gsm_chars (some [b]) = map_outcome.buffer result ∧
      c_string result = some (c_str str) := by
  have hlen : b < GSM_basic_charset.length := by
    rw [length_GSM_basic_charset]
    omega
  have hstr : GSM_basic_charset[b]? = some GSM_basic_charset[b] :=
    List.getElem?_eq_getElem hlen
  have h := map_gsm_chars_single_basic b hb hne
  rw [hstr] at h
  unfold map_gsm_chars_string at h
  cases hout : scsisim_map_gsm_chars (some [b]) with
  | null => rw [hout] at h; exact absurd h (by simp)
  | fault => rw [hout] at h; exact absurd h (by simp)
  | buffer result =>
    rw [hout] at h
    exact ⟨_, result, hstr, rfl, h⟩

/-- C10 (witness): the byte `0x40` maps to the inverted exclamation mark U+00A1, the
two bytes `c2 a1`. -/
theorem C10_single_basic_witness :
    ∃ str result, GSM_basic_charset[0x40]? = some str ∧
      scsisim_map_gsm_chars (some [0x40]) = map_outcome.buffer result ∧
      c_string result = some (c_str str) :=
  C10_single_basic 0x40 (by decide) (by decide)

/-! ## Theorems: escape and early halt of the alphabet mapping -/

set_option maxRecDepth 100000 in
/-- Every byte below `0x80` other than the escape, mapped after one escape byte, reads
back as its entry of the extension table. -/
theorem map_gsm_chars_escaped_pair :
    ∀ b < 0x80, b ≠ 0x1b →
      map_gsm_chars_string (some [0x1b, b]) = (GSM_basic_charset_extension[b]?).map c_str := by
  decide

/-- The extension table has 128 entries. -/
theorem length_GSM_basic_charset_extension : GSM_basic_charset_extension.length = 128 := rfl

set_option maxRecDepth 100000 in
/-- Every entry of the two tables has at most three bytes. -/
theorem table_entries_le_3 :
    ∀ c < 0x80,
      (GSM_basic_charset[c]?).map (fun s => decide ((c_str s).length ≤ 3)) = some true ∧
      (GSM_basic_charset_extension[c]?).map (fun s => decide ((c_str s).length ≤ 3))
        = some true := by
  decide

/-- A store that fits succeeds and keeps the buffer length. -/
theorem write_bytes_fits (bs : List Nat) : ∀ (buf : List (Option Nat)) (d : Nat),
    d + bs.length ≤ buf.length →
    ∃ buf', write_bytes buf d bs = some buf' ∧ buf'.length = buf.length := by
  induction bs with
  | nil => intro buf d _; exact ⟨buf, rfl, rfl⟩
  | cons b rest ih =>
    intro buf d h
    simp only [List.length_cons] at h
    obtain ⟨buf', h1, h2⟩ := ih (buf.set d (some b)) (d + 1) (by rw [List.length_set]; omega)
    refine ⟨buf', ?_, by rw [h2, List.length_set]⟩
    simp only [write_bytes]
    rw [if_pos (by omega), h1]

/-- Extra cells after the buffer do not change a store that succeeds. -/
theorem write_bytes_append (bs : List Nat) (pad : List (Option Nat)) :
    ∀ (buf buf' : List (Option Nat)) (d : Nat),
    write_bytes buf d bs = some buf' → write_bytes (buf ++ pad) d bs = some (buf' ++ pad) := by
  induction bs with
  | nil =>
    intro buf buf' d h
    simp only [write_bytes] at h ⊢
    cases h; rfl
  | cons b rest ih =>
    intro buf buf' d h
    simp only [write_bytes] at h ⊢
    by_cases hd : d < buf.length
    · rw [if_pos hd] at h
      rw [if_pos (by rw [List.length_append]; omega), List.set_append_left _ _ hd]
      exact ih _ _ _ h
    · rw [if_neg hd] at h
      cases h

/-- The loop never looks past the first byte above `0x7f`. -/
theorem map_gsm_loop_takeWhile (src : List Nat) : ∀ st : map_state,
    map_gsm_loop src st = map_gsm_loop (src.takeWhile fun c => decide (c ≤ 0x7f)) st := by
  induction src with
  | nil => intro st; rfl
  | cons c rest ih =>
    intro st
    by_cases hc : c > 0x7f
    · have hd : decide (c ≤ 0x7f) = false := by simp; omega
      rw [List.takeWhile_cons, hd]
      simp only [map_gsm_loop, if_pos hc]
    · have hd : decide (c ≤ 0x7f) = true := by simp; omega
      rw [List.takeWhile_cons, hd]
      simp only [map_gsm_loop, if_neg hc]
      by_cases he : c = GSM_ESCAPE_CHAR
      · simp only [if_pos he]
        exact ih _
      · simp only [if_neg he]
        cases hent : (if st.escapeChar = true then GSM_basic_charset_extension[c]?
            else GSM_basic_charset[c]?) with
        | none => rfl
        | some str =>
          simp only []
          cases hw : write_bytes st.buf st.dest (c_str str ++ [0]) with
          | none => rfl
          | some buf => exact ih _

/-- Extra cells after the buffer do not change what the loop does. -/
theorem map_gsm_loop_append (pad : List (Option Nat)) (src : List Nat) :
    ∀ (st st' : map_state), map_gsm_loop src st = some st' →
      map_gsm_loop src { st with buf := st.buf ++ pad } = some { st' with buf := st'.buf ++ pad } := by
  induction src with
  | nil =>
    intro st st' h
    simp only [map_gsm_loop] at h ⊢
    cases h; rfl
  | cons c rest ih =>
    intro st st' h
    simp only [map_gsm_loop] at h ⊢
    by_cases hc : c > 0x7f
    · rw [if_pos hc] at h ⊢
      cases h; rfl
    · rw [if_neg hc] at h ⊢
      by_cases he : c = GSM_ESCAPE_CHAR
      · rw [if_pos he] at h ⊢
        exact ih _ _ h
      · rw [if_neg he] at h ⊢
        cases hent : (if st.escapeChar = true then GSM_basic_charset_extension[c]?
            else GSM_basic_charset[c]?) with
        | none => rw [hent] at h; cases h
        | some str =>
          rw [hent] at h
          simp only [] at h ⊢
          cases hw : write_bytes st.buf st.dest (c_str str ++ [0]) with
          | none => rw [hw] at h; cases h
          | some buf =>
            rw [hw] at h
            simp only [] at h
            rw [write_bytes_append _ pad _ _ _ hw]
            exact ih _ _ h

/-- Either table gives, for every index below `0x80`, a string of at most 3 bytes. -/
theorem table_entry_exists (esc : Bool) (c : Nat) (hc : c < 0x80) :
    ∃ str, (if esc = true then GSM_basic_charset_extension[c]? else GSM_basic_charset[c]?)
        = some str ∧ (c_str str).length ≤ 3 := by
  obtain ⟨h1, h2⟩ := table_entries_le_3 c hc
  cases esc
  · cases hb : GSM_basic_charset[c]? with
    | none => rw [hb] at h1; cases h1
    | some str =>
      rw [hb] at h1
      exact ⟨str, by simp, by simpa using h1⟩
  · cases hb : GSM_basic_charset_extension[c]? with
    | none => rw [hb] at h2; cases h2
    | some str =>
      rw [hb] at h2
      exact ⟨str, by simp, by simpa using h2⟩

/-- With room for three bytes per source byte and one terminator the loop never
faults; it keeps the buffer length and advances `dest` by at most three per byte. -/
theorem map_gsm_loop_fits (src : List Nat) : ∀ st : map_state,
    st.dest + 3 * src.length + 1 ≤ st.buf.length →
    ∃ st', map_gsm_loop src st = some st' ∧ st'.buf.length = st.buf.length ∧
      st'.dest ≤ st.dest + 3 * src.length := by
  induction src with
  | nil => intro st _; exact ⟨st, rfl, rfl, by omega⟩
  | cons c rest ih =>
    intro st h
    simp only [List.length_cons] at h
    simp only [map_gsm_loop, List.length_cons]
    by_cases hc : c > 0x7f
    · rw [if_pos hc]
      exact ⟨st, rfl, rfl, by omega⟩
    · rw [if_neg hc]
      by_cases he : c = GSM_ESCAPE_CHAR
      · rw [if_pos he]
        obtain ⟨st', h1, h2, h3⟩ := ih { st with escapeChar := true } (by simp only; omega)
        exact ⟨st', h1, h2, by simp only at h3; omega⟩
      · rw [if_neg he]
        obtain ⟨str, hstr, hlen⟩ := table_entry_exists st.escapeChar c (by omega)
        rw [hstr]
        simp only []
        obtain ⟨buf, hw, hbl⟩ := write_bytes_fits (c_str str ++ [0]) st.buf st.dest
          (by rw [List.length_append, List.length_singleton]; omega)
        rw [hw]
        simp only []
        obtain ⟨st', h1, h2, h3⟩ := ih
          { buf := buf, dest := st.dest + (c_str str).length, escapeChar := false }
          (by simp only; omega)
        exact ⟨st', h1, by rw [h2]; exact hbl, by simp only at h3; omega⟩

/-- Uninitialised cells after a buffer do not change the C string read from it. -/
theorem c_string_append_none (n : Nat) : ∀ r : List (Option Nat),
    c_string (r ++ List.replicate n none) = c_string r := by
  intro r
  induction r with
  | nil =>
    cases n with
    | zero => rfl
    | succ n => rfl
  | cons x r ih =>
    cases x with
    | none => rfl
    | some b =>
      show c_string (some b :: (r ++ List.replicate n none)) = c_string (some b :: r)
      simp only [c_string]
      rw [ih]

/-- The outcome for a non-empty source, from the loop run on its valid prefix in a
buffer sized for that prefix. -/
theorem scsisim_map_gsm_chars_of_prefix (src : List Nat) (hne : src ≠ []) (k : Nat)
    (hk : (src.takeWhile fun c => decide (c ≤ 0x7f)).length = k) :
    ∃ st, map_gsm_loop (src.takeWhile fun c => decide (c ≤ 0x7f))
        { buf := List.replicate (k * 4 + 1) none, dest := 0, escapeChar := false } = some st ∧
      scsisim_map_gsm_chars (some src)
        = map_outcome.buffer (st.buf ++ List.replicate (4 * (src.length - k)) none) := by
  have hle : k ≤ src.length := by rw [← hk]; exact (List.takeWhile_prefix _).length_le
  obtain ⟨st, h1, -, -⟩ := map_gsm_loop_fits (src.takeWhile fun c => decide (c ≤ 0x7f))
    { buf := List.replicate (k * 4 + 1) none, dest := 0, escapeChar := false }
    (by simp only [List.length_replicate]; omega)
  refine ⟨st, h1, ?_⟩
  have hpos : ¬ src.length ≤ 0 := by
    cases src with
    | nil => exact absurd rfl hne
    | cons a l => simp
  have hsplit : List.replicate (src.length * 4 + 1) (none : Option Nat)
      = List.replicate (k * 4 + 1) none ++ List.replicate (4 * (src.length - k)) none := by
    rw [← List.replicate_add]
    congr 1
    omega
  have h2 := map_gsm_loop_append (List.replicate (4 * (src.length - k)) none) _ _ _ h1
  simp only [] at h2
  unfold scsisim_map_gsm_chars
  simp only []
  rw [if_neg hpos, map_gsm_loop_takeWhile, hsplit, h2]

set_option maxRecDepth 100000 in
/-- C11 (counterexample): for `b1 = 0x1b` the second byte is taken as another escape,
nothing is written, and the buffer of 9 cells comes back uninitialised; the result is
not the entry `" "` of the extension table. -/
theorem C11_escape_escape :
    GSM_basic_charset_extension[0x1b]? = some " " ∧
    scsisim_map_gsm_chars (some [0x1b, 0x1b]) = map_outcome.buffer (List.replicate 9 none) ∧
    map_gsm_chars_string (some [0x1b, 0x1b]) = none ∧
    map_gsm_chars_string (some [0x1b, 0x1b]) ≠ some (c_str " ") := by
  refine ⟨rfl, rfl, rfl, ?_⟩
  decide

/-- C11 (amended): for every byte `b1 < 0x80` other than `0x1b`, `scsisim_map_gsm_chars`
applied to the two-byte input `[0x1b, b1]` returns a buffer whose C string is exactly
`GSM_basic_charset_extension[b1]`. -/
theorem C11_escaped_pair (b1 : Nat) (hb : b1 < 0x80) (hne : b1 ≠ 0x1b) :
    ∃ str result, GSM_basic_charset_extension[b1]? = some str ∧
      scsisim_map_gsm_chars (some [0x1b, b1]) = map_outcome.buffer result ∧
      c_string result = some (c_str str) := by
  have hlen : b1 < GSM_basic_charset_extension.length := by
    rw [length_GSM_basic_charset_extension]
    omega
  have hstr : GSM_basic_charset_extension[b1]? = some GSM_basic_charset_extension[b1] :=
    List.getElem?_eq_getElem hlen
  have h := map_gsm_chars_escaped_pair b1 hb hne
  rw [hstr] at h
  unfold map_gsm_chars_string at h
  cases hout : scsisim_map_gsm_chars (some [0x1b, b1]) with
  | null => rw [hout] at h; exact absurd h (by simp)
  | fault => rw [hout] at h; exact absurd h (by simp)
  | buffer result =>
    rw [hout] at h
    exact ⟨_, result, hstr, rfl, h⟩

set_option maxRecDepth 100000 in
/-- C11 (witness): `[0x1b, 0x65]` gives the euro sign, and `[0x1b, 0x28, 0x1b, 0x29]`
gives the two braces. -/
theorem C11_escaped_pair_witness :
    (∃ str result, GSM_basic_charset_extension[0x65]? = some str ∧
      scsisim_map_gsm_chars (some [0x1b, 0x65]) = map_outcome.buffer result ∧
      c_string result = some (c_str str)) ∧
    GSM_basic_charset_extension[0x65]? = some "€" ∧
    map_gsm_chars_string (some [0x1b, 0x65]) = some [0xe2, 0x82, 0xac] ∧
    map_gsm_chars_string (some [0x1b, 0x28, 0x1b, 0x29]) = some [0x7b, 0x7d] :=
  ⟨C11_escaped_pair 0x65 (by decide) (by decide), rfl, by decide, by decide⟩

/-- The valid prefix of a source that starts with valid bytes `p` followed by an
invalid byte is `p`. -/
theorem takeWhile_valid (p : List Nat) (x : Nat) (rest : List Nat)
    (hp : ∀ b ∈ p, b ≤ 0x7f) (hx : x > 0x7f) :
    (p ++ x :: rest).takeWhile (fun c => decide (c ≤ 0x7f)) = p := by
  induction p with
  | nil =>
    have hd : decide (x ≤ 0x7f) = false := by simp; omega
    simp [List.takeWhile_cons, hd]
  | cons a p ih =>
    have ha : decide (a ≤ 0x7f) = true := by simpa using hp a (List.mem_cons_self _ _)
    rw [List.cons_append, List.takeWhile_cons, ha]
    simp only [if_true]
    rw [ih (fun b hb => hp b (List.mem_cons_of_mem _ hb))]

/-- The loop writes two characters per input byte. -/
theorem length_bcd_byte_chars (b : Nat) (le tel : Bool) :
    (bcd_byte_chars b le tel).length = 2 := by
  unfold bcd_byte_chars
  cases le <;> rfl

/-- The characters written for a list of bytes followed by more bytes. -/
theorem bcd_emitted_append (l1 l2 : List Nat) (le tel : Bool) :
    bcd_emitted (l1 ++ l2) le tel = bcd_emitted l1 le tel ++ bcd_emitted l2 le tel := by
  induction l1 with
  | nil => rfl
  | cons b l ih =>
    show bcd_emitted (b :: (l ++ l2)) le tel = bcd_emitted (b :: l) le tel ++ bcd_emitted l2 le tel
    rw [bcd_emitted, bcd_emitted, ih, List.append_assoc]

/-- The loop writes `2 * len` characters. -/
theorem length_bcd_emitted (bcd : List Nat) (le tel : Bool) :
    (bcd_emitted bcd le tel).length = 2 * bcd.length := by
  induction bcd with
  | nil => rfl
  | cons b l ih =>
    simp only [bcd_emitted, List.length_append, length_bcd_byte_chars, ih, List.length_cons]
    omega

/-- The two characters written for input byte `i` stand at positions `2 i` and
`2 i + 1`. -/
theorem getElem?_bcd_emitted (bcd : List Nat) (le tel : Bool) :
    ∀ i, i < bcd.length →
      (bcd_emitted bcd le tel)[2 * i]? = (bcd_byte_chars (bcd.getD i 0) le tel)[0]? ∧
      (bcd_emitted bcd le tel)[2 * i + 1]? = (bcd_byte_chars (bcd.getD i 0) le tel)[1]? := by
  induction bcd with
  | nil => intro i h; exact absurd h (by simp)
  | cons b l ih =>
    intro i h
    have h2 := length_bcd_byte_chars b le tel
    cases i with
    | zero =>
      simp only [bcd_emitted, List.getD_cons_zero, Nat.mul_zero, Nat.zero_add]
      rw [List.getElem?_append_left (by omega), List.getElem?_append_left (by omega)]
      exact ⟨rfl, rfl⟩
    | succ i =>
      simp only [List.length_cons] at h
      obtain ⟨e1, e2⟩ := ih i (by omega)
      simp only [bcd_emitted, List.getD_cons_succ]
      rw [List.getElem?_append_right (by omega), List.getElem?_append_right (by omega), h2]
      have a1 : 2 * (i + 1) - 2 = 2 * i := by omega
      have a2 : 2 * (i + 1) + 1 - 2 = 2 * i + 1 := by omega
      rw [a1, a2]
      exact ⟨e1, e2⟩

/-- For a byte the two nibbles fit their `unsigned char` variables. -/
theorem bcd_byte_chars_byte (b : Nat) (hb : b < 256) (le tel : Bool) :
    bcd_byte_chars b le tel =
      if le = true then
        [(if tel = true then BCD_telecom_digits else BCD_basic_digits).getD (b &&& 0xf) 0,
         (if tel = true then BCD_telecom_digits else BCD_basic_digits).getD (b >>> 4) 0]
      else
        [(if tel = true then BCD_telecom_digits else BCD_basic_digits).getD (b >>> 4) 0,
         (if tel = true then BCD_telecom_digits else BCD_basic_digits).getD (b &&& 0xf) 0] := by
  have h1 : (b &&& 0xf) % 256 = b &&& 0xf := by
    have : b &&& 0xf ≤ 0xf := Nat.and_le_right
    omega
  have h2 : (b >>> 4) % 256 = b >>> 4 := by
    rw [Nat.shiftRight_eq_div_pow]
    omega
  unfold bcd_byte_chars
  simp only [h1, h2]
  cases le <;> cases tel <;> rfl

set_option maxRecDepth 100000 in
/-- For a byte, neither character written is NUL, and the second one is `'f'` exactly
when the nibble written second is `0xf`. -/
theorem bcd_byte_chars_facts :
    ∀ b < 256, ∀ le tel : Bool,
      (∀ c ∈ bcd_byte_chars b le tel, c ≠ 0) ∧
      ((bcd_byte_chars b le tel).getLast? = some 0x66 ↔
        (if le = true then b >>> 4 else b &&& 0xf) = 0xf) := by
  decide

/-- Storing into the cell right after a prefix. -/
theorem set_append_length {α : Type} (l : List α) (x y : α) (r : List α) :
    (l ++ x :: r).set l.length y = l ++ y :: r := by
  induction l with
  | nil => rfl
  | cons a l ih =>
    show a :: (l ++ x :: r).set l.length y = a :: (l ++ y :: r)
    rw [ih]

/-- Characters other than NUL followed by a NUL read back as themselves. -/
theorem c_string_chars (l : List Nat) (h : ∀ x ∈ l, x ≠ 0) (r : List (Option Nat)) :
    c_string (l.map some ++ some 0 :: r) = some l := by
  induction l with
  | nil => rfl
  | cons a l ih =>
    have ha : a ≠ 0 := h a (List.mem_cons_self _ _)
    show c_string (some a :: (l.map some ++ some 0 :: r)) = some (a :: l)
    simp only [c_string, if_neg ha]
    rw [ih (fun x hx => h x (List.mem_cons_of_mem _ hx))]

/-- No character the loop writes for a list of bytes is NUL. -/
theorem bcd_emitted_ne_zero (bcd : List Nat) (hb : ∀ b ∈ bcd, b < 256) (le tel : Bool) :
    ∀ c ∈ bcd_emitted bcd le tel, c ≠ 0 := by
  induction bcd with
  | nil => intro c hc; exact absurd hc (by simp [bcd_emitted])
  | cons b l ih =>
    intro c hc
    simp only [bcd_emitted, List.mem_append] at hc
    rcases hc with hc | hc
    · exact (bcd_byte_chars_facts b (hb b (List.mem_cons_self _ _)) le tel).1 c hc
    · exact ih (fun x hx => hb x (List.mem_cons_of_mem _ hx)) c hc

/-- The returned string, from the characters written: when they are `e` followed by
`last` and none is NUL, the string is `e` if stripping applies and all of them
otherwise. -/
theorem packed_bcd_string_of_emitted (bcd : List Nat) (le strip tel : Bool)
    (e : List Nat) (last : Nat) (hne : bcd ≠ [])
    (hem : bcd_emitted bcd le tel = e ++ [last]) (hnz : ∀ c ∈ e ++ [last], c ≠ 0) :
    packed_bcd_string (some bcd) le strip tel =
      if strip = true ∧ last = 0x66 then some e else some (e ++ [last]) := by
  have hpos : ¬ bcd.length ≤ 0 := by
    cases bcd with
    | nil => exact absurd rfl hne
    | cons a l => simp
  have hlen : (e ++ [last]).length - 1 = (e.map some).length := by simp
  have hcell : (List.map some (e ++ [last]) ++ [none])[(e ++ [last]).length - 1]?
      = some (some last) := by
    rw [hlen, List.map_append, List.append_assoc]
    rw [List.getElem?_append_right (by omega)]
    simp
  unfold packed_bcd_string scsisim_packed_bcd_to_ascii
  simp only [if_neg hpos, hem, hcell, Option.some.injEq]
  by_cases hs : strip = true ∧ last = 0x66
  · rw [if_pos hs, if_pos hs]
    simp only []
    rw [hlen, List.map_append, List.append_assoc]
    show c_string ((List.map some e ++ some last :: [none]).set (List.map some e).length (some 0))
      = some e
    rw [set_append_length]
    exact c_string_chars e (fun x hx => hnz x (List.mem_append_left _ hx)) _
  · rw [if_neg hs, if_neg hs]
    simp only []
    have hl2 : (e ++ [last]).length = (List.map some (e ++ [last])).length := by simp
    rw [hl2]
    show c_string ((List.map some (e ++ [last]) ++ none :: []).set
      (List.map some (e ++ [last])).length (some 0)) = some (e ++ [last])
    rw [set_append_length]
    exact c_string_chars _ hnz _

/-- A non-empty list of bytes: the characters written are those of the leading bytes,
then the two of the last byte. -/
theorem bcd_emitted_last (bcd : List Nat) (hne : bcd ≠ []) (le tel : Bool) :
    ∃ x y, bcd_byte_chars (bcd.getLastD 0) le tel = [x, y] ∧
      bcd_emitted bcd le tel = (bcd_emitted bcd.dropLast le tel ++ [x]) ++ [y] := by
  have h2 := length_bcd_byte_chars (bcd.getLastD 0) le tel
  obtain ⟨x, y, hxy⟩ : ∃ x y, bcd_byte_chars (bcd.getLastD 0) le tel = [x, y] := by
    match hm : bcd_byte_chars (bcd.getLastD 0) le tel with
    | [x, y] => exact ⟨x, y, rfl⟩
    | [] => rw [hm] at h2; cases h2
    | [_] => rw [hm] at h2; cases h2
    | _ :: _ :: _ :: _ => rw [hm] at h2; simp at h2
  refine ⟨x, y, hxy, ?_⟩
  have hsplit : bcd = bcd.dropLast ++ [bcd.getLastD 0] := by
    have := List.dropLast_append_getLast hne
    rw [List.getLastD_eq_getLast?, List.getLast?_eq_getLast _ hne]
    exact this.symm
  conv_lhs => rw [hsplit]
  rw [bcd_emitted_append]
  simp only [bcd_emitted, List.append_nil, hxy, List.append_assoc, List.singleton_append]

/-- C13: for every non-empty sequence of bytes and every setting of `little_endian` and
`use_telecom_digits`, the characters written before the terminator is placed are, for
input byte `i` with `lo = b & 0xf` and `hi = b >> 4`: `T[lo]` at position `2 i` and
`T[hi]` at `2 i + 1` when `little_endian`, `T[hi]` then `T[lo]` otherwise, where `T` is
`"0123456789*#,--f"` for telecom digits and `"0123456789abcdef"` otherwise.  There are
`2 * len` of them, and without sign stripping the returned buffer is these characters
followed by the NUL. -/
theorem C13_bcd_nibble_order (bcd : List Nat) (little_endian use_telecom_digits : Bool)
    (i : Nat) (hbytes : ∀ b ∈ bcd, b < 256) (hi : i < bcd.length) :
    (bcd_emitted bcd little_endian use_telecom_digits)[2 * i]? = some
      ((if use_telecom_digits = true then c_str "0123456789*#,--f"
          else c_str "0123456789abcdef").getD
        (if little_endian = true then bcd.getD i 0 &&& 0xf else bcd.getD i 0 >>> 4) 0) ∧
    (bcd_emitted bcd little_endian use_telecom_digits)[2 * i + 1]? = some
      ((if use_telecom_digits = true then c_str "0123456789*#,--f"
          else c_str "0123456789abcdef").getD
        (if little_endian = true then bcd.getD i 0 >>> 4 else bcd.getD i 0 &&& 0xf) 0) ∧
    (bcd_emitted bcd little_endian use_telecom_digits).length = 2 * bcd.length ∧
    scsisim_packed_bcd_to_ascii (some bcd) little_endian false use_telecom_digits
      = some ((bcd_emitted bcd little_endian use_telecom_digits).map some ++ [some 0]) := by
  obtain ⟨e1, e2⟩ := getElem?_bcd_emitted bcd little_endian use_telecom_digits i hi
  have hb : bcd.getD i 0 < 256 := getD_lt_256 bcd hbytes i
  rw [bcd_byte_chars_byte _ hb] at e1 e2
  refine ⟨?_, ?_, length_bcd_emitted _ _ _, ?_⟩
  · rw [e1]
    cases little_endian <;> cases use_telecom_digits <;> rfl
  · rw [e2]
    cases little_endian <;> cases use_telecom_digits <;> rfl
  · have hpos : ¬ bcd.length ≤ 0 := by omega
    unfold scsisim_packed_bcd_to_ascii
    simp only [if_neg hpos, Bool.false_eq_true, false_and, if_false, Option.some.injEq]
    have hl : (bcd_emitted bcd little_endian use_telecom_digits).length
        = (List.map some (bcd_emitted bcd little_endian use_telecom_digits)).length := by simp
    rw [hl]
    exact set_append_length _ _ _ _

/-- C13 (witness): `[0x2a, 0xc3]`, little-endian, telecom digits gives `"*23,"`. -/
theorem C13_bcd_nibble_order_witness :
    (bcd_emitted [0x2a, 0xc3] true true)[2 * 0]? = some 0x2a ∧
    (bcd_emitted [0x2a, 0xc3] true true)[2 * 0 + 1]? = some 0x32 ∧
    bcd_emitted [0x2a, 0xc3] true true = c_str "*23," ∧
    packed_bcd_string (some [0x2a, 0xc3]) true false true = some (c_str "*23,") :=
  ⟨(C13_bcd_nibble_order [0x2a, 0xc3] true true 0 (by decide) (by decide)).1,
   (C13_bcd_nibble_order [0x2a, 0xc3] true true 0 (by decide) (by decide)).2.1,
   by decide, by decide⟩

/-- C14: for every non-empty input of `len` bytes the returned string has length
`2 * len - 1` when `strip_sign_flag` is set and the last character written is `'f'`,
which is the case exactly when the last nibble written is `0xf`; it is then the
characters written without the last one.  In every other case it is all the characters
written and has length `2 * len`. -/
theorem C14_bcd_string_length (bcd : List Nat)
    (little_endian strip_sign_flag use_telecom_digits : Bool)
    (hne : bcd ≠ []) (hbytes : ∀ b ∈ bcd, b < 256) :
    ((bcd_emitted bcd little_endian use_telecom_digits).getLast? = some 0x66 ↔
      (if little_endian = true then bcd.getLastD 0 >>> 4 else bcd.getLastD 0 &&& 0xf) = 0xf) ∧
    (strip_sign_flag = true ∧
        (bcd_emitted bcd little_endian use_telecom_digits).getLast? = some 0x66 →
      packed_bcd_string (some bcd) little_endian strip_sign_flag use_telecom_digits
        = some (bcd_emitted bcd little_endian use_telecom_digits).dropLast ∧
      (bcd_emitted bcd little_endian use_telecom_digits).dropLast.length
        = 2 * bcd.length - 1) ∧
    (¬ (strip_sign_flag = true ∧
        (bcd_emitted bcd little_endian use_telecom_digits).getLast? = some 0x66) →
      packed_bcd_string (some bcd) little_endian strip_sign_flag use_telecom_digits
        = some (bcd_emitted bcd little_endian use_telecom_digits) ∧
      (bcd_emitted bcd little_endian use_telecom_digits).length = 2 * bcd.length) := by
  obtain ⟨x, y, hxy, hem⟩ := bcd_emitted_last bcd hne little_endian use_telecom_digits
  have hlast : bcd.getLastD 0 < 256 := by
    rw [List.getLastD_eq_getLast?, List.getLast?_eq_getLast _ hne]
    exact hbytes _ (List.getLast_mem hne)
  have hfacts := (bcd_byte_chars_facts _ hlast little_endian use_telecom_digits).2
  rw [hxy] at hfacts
  have hnz := bcd_emitted_ne_zero bcd hbytes little_endian use_telecom_digits
  have hstr := packed_bcd_string_of_emitted bcd little_endian strip_sign_flag
    use_telecom_digits _ y hne hem (by rw [← hem]; exact hnz)
  have hlen := length_bcd_emitted bcd little_endian use_telecom_digits
  have hgl : (bcd_emitted bcd little_endian use_telecom_digits).getLast? = some y := by
    rw [hem]; simp
  have hdl : (bcd_emitted bcd little_endian use_telecom_digits).dropLast
      = bcd_emitted bcd.dropLast little_endian use_telecom_digits ++ [x] := by
    rw [hem]; simp
  have hy : (some y = some 0x66) ↔ y = 0x66 := by simp
  refine ⟨?_, ?_, ?_⟩
  · rw [hgl, ← hfacts]
    simp
  · rintro ⟨hs, hl⟩
    rw [hgl] at hl
    rw [hstr, if_pos ⟨hs, hy.mp hl⟩, hdl]
    refine ⟨rfl, ?_⟩
    rw [← hdl, List.length_dropLast, hlen]
  · intro hn
    rw [hgl] at hn
    rw [hstr, if_neg (fun h => hn ⟨h.1, hy.mpr h.2⟩)]
    exact ⟨by rw [hem], hlen⟩

set_option maxRecDepth 100000 in
/-- C14 (witness): `[0x21, 0x43, 0x65, 0x87, 0xf9]`, little-endian, basic digits gives
`"123456789"` with stripping and `"123456789f"` without. -/
theorem C14_bcd_string_length_witness :
    packed_bcd_string (some [0x21, 0x43, 0x65, 0x87, 0xf9]) true true false
      = some (c_str "123456789") ∧
    packed_bcd_string (some [0x21, 0x43, 0x65, 0x87, 0xf9]) true false false
      = some (c_str "123456789f") :=
  ⟨((C14_bcd_string_length [0x21, 0x43, 0x65, 0x87, 0xf9] true true false (by decide)
      (by decide)).2.1 (by decide)).1.trans (by decide),
   ((C14_bcd_string_length [0x21, 0x43, 0x65, 0x87, 0xf9] true false false (by decide)
      (by decide)).2.2 (by decide)).1.trans (by decide)⟩

/-- A packed byte of two decimal digits, or of a last digit and the filler `0xf`,
decodes to those characters in little-endian order with basic digits. -/
theorem bcd_byte_chars_digits :
    ∀ x < 0x3a, 0x30 ≤ x →
      bcd_byte_chars (16 * 0xf + (x - 0x30)) true false = [x, 0x66] ∧
      ∀ y < 0x3a, 0x30 ≤ y →
        bcd_byte_chars (16 * (y - 0x30) + (x - 0x30)) true false = [x, y] := by
  decide

/-- The characters written for the packing of a digit string: the digits, followed by
one `'f'` when their number is odd. -/
theorem bcd_emitted_spec_pack (d : List Nat) (hd : ∀ c ∈ d, 0x30 ≤ c ∧ c ≤ 0x39) :
    bcd_emitted (spec_pack_bcd d) true false = if d.length % 2 = 0 then d else d ++ [0x66] := by
  induction d using spec_pack_bcd.induct with
  | case1 => rfl
  | case2 a =>
    have ha := hd a (List.mem_cons_self _ _)
    simp only [spec_pack_bcd, bcd_emitted, List.append_nil]
    rw [(bcd_byte_chars_digits a (by omega) ha.1).1]
    rfl
  | case3 a b rest ih =>
    have ha := hd a (List.mem_cons_self _ _)
    have hb := hd b (List.mem_cons_of_mem _ (List.mem_cons_self _ _))
    have hrest : ∀ c ∈ rest, 0x30 ≤ c ∧ c ≤ 0x39 :=
      fun c hc => hd c (List.mem_cons_of_mem _ (List.mem_cons_of_mem _ hc))
    simp only [spec_pack_bcd, bcd_emitted]
    rw [(bcd_byte_chars_digits a (by omega) ha.1).2 b (by omega) hb.1, ih hrest]
    have hl : (a :: b :: rest).length % 2 = rest.length % 2 := by
      simp only [List.length_cons]; omega
    rw [hl]
    split_ifs <;> rfl

/-- The packing of a non-empty digit string is not empty. -/
theorem spec_pack_bcd_ne_nil (d : List Nat) (hne : d ≠ []) : spec_pack_bcd d ≠ [] := by
  match d with
  | [] => exact absurd rfl hne
  | [a] => simp [spec_pack_bcd]
  | a :: b :: rest => simp [spec_pack_bcd]

/-- C15: BCD round trip.  For every non-empty string `d` of decimal digits, packing `d`
two digits per byte with the earlier digit in the low nibble and, when the length is
odd, `0xf` in the final high nibble, and decoding with `little_endian`, with
`strip_sign_flag` and without telecom digits, returns `d`. -/
theorem C15_bcd_round_trip (d : List Nat) (hne : d ≠ [])
    (hd : ∀ c ∈ d, 0x30 ≤ c ∧ c ≤ 0x39) :
    packed_bcd_string (some (spec_pack_bcd d)) true true false = some d := by
  have hem := bcd_emitted_spec_pack d hd
  have hdz : ∀ c ∈ d, c ≠ 0 := fun c hc => by have := hd c hc; omega
  have hsplit : d = d.dropLast ++ [d.getLast hne] := (List.dropLast_append_getLast hne).symm
  have hlast := hd _ (List.getLast_mem hne)
  by_cases hev : d.length % 2 = 0
  · rw [if_pos hev] at hem
    have hem2 : bcd_emitted (spec_pack_bcd d) true false = d.dropLast ++ [d.getLast hne] :=
      hem.trans hsplit
    rw [packed_bcd_string_of_emitted _ true true false _ _ (spec_pack_bcd_ne_nil d hne) hem2
      (by rw [← hsplit]; exact hdz)]
    rw [if_neg (by intro h; omega), ← hsplit]
  · rw [if_neg hev] at hem
    rw [packed_bcd_string_of_emitted _ true true false d 0x66 (spec_pack_bcd_ne_nil d hne) hem
      (by
        intro c hc
        rcases List.mem_append.mp hc with h | h
        · exact hdz c h
        · rw [List.mem_singleton.mp h]; decide)]
    rw [if_pos ⟨rfl, rfl⟩]

/-- C15 (witness): the string "123" packs to `21 f3` and decodes to "123". -/
theorem C15_bcd_round_trip_witness :
    spec_pack_bcd [0x31, 0x32, 0x33] = [0x21, 0xf3] ∧
    packed_bcd_string (some (spec_pack_bcd [0x31, 0x32, 0x33])) true true false
      = some [0x31, 0x32, 0x33] :=
  ⟨by decide, C15_bcd_round_trip [0x31, 0x32, 0x33] (by decide) (by decide)⟩

/-! ## Theorems: ADN records -/

/-- The mapper returns a buffer for every non-empty source. -/
theorem scsisim_map_gsm_chars_buffer (src : List Nat) (hne : src ≠ []) :
    ∃ r, scsisim_map_gsm_chars (some src) = map_outcome.buffer r := by
  obtain ⟨st, -, h2⟩ := scsisim_map_gsm_chars_of_prefix src hne _ rfl
  exact ⟨_, h2⟩

/-- A copy that ends inside the record succeeds. -/
theorem copy_bytes_some (record : List Nat) (off n : Nat) (h : off + n ≤ record.length) :
    copy_bytes record off n = some ((record.drop off).take n) := by
  unfold copy_bytes
  rw [if_pos h]

/-- The clamped length lies in `1 .. max`. -/
theorem clamp_len_minus_one_bounds (b max : Nat) (hmax : 1 ≤ max) :
    1 ≤ clamp_len_minus_one b max ∧ clamp_len_minus_one b max ≤ max := by
  unfold clamp_len_minus_one
  split_ifs with h <;> omega

/-- For a byte `b` the clamped length is `b - 1` when that lies in `1 .. max` and `max`
otherwise. -/
theorem clamp_len_minus_one_eq (b max : Nat) (hb : b < 256) (hmax : max < 2 ^ 32) :
    clamp_len_minus_one b max = if 2 ≤ b ∧ b - 1 ≤ max then b - 1 else max := by
  unfold clamp_len_minus_one u32_sub
  split_ifs <;> omega

/-- The number half of the ADN parser succeeds on every record that has the 14-byte
number buffer after the name; the length it uses lies in `1 .. 10`. -/
theorem adn_number_total (rcd : List Nat) (name_len : Nat) (name : c_chars)
    (h : name_len + 14 = rcd.length) :
    ∃ r, adn_number rcd name_len name = some r ∧ r.ret = SCSISIM_SUCCESS ∧
      r.unused = false ∧ r.name = some name ∧
      ∃ n, r.number_len = some n ∧ 1 ≤ n ∧ n ≤ 10 := by
  obtain ⟨h1, h2⟩ := clamp_len_minus_one_bounds (rcd.getD name_len 0)
    GSM_MAX_ADN_NUMBER_LEN (by decide)
  have h2' : clamp_len_minus_one (rcd.getD name_len 0) GSM_MAX_ADN_NUMBER_LEN ≤ 10 := h2
  have hc := copy_bytes_some rcd (name_len + 2)
    (clamp_len_minus_one (rcd.getD name_len 0) GSM_MAX_ADN_NUMBER_LEN) (by omega)
  unfold adn_number
  rw [getElem?_eq_some_getD rcd name_len (by omega)]
  simp only []
  rw [hc]
  exact ⟨_, rfl, rfl, rfl, rfl, _, rfl, h1, h2'⟩

/-- C19: for a present record, `scsisim_parse_adn` returns the invalid-ADN-record error
exactly when the record has fewer than 15 bytes, and returns Success for every record
of at least 15 bytes; a record of at least 15 bytes whose first byte is `0xff` is
reported as unused and neither a name nor a number is decoded. -/
theorem C19_parse_adn (record : List Nat) :
    ((scsisim_parse_adn (some record)).map adn_result.ret
        = some SCSISIM_GSM_INVALID_ADN_RECORD ↔ record.length < 15) ∧
    (15 ≤ record.length →
      ∃ r, scsisim_parse_adn (some record) = some r ∧ r.ret = SCSISIM_SUCCESS) ∧
    (15 ≤ record.length → record.getD 0 0 = 0xff →
      scsisim_parse_adn (some record) = some
        { ret := SCSISIM_SUCCESS, unused := true, name := none, number_len := none,
          number := none }) := by
  have long : 15 ≤ record.length →
      ∃ r, scsisim_parse_adn (some record) = some r ∧ r.ret = SCSISIM_SUCCESS ∧
        (record.getD 0 0 = 0xff → r = adn_result.mk SCSISIM_SUCCESS true none none none) := by
    intro hlen
    unfold scsisim_parse_adn
    simp only [GSM_ADN_NUMBER_BUFFER_LEN]
    rw [if_neg (by omega), getElem?_eq_some_getD record 0 (by omega)]
    simp only []
    by_cases hff : record.getD 0 0 = 0xff
    · rw [if_pos hff]
      exact ⟨_, rfl, rfl, fun _ => rfl⟩
    · rw [if_neg hff]
      have hne : record.take (record.length - 14) ≠ [] := by
        intro h
        have := congrArg List.length h
        rw [List.length_take] at this
        simp at this
        omega
      obtain ⟨b, hb⟩ := scsisim_map_gsm_chars_buffer _ hne
      rw [hb]
      simp only []
      obtain ⟨r, hr, hret, -⟩ := adn_number_total record (record.length - 14) (some b)
        (by omega)
      exact ⟨r, hr, hret, fun h => absurd h hff⟩
  refine ⟨?_, ?_, ?_⟩
  · by_cases hlen : record.length < 15
    · unfold scsisim_parse_adn
      simp only [GSM_ADN_NUMBER_BUFFER_LEN]
      rw [if_pos (by omega)]
      simp [hlen]
    · obtain ⟨r, hr, hret, -⟩ := long (by omega)
      rw [hr]
      simp only [Option.map_some', Option.some.injEq, hret]
      constructor
      · intro h; exact absurd h (by decide)
      · intro h; exact absurd h hlen
  · intro hlen
    obtain ⟨r, hr, hret, -⟩ := long hlen
    exact ⟨r, hr, hret⟩
  · intro hlen hff
    obtain ⟨r, hr, -, hu⟩ := long hlen
    rw [hr, hu hff]

set_option maxRecDepth 100000 in
/-- C19 (witness): a 14-byte record is rejected; a 15-byte record of `0xff` is unused
and succeeds; a 16-byte record with the name "AB" succeeds. -/
theorem C19_parse_adn_witness :
    (scsisim_parse_adn (some (List.replicate 14 0xff))).map adn_result.ret
      = some SCSISIM_GSM_INVALID_ADN_RECORD ∧
    scsisim_parse_adn (some (List.replicate 15 0xff)) = some
      { ret := SCSISIM_SUCCESS, unused := true, name := none, number_len := none,
        number := none } ∧
    (∃ r, scsisim_parse_adn (some ([0x41, 0x42, 3, 0x81, 0x21, 0x43] ++ List.replicate 10 0xff))
      = some r ∧ r.ret = SCSISIM_SUCCESS) :=
  ⟨(C19_parse_adn (List.replicate 14 0xff)).1.mpr (by decide),
   (C19_parse_adn (List.replicate 15 0xff)).2.2 (by decide) (by decide),
   (C19_parse_adn ([0x41, 0x42, 3, 0x81, 0x21, 0x43] ++ List.replicate 10 0xff)).2.1
     (by decide)⟩

/-! ## Theorems: SMS records -/

/-- A copy that ends inside the record has the requested length. -/
theorem length_drop_take (record : List Nat) (off n : Nat) (h : off + n ≤ record.length) :
    ((record.drop off).take n).length = n := by
  rw [List.length_take, List.length_drop]
  omega

/-- `scsisim_get_gsm_text` returns a buffer for every non-empty packed slice (below
the wrap of its length computation) and every positive septet count. -/
theorem scsisim_get_gsm_text_buffer (packed : List Nat) (num_septets : Nat)
    (hP : 1 ≤ packed.length) (hsize : 8 * packed.length < 2 ^ 32) (hN : 1 ≤ num_septets) :
    ∃ r, scsisim_get_gsm_text (some packed) num_septets = map_outcome.buffer r := by
  obtain ⟨out, hout, -⟩ := unpack_septets_loop_total packed packed.length 0 (by omega)
  obtain ⟨hdone, hlen⟩ := scsisim_unpack_septets_done num_septets packed out hN hP hsize hout
  have hne : out.take (min num_septets (8 * packed.length / 7)) ≠ [] := by
    intro h
    have := congrArg List.length h
    rw [List.length_take, hlen] at this
    simp only [List.length_nil] at this
    omega
  obtain ⟨r, hr⟩ := scsisim_map_gsm_chars_buffer _ hne
  refine ⟨r, ?_⟩
  unfold scsisim_get_gsm_text
  simp only []
  rw [if_neg (by omega), hdone]
  exact hr

/-- `scsisim_get_gsm_text` never faults below the wrap of its length computation. -/
theorem scsisim_get_gsm_text_ne_fault (packed : List Nat) (num_septets : Nat)
    (hsize : 8 * packed.length < 2 ^ 32) :
    scsisim_get_gsm_text (some packed) num_septets ≠ map_outcome.fault := by
  by_cases h : packed.length ≤ 0 ∨ num_septets ≤ 0
  · unfold scsisim_get_gsm_text
    simp only []
    rw [if_pos h]
    exact fun h => map_outcome.noConfusion h
  · obtain ⟨r, hr⟩ := scsisim_get_gsm_text_buffer packed num_septets (by omega) hsize (by omega)
    rw [hr]
    exact fun h => map_outcome.noConfusion h

/-- `bytes_remaining` does not wrap while `bytes_used` is at most the record length. -/
theorem u32_sub_le (a b : Nat) (h : b ≤ a) : u32_sub a b = a - b := by
  unfold u32_sub
  rw [if_pos h]

/-- The user-data part of the SMS parser, from a TP-UDL byte at offset `off ≤ 37` of
a 176-byte record: it reads inside the record, returns Success, and decodes at most
`bytes_remaining = 176 - (off + 1)` bytes; the header fields stay as they were. -/
theorem sms_user_data_total (record : List Nat) (hlen : record.length = 176)
    (off charset : Nat) (hoff : off ≤ 37) (r : sms_result) :
    ∃ r', sms_user_data record off charset r = some r' ∧ r'.ret = SCSISIM_SUCCESS ∧
      r'.bytes_used = some (off + 1) ∧ r'.bytes_remaining = some (176 - (off + 1)) ∧
      (∃ m, r'.msg_len = some m ∧ m ≤ 176 - (off + 1)) ∧
      r'.status = r.status ∧ r'.smsc_len = r.smsc_len ∧ r'.sms_status = r.sms_status ∧
      r'.address_len = r.address_len := by
  have hrem : u32_sub GSM_SMS_RECORD_LEN (off + 1) = 176 - (off + 1) :=
    u32_sub_le _ _ (by simp only [GSM_SMS_RECORD_LEN]; omega)
  unfold sms_user_data
  rw [getElem?_eq_some_getD record off (by omega)]
  simp only [hrem]
  generalize u32 (record.getD off 0 * 7 + (8 - 1)) / 8 = m0
  by_cases h0 : m0 ≤ 0
  · rw [if_pos h0]
    exact ⟨_, rfl, rfl, rfl, rfl, ⟨m0, rfl, by omega⟩, rfl, rfl, rfl, rfl⟩
  · rw [if_neg h0]
    have hm : (if m0 > 176 - (off + 1) then 176 - (off + 1) else m0) ≤ 176 - (off + 1) := by
      split_ifs <;> omega
    generalize (if m0 > 176 - (off + 1) then 176 - (off + 1) else m0) = m at hm ⊢
    rw [copy_bytes_some record _ _ (by omega)]
    simp only []
    by_cases hc : charset = 0
    · rw [if_pos hc]
      have hnf := scsisim_get_gsm_text_ne_fault ((record.drop (off + 1)).take m)
        (record.getD off 0) (by rw [length_drop_take _ _ _ (by omega)]; omega)
      cases hg : scsisim_get_gsm_text (some ((record.drop (off + 1)).take m))
          (record.getD off 0) with
      | fault => exact absurd hg hnf
      | null => exact ⟨_, rfl, rfl, rfl, rfl, ⟨m, rfl, hm⟩, rfl, rfl, rfl, rfl⟩
      | buffer text => exact ⟨_, rfl, rfl, rfl, rfl, ⟨m, rfl, hm⟩, rfl, rfl, rfl, rfl⟩
    · rw [if_neg hc]
      exact ⟨_, rfl, rfl, rfl, rfl, ⟨m, rfl, hm⟩, rfl, rfl, rfl, rfl⟩

/-- A list of seven elements, spelled out. -/
theorem list_of_length_seven (l : List Nat) (h : l.length = 7) :
    ∃ a b c d e f g, l = [a, b, c, d, e, f, g] := by
  match l, h with
  | [a, b, c, d, e, f, g], _ => exact ⟨a, b, c, d, e, f, g, rfl⟩

/-- The timestamp part of the SMS parser reads seven bytes inside the record and leaves
the return code and the header fields as they were. -/
theorem sms_timestamp_total (record : List Nat) (off : Nat) (hoff : off + 7 ≤ record.length)
    (r : sms_result) :
    ∃ r', sms_timestamp record off r = some r' ∧ r'.ret = r.ret ∧ r'.status = r.status ∧
      r'.smsc_len = r.smsc_len ∧ r'.sms_status = r.sms_status ∧
      r'.address_len = r.address_len := by
  obtain ⟨a, b, c, d, e, f, g, hl⟩ :=
    list_of_length_seven ((record.drop off).take 7) (length_drop_take record off 7 hoff)
  unfold sms_timestamp
  rw [copy_bytes_some record off 7 hoff, hl]
  exact ⟨_, rfl, rfl, rfl, rfl, rfl, rfl⟩

/-- The address decoder of the SMS parser never faults on a non-empty address. -/
theorem sms_address_text_total (tmp : List Nat) (address_len : Nat) (is_alphanum : Bool)
    (hsize : 8 * tmp.length < 2 ^ 32) :
    ∃ buf, sms_address_text tmp address_len is_alphanum = some buf := by
  unfold sms_address_text
  by_cases ha : is_alphanum = true
  · rw [if_pos ha]
    simp only []
    have hnf := scsisim_get_gsm_text_ne_fault tmp (u32 (address_len * 8) / 7) hsize
    cases hg : scsisim_get_gsm_text (some tmp) (u32 (address_len * 8) / 7) with
    | fault => exact absurd hg hnf
    | null => exact ⟨_, rfl⟩
    | buffer text => exact ⟨_, rfl⟩
  · rw [if_neg ha]
    exact ⟨_, rfl⟩

/-- The arm `case 0: case 1:` of the SMS parser, entered at an offset `off ≤ 14` of a
176-byte record: every read is inside the record; the return code is
`SCSISIM_SMS_INVALID_ADDRESS` exactly when the address length in bytes is outside
`2 .. 12`, and Success otherwise, with `bytes_used` the end of the header. -/
theorem sms_tpdu_total (record : List Nat) (hlen : record.length = 176)
    (off sms_status : Nat) (hoff : off ≤ 14) (r : sms_result) :
    ∃ r', sms_tpdu record off sms_status r = some r' ∧
      r'.status = r.status ∧ r'.smsc_len = r.smsc_len ∧ r'.sms_status = r.sms_status ∧
      r'.address_len =
        some ((record.getD (if sms_status = 1 then off + 1 else off) 0 + 1) / 2) ∧
      (((record.getD (if sms_status = 1 then off + 1 else off) 0 + 1) / 2 < 2 ∨
        (record.getD (if sms_status = 1 then off + 1 else off) 0 + 1) / 2 > 12) →
          r'.ret = SCSISIM_SMS_INVALID_ADDRESS ∧ r'.bytes_used = r.bytes_used) ∧
      (¬ ((record.getD (if sms_status = 1 then off + 1 else off) 0 + 1) / 2 < 2 ∨
        (record.getD (if sms_status = 1 then off + 1 else off) 0 + 1) / 2 > 12) →
          r'.ret = SCSISIM_SUCCESS ∧
          r'.bytes_used = some (off +
            (record.getD (if sms_status = 1 then off + 1 else off) 0 + 1) / 2 +
            (if sms_status = 1 then 7 else 12)) ∧
          r'.bytes_remaining = some (176 - (off +
            (record.getD (if sms_status = 1 then off + 1 else off) 0 + 1) / 2 +
            (if sms_status = 1 then 7 else 12))) ∧
          ∃ m, r'.msg_len = some m ∧ m ≤ 176 - (off +
            (record.getD (if sms_status = 1 then off + 1 else off) 0 + 1) / 2 +
            (if sms_status = 1 then 7 else 12))) := by
  unfold sms_tpdu
  simp only []
  have ho : (if sms_status = 1 then off + 1 else off) =
      off + (if sms_status = 1 then 1 else 0) := by split_ifs <;> rfl
  generalize (if sms_status = 1 then off + 1 else off) = o at ho ⊢
  have ho1 : o ≤ 15 := by rw [ho]; split_ifs <;> omega
  rw [getElem?_eq_some_getD record o (by omega)]
  simp only []
  have ha : (record.getD o 0 + (2 - 1)) / 2 = (record.getD o 0 + 1) / 2 := rfl
  rw [ha]
  generalize (record.getD o 0 + 1) / 2 = a
  by_cases hr : a < GSM_MIN_ADDRESS_LEN ∨ a > GSM_MAX_ADDRESS_LEN
  · rw [if_pos hr]
    exact ⟨_, rfl, rfl, rfl, rfl, rfl, fun _ => ⟨rfl, rfl⟩, fun h => absurd hr h⟩
  · rw [if_neg hr]
    have hr2 : 2 ≤ a ∧ a ≤ 12 := by
      simp only [GSM_MIN_ADDRESS_LEN, GSM_MAX_ADDRESS_LEN] at hr
      omega
    rw [getElem?_eq_some_getD record (o + 1) (by omega)]
    simp only []
    rw [copy_bytes_some record (o + 2) a (by omega)]
    simp only []
    obtain ⟨buf, hbuf⟩ := sms_address_text_total ((record.drop (o + 2)).take a) a
      (decide (record.getD (o + 1) 0 &&& 0x70 = 0x50))
      (by rw [length_drop_take _ _ _ (by omega)]; omega)
    rw [hbuf]
    simp only []
    rw [getElem?_eq_some_getD record (o + 2 + a + 1) (by omega)]
    simp only []
    by_cases hs : sms_status = 1
    · simp only [if_pos hs] at ho ⊢
      obtain ⟨r', h1, h2, h3, h4, h5, h6, h7, h8, h9⟩ :=
        sms_user_data_total record hlen (o + 2 + a + 3)
          (((record.getD (o + 2 + a + 1) 0 &&& 0x0c) >>> 2) % 256) (by omega)
          { { { r with address_len := some a } with
                is_alphanum := decide (record.getD (o + 1) 0 &&& 0x70 = 0x50),
                address := some buf } with
            charset := some (((record.getD (o + 2 + a + 1) 0 &&& 0x0c) >>> 2) % 256) }
      have hu : o + 2 + a + 3 + 1 = off + a + 7 := by omega
      rw [hu] at h3 h4 h5
      exact ⟨r', h1, h6, h7, h8, h9, fun h => absurd h hr, fun _ => ⟨h2, h3, h4, h5⟩⟩
    · simp only [if_neg hs] at ho ⊢
      obtain ⟨r1, g1, g2, g3, g4, g5, g6⟩ := sms_timestamp_total record (o + 2 + a + 2)
          (by omega)
          { { { r with address_len := some a } with
                is_alphanum := decide (record.getD (o + 1) 0 &&& 0x70 = 0x50),
                address := some buf } with
            charset := some (((record.getD (o + 2 + a + 1) 0 &&& 0x0c) >>> 2) % 256) }
      rw [g1]
      simp only []
      obtain ⟨r', h1, h2, h3, h4, h5, h6, h7, h8, h9⟩ :=
        sms_user_data_total record hlen (o + 2 + a + 9)
          (((record.getD (o + 2 + a + 1) 0 &&& 0x0c) >>> 2) % 256) (by omega) r1
      have hu : o + 2 + a + 9 + 1 = off + a + 12 := by omega
      rw [hu] at h3 h4 h5
      exact ⟨r', h1, h6.trans g3, h7.trans g4, h8.trans g5, h9.trans g6,
        fun h => absurd h hr, fun _ => ⟨h2, h3, h4, h5⟩⟩

/-- The status table `GSM_sms_status` has eight entries. -/
theorem length_GSM_sms_status : GSM_sms_status.length - 1 = 7 := by decide

/-- The head of `scsisim_parse_sms` on a 176-byte record: the two early rejections,
and otherwise the state in which the TPDU switch is entered. -/
theorem scsisim_parse_sms_head (record : List Nat) (hlen : record.length = 176) :
    (record.getD 0 0 > 7 →
      scsisim_parse_sms (some record) = some { ret := SCSISIM_SMS_INVALID_STATUS }) ∧
    (record.getD 0 0 ≤ 7 → record.getD 3 0 = 0xff →
      ∃ r0 : sms_result, r0.ret = SCSISIM_SMS_INVALID_SMSC ∧
        r0.smsc_len = some (clamp_len_minus_one (record.getD 1 0) GSM_MAX_SMSC_LEN) ∧
        r0.address_len = none ∧ r0.bytes_used = none ∧
        scsisim_parse_sms (some record) = some r0) ∧
    (record.getD 0 0 ≤ 7 → record.getD 3 0 ≠ 0xff →
      ∃ r0 : sms_result, r0.ret = SCSISIM_SUCCESS ∧
        r0.smsc_len = some (clamp_len_minus_one (record.getD 1 0) GSM_MAX_SMSC_LEN) ∧
        r0.sms_status = some ((record.getD
          (3 + clamp_len_minus_one (record.getD 1 0) GSM_MAX_SMSC_LEN) 0 &&& 0x03) % 256) ∧
        r0.address_len = none ∧ r0.bytes_used = none ∧
        scsisim_parse_sms (some record) =
          if (record.getD (3 + clamp_len_minus_one (record.getD 1 0) GSM_MAX_SMSC_LEN) 0
                &&& 0x03) % 256 = 0 ∨
             (record.getD (3 + clamp_len_minus_one (record.getD 1 0) GSM_MAX_SMSC_LEN) 0
                &&& 0x03) % 256 = 1 then
            sms_tpdu record (3 + clamp_len_minus_one (record.getD 1 0) GSM_MAX_SMSC_LEN + 1)
              ((record.getD (3 + clamp_len_minus_one (record.getD 1 0) GSM_MAX_SMSC_LEN) 0
                &&& 0x03) % 256) r0
          else some r0) := by
  have hs := clamp_len_minus_one_bounds (record.getD 1 0) GSM_MAX_SMSC_LEN (by decide)
  have hunf : scsisim_parse_sms (some record) =
      if record.getD 0 0 > GSM_sms_status.length - 1 then
        some { ret := SCSISIM_SMS_INVALID_STATUS }
      else if record.getD 3 0 = 0xff then
        some { ret := SCSISIM_SMS_INVALID_SMSC, status := some (record.getD 0 0), smsc_len := some (clamp_len_minus_one (record.getD 1 0) GSM_MAX_SMSC_LEN) }
      else
        match copy_bytes record 3 (clamp_len_minus_one (record.getD 1 0) GSM_MAX_SMSC_LEN) with
        | none => none
        | some tmp =>
          match record[3 + clamp_len_minus_one (record.getD 1 0) GSM_MAX_SMSC_LEN]? with
          | none => none
          | some ty =>
            if (ty &&& 0x03) % 256 = 0 ∨ (ty &&& 0x03) % 256 = 1 then
              sms_tpdu record (3 + clamp_len_minus_one (record.getD 1 0) GSM_MAX_SMSC_LEN + 1)
                ((ty &&& 0x03) % 256)
                { ret := SCSISIM_SUCCESS, status := some (record.getD 0 0), smsc_len := some (clamp_len_minus_one (record.getD 1 0) GSM_MAX_SMSC_LEN), smsc := some (scsisim_packed_bcd_to_ascii (some tmp) true true false), sms_status := some ((ty &&& 0x03) % 256) }
            else
              some { ret := SCSISIM_SUCCESS, status := some (record.getD 0 0), smsc_len := some (clamp_len_minus_one (record.getD 1 0) GSM_MAX_SMSC_LEN), smsc := some (scsisim_packed_bcd_to_ascii (some tmp) true true false), sms_status := some ((ty &&& 0x03) % 256) } := by
    unfold scsisim_parse_sms
    simp only []
    rw [if_neg (by rw [hlen]; decide), getElem?_eq_some_getD record 0 (by omega),
      getElem?_eq_some_getD record 1 (by omega), getElem?_eq_some_getD record 3 (by omega)]
  simp only [GSM_MAX_SMSC_LEN] at hs
  rw [hunf, length_GSM_sms_status]
  generalize clamp_len_minus_one (record.getD 1 0) GSM_MAX_SMSC_LEN = s at hs ⊢
  refine ⟨?_, ?_, ?_⟩
  · intro h
    rw [if_pos h]
  · intro h hff
    rw [if_neg (by omega), if_pos hff]
    exact ⟨_, rfl, rfl, rfl, rfl, rfl⟩
  · intro h hff
    rw [if_neg (by omega), if_neg hff, copy_bytes_some record 3 s (by omega)]
    simp only []
    rw [getElem?_eq_some_getD record (3 + s) (by omega)]
    simp only []
    exact ⟨_, rfl, rfl, rfl, rfl, rfl, rfl⟩

/-- Every path of `scsisim_parse_sms` through a 176-byte record: no read leaves the
record, and the return code and the cursor are determined by the status byte, the first
SMSC digit byte, the TPDU kind `k` and the address length `a` in bytes.  Here `s` is
the SMSC length the parser uses. -/
theorem scsisim_parse_sms_total (record : List Nat) (hlen : record.length = 176)
    (s k a : Nat) (hs : s = clamp_len_minus_one (record.getD 1 0) GSM_MAX_SMSC_LEN)
    (hk : k = (record.getD (3 + s) 0 &&& 0x03) % 256)
    (ha : a = (record.getD (if k = 1 then 3 + s + 1 + 1 else 3 + s + 1) 0 + 1) / 2) :
    1 ≤ s ∧ s ≤ 10 ∧ ∃ r, scsisim_parse_sms (some record) = some r ∧
      (record.getD 0 0 > 7 →
        r.ret = SCSISIM_SMS_INVALID_STATUS ∧ r.smsc_len = none ∧ r.bytes_used = none) ∧
      (record.getD 0 0 ≤ 7 → record.getD 3 0 = 0xff →
        r.ret = SCSISIM_SMS_INVALID_SMSC ∧ r.smsc_len = some s ∧ r.bytes_used = none) ∧
      (record.getD 0 0 ≤ 7 → record.getD 3 0 ≠ 0xff → ¬ (k = 0 ∨ k = 1) →
        r.ret = SCSISIM_SUCCESS ∧ r.smsc_len = some s ∧ r.bytes_used = none) ∧
      (record.getD 0 0 ≤ 7 → record.getD 3 0 ≠ 0xff → (k = 0 ∨ k = 1) →
        r.smsc_len = some s ∧ r.sms_status = some k ∧ r.address_len = some a ∧
        ((a < 2 ∨ a > 12) →
          r.ret = SCSISIM_SMS_INVALID_ADDRESS ∧ r.bytes_used = none) ∧
        (¬ (a < 2 ∨ a > 12) →
          r.ret = SCSISIM_SUCCESS ∧
          r.bytes_used = some (3 + s + 1 + a + (if k = 1 then 7 else 12)) ∧
          r.bytes_remaining = some (176 - (3 + s + 1 + a + (if k = 1 then 7 else 12))) ∧
          ∃ m, r.msg_len = some m ∧
            m ≤ 176 - (3 + s + 1 + a + (if k = 1 then 7 else 12)))) := by
  have hb := clamp_len_minus_one_bounds (record.getD 1 0) GSM_MAX_SMSC_LEN (by decide)
  simp only [GSM_MAX_SMSC_LEN] at hb
  obtain ⟨h1, h2, h3⟩ := scsisim_parse_sms_head record hlen
  simp only [GSM_MAX_SMSC_LEN] at h2 h3 hs
  rw [← hs] at hb h2 h3
  rw [← hk] at h3
  refine ⟨hb.1, hb.2, ?_⟩
  by_cases hst : record.getD 0 0 > 7
  · refine ⟨_, h1 hst, fun _ => ⟨rfl, rfl, rfl⟩, ?_, ?_, ?_⟩
    · intro h; omega
    · intro h; omega
    · intro h; omega
  · by_cases hff : record.getD 3 0 = 0xff
    · obtain ⟨r0, e1, e2, e3, e4, e5⟩ := h2 (by omega) hff
      refine ⟨r0, e5, fun h => absurd h hst, fun _ _ => ⟨e1, e2, e4⟩,
        fun _ h => absurd hff h, fun _ h => absurd hff h⟩
    · obtain ⟨r0, e1, e2, e3, e4, e5, e6⟩ := h3 (by omega) hff
      by_cases hk01 : k = 0 ∨ k = 1
      · rw [if_pos hk01] at e6
        obtain ⟨r', t1, t2, t3, t4, t5, t6, t7⟩ :=
          sms_tpdu_total record hlen (3 + s + 1) k (by omega) r0
        rw [← ha] at t5 t6 t7
        refine ⟨r', e6.trans t1, fun h => absurd h hst, fun _ h => absurd h hff,
          fun _ _ h => absurd hk01 h, fun _ _ _ => ⟨t3.trans e2, t4.trans e3, t5, ?_, t7⟩⟩
        intro hout
        exact ⟨(t6 hout).1, (t6 hout).2.trans e5⟩
      · rw [if_neg hk01] at e6
        refine ⟨r0, e6, fun h => absurd h hst, fun _ h => absurd h hff,
          fun _ _ _ => ⟨e1, e2, e5⟩, fun _ _ h => absurd h hk01⟩

/-- C16: for every 176-byte record `scsisim_parse_sms` returns without reading outside
the record (the model yields a result, which it does only when every read offset is
below 176).  The SMSC copy of `s` bytes from offset 3 ends at most at offset 13.
Whenever the parser reaches the TP-UDL byte, the bytes consumed up to and including
it are `bytes_used ≤ 38`, `bytes_remaining` is `176 - bytes_used ≥ 138` (no underflow),
the address copy ends before `bytes_used`, and the user-data copy takes at most
`bytes_remaining` bytes, whatever the TP-UDL byte is. -/
theorem C16_parse_sms_reads_in_bounds (record : List Nat) (hlen : record.length = 176) :
    ∃ r, scsisim_parse_sms (some record) = some r ∧
      (∀ s, r.smsc_len = some s → 1 ≤ s ∧ 3 + s ≤ 13) ∧
      (∀ u, r.bytes_used = some u →
        u ≤ 38 ∧ r.bytes_remaining = some (176 - u) ∧ 138 ≤ 176 - u ∧
        (∃ m, r.msg_len = some m ∧ m ≤ 176 - u) ∧
        (∃ s k a, r.smsc_len = some s ∧ r.sms_status = some k ∧ r.address_len = some a ∧
          2 ≤ a ∧ a ≤ 12 ∧
          (if k = 1 then 3 + s + 1 + 1 else 3 + s + 1) + 2 + a ≤ u ∧
          u = 3 + s + 1 + a + (if k = 1 then 7 else 12))) := by
  obtain ⟨hs1, hs2, r, hr, c1, c2, c3, c4⟩ := scsisim_parse_sms_total record hlen _ _ _
    rfl rfl rfl
  generalize clamp_len_minus_one (record.getD 1 0) GSM_MAX_SMSC_LEN = s at hs1 hs2 c1 c2 c3 c4
  generalize (record.getD (3 + s) 0 &&& 0x03) % 256 = k at c1 c2 c3 c4
  generalize (record.getD (if k = 1 then 3 + s + 1 + 1 else 3 + s + 1) 0 + 1) / 2 = a
    at c1 c2 c3 c4
  have none_some : ∀ {u : Nat} {x : Option Nat}, x = none → x = some u → False := by
    intro u x h1 h2
    rw [h1] at h2
    exact Option.noConfusion h2
  have some_some : ∀ {u v : Nat} {x : Option Nat}, x = some u → x = some v → v = u := by
    intro u v x h1 h2
    rw [h1] at h2
    exact (Option.some.inj h2).symm
  refine ⟨r, hr, ?_, ?_⟩
  · intro s' hs'
    by_cases hst : record.getD 0 0 > 7
    · exact (none_some (c1 hst).2.1 hs').elim
    · have hsm : r.smsc_len = some s := by
        by_cases hff : record.getD 3 0 = 0xff
        · exact (c2 (by omega) hff).2.1
        · by_cases hk01 : k = 0 ∨ k = 1
          · exact (c4 (by omega) hff hk01).1
          · exact (c3 (by omega) hff hk01).2.1
      have := some_some hsm hs'
      omega
  · intro u hu
    by_cases hst : record.getD 0 0 > 7
    · exact (none_some (c1 hst).2.2 hu).elim
    · by_cases hff : record.getD 3 0 = 0xff
      · exact (none_some (c2 (by omega) hff).2.2 hu).elim
      · by_cases hk01 : k = 0 ∨ k = 1
        · obtain ⟨d1, d2, d3, d4, d5⟩ := c4 (by omega) hff hk01
          by_cases hout : a < 2 ∨ a > 12
          · exact (none_some (d4 hout).2 hu).elim
          · obtain ⟨f1, f2, f3, f4⟩ := d5 hout
            have hue := some_some f2 hu
            rw [← hue] at f3 f4
            have hk7 : (if k = 1 then 7 else 12) ≤ 12 := by split_ifs <;> omega
            refine ⟨by omega, f3, by omega, f4, s, k, a, d1, d2, d3, by omega, by omega, ?_, hue⟩
            rw [hue]
            split_ifs <;> omega
        · exact (none_some (c3 (by omega) hff hk01).2.2 hu).elim

set_option maxRecDepth 100000 in
/-- C16 (witness): a record of 176 zero bytes and an SMS-DELIVER record whose TP-UDL
byte is `0xff` are both parsed without a read outside the record; the cursor after
TP-UDL is at most 38. -/
theorem C16_parse_sms_reads_in_bounds_witness :
    (List.replicate 176 0).length = 176 ∧
    (∃ r, scsisim_parse_sms (some (List.replicate 176 0)) = some r ∧
      ∀ u, r.bytes_used = some u → u ≤ 38 ∧ r.bytes_remaining = some (176 - u)) ∧
    (∃ r, scsisim_parse_sms (some ([1, 7, 0x91, 0x21, 0x43, 0x65, 0x87, 0x09, 0xf1, 0x04,
        11, 0x91, 0x13, 0x32, 0x54, 0x76, 0x98, 0xf0, 0, 0, 0x71, 0x01, 0x32, 0x41, 0x52,
        0x63, 0x00, 0xff] ++ List.replicate 148 0x41)) = some r ∧
      ∀ u, r.bytes_used = some u → ∃ m, r.msg_len = some m ∧ m ≤ 176 - u) := by
  refine ⟨by decide, ?_, ?_⟩
  · obtain ⟨r, hr, -, h⟩ := C16_parse_sms_reads_in_bounds (List.replicate 176 0) (by decide)
    exact ⟨r, hr, fun u hu => ⟨(h u hu).1, (h u hu).2.1⟩⟩
  · obtain ⟨r, hr, -, h⟩ := C16_parse_sms_reads_in_bounds
      ([1, 7, 0x91, 0x21, 0x43, 0x65, 0x87, 0x09, 0xf1, 0x04,
        11, 0x91, 0x13, 0x32, 0x54, 0x76, 0x98, 0xf0, 0, 0, 0x71, 0x01, 0x32, 0x41, 0x52,
        0x63, 0x00, 0xff] ++ List.replicate 148 0x41) (by decide)
    exact ⟨r, hr, fun u hu => (h u hu).2.2.2.1⟩

/-- C17: the first three rejections of `scsisim_parse_sms`, in order, for every present
record: the return code is `SCSISIM_INVALID_PARAM` exactly when the length is not 176;
for a 176-byte record it is `SCSISIM_SMS_INVALID_STATUS` exactly when `record[0] > 7`;
for a 176-byte record with `record[0] ≤ 7` it is `SCSISIM_SMS_INVALID_SMSC` exactly
when `record[3]` is `0xff`, whatever the SMSC length byte `record[1]` is. -/
theorem C17_parse_sms_rejection_order (record : List Nat) :
    ∃ r, scsisim_parse_sms (some record) = some r ∧
      (r.ret = SCSISIM_INVALID_PARAM ↔ record.length ≠ 176) ∧
      (record.length = 176 →
        (r.ret = SCSISIM_SMS_INVALID_STATUS ↔ record.getD 0 0 > 7)) ∧
      (record.length = 176 → record.getD 0 0 ≤ 7 →
        (r.ret = SCSISIM_SMS_INVALID_SMSC ↔ record.getD 3 0 = 0xff)) := by
  by_cases hlen : record.length = 176
  · obtain ⟨-, -, r, hr, c1, c2, c3, c4⟩ := scsisim_parse_sms_total record hlen _ _ _
      rfl rfl rfl
    generalize clamp_len_minus_one (record.getD 1 0) GSM_MAX_SMSC_LEN = s at c1 c2 c3 c4
    generalize (record.getD (3 + s) 0 &&& 0x03) % 256 = k at c1 c2 c3 c4
    generalize (record.getD (if k = 1 then 3 + s + 1 + 1 else 3 + s + 1) 0 + 1) / 2 = a
      at c1 c2 c3 c4
    have hret : (record.getD 0 0 > 7 ∧ r.ret = SCSISIM_SMS_INVALID_STATUS) ∨
        (record.getD 0 0 ≤ 7 ∧ record.getD 3 0 = 0xff ∧ r.ret = SCSISIM_SMS_INVALID_SMSC) ∨
        (record.getD 0 0 ≤ 7 ∧ record.getD 3 0 ≠ 0xff ∧
          (r.ret = SCSISIM_SUCCESS ∨ r.ret = SCSISIM_SMS_INVALID_ADDRESS)) := by
      by_cases hst : record.getD 0 0 > 7
      · exact Or.inl ⟨hst, (c1 hst).1⟩
      · by_cases hff : record.getD 3 0 = 0xff
        · exact Or.inr (Or.inl ⟨by omega, hff, (c2 (by omega) hff).1⟩)
        · refine Or.inr (Or.inr ⟨by omega, hff, ?_⟩)
          by_cases hk01 : k = 0 ∨ k = 1
          · obtain ⟨-, -, -, d4, d5⟩ := c4 (by omega) hff hk01
            by_cases hout : a < 2 ∨ a > 12
            · exact Or.inr (d4 hout).1
            · exact Or.inl (d5 hout).1
          · exact Or.inl (c3 (by omega) hff hk01).1
    refine ⟨r, hr, ?_, fun _ => ?_, fun _ h0 => ?_⟩
    · constructor
      · intro h
        rcases hret with ⟨-, e⟩ | ⟨-, -, e⟩ | ⟨-, -, e | e⟩ <;>
          exact absurd (e.symm.trans h) (by decide)
      · intro h
        exact absurd hlen h
    · constructor
      · intro h
        rcases hret with ⟨g, -⟩ | ⟨-, -, e⟩ | ⟨-, -, e | e⟩
        · exact g
        all_goals exact absurd (e.symm.trans h) (by decide)
      · intro h
        exact (c1 h).1
    · constructor
      · intro h
        rcases hret with ⟨g, -⟩ | ⟨-, g, -⟩ | ⟨-, -, e | e⟩
        · omega
        · exact g
        all_goals exact absurd (e.symm.trans h) (by decide)
      · intro h
        exact (c2 h0 h).1
  · refine ⟨{ ret := SCSISIM_INVALID_PARAM }, ?_, ?_, fun h => absurd h hlen,
      fun h => absurd h hlen⟩
    · unfold scsisim_parse_sms
      simp only [GSM_SMS_RECORD_LEN]
      rw [if_pos hlen]
    · exact ⟨fun _ => hlen, fun _ => rfl⟩

set_option maxRecDepth 100000 in
/-- C17 (witness): a 10-byte record is an invalid parameter; a 176-byte record of
`0xff` has an invalid status; status 0 followed by `0xff` bytes has an invalid SMSC;
a record of zero bytes gets past all three checks. -/
theorem C17_parse_sms_rejection_order_witness :
    (∃ r, scsisim_parse_sms (some (List.replicate 10 0)) = some r ∧
      r.ret = SCSISIM_INVALID_PARAM) ∧
    (∃ r, scsisim_parse_sms (some (List.replicate 176 0xff)) = some r ∧
      r.ret = SCSISIM_SMS_INVALID_STATUS) ∧
    (∃ r, scsisim_parse_sms (some (0 :: List.replicate 175 0xff)) = some r ∧
      r.ret = SCSISIM_SMS_INVALID_SMSC) ∧
    (∃ r, scsisim_parse_sms (some (List.replicate 176 0)) = some r ∧
      r.ret ≠ SCSISIM_INVALID_PARAM ∧ r.ret ≠ SCSISIM_SMS_INVALID_STATUS ∧
      r.ret ≠ SCSISIM_SMS_INVALID_SMSC) := by
  refine ⟨?_, ?_, ?_, ?_⟩
  · obtain ⟨r, hr, h1, -, -⟩ := C17_parse_sms_rejection_order (List.replicate 10 0)
    exact ⟨r, hr, h1.mpr (by decide)⟩
  · obtain ⟨r, hr, -, h2, -⟩ := C17_parse_sms_rejection_order (List.replicate 176 0xff)
    exact ⟨r, hr, (h2 (by decide)).mpr (by decide)⟩
  · obtain ⟨r, hr, -, -, h3⟩ := C17_parse_sms_rejection_order (0 :: List.replicate 175 0xff)
    exact ⟨r, hr, (h3 (by decide) (by decide)).mpr (by decide)⟩
  · obtain ⟨r, hr, h1, h2, h3⟩ := C17_parse_sms_rejection_order (List.replicate 176 0)
    exact ⟨r, hr, fun h => h1.mp h (by decide), fun h => absurd ((h2 (by decide)).mp h) (by decide),
      fun h => absurd ((h3 (by decide) (by decide)).mp h) (by decide)⟩

/-- C18: for every 176-byte record that passes the status and SMSC checks and whose
TPDU kind `k` (type byte `& 0x03`, the type byte following the `s` SMSC bytes) is 0 or
1, with `n` the address-length byte read right after the type byte for SMS-DELIVER and
one byte later for SMS-SUBMIT: the parser computes the address length `(n + 1) / 2`
and returns `SCSISIM_SMS_INVALID_ADDRESS` exactly when that lies outside `2 .. 12`;
in particular every `n < 2` and every `n > 24` is rejected. -/
theorem C18_parse_sms_address_length (record : List Nat) (hlen : record.length = 176)
    (h0 : record.getD 0 0 ≤ 7) (h3 : record.getD 3 0 ≠ 0xff) (s k n : Nat)
    (hs : s = clamp_len_minus_one (record.getD 1 0) GSM_MAX_SMSC_LEN)
    (hk : k = (record.getD (3 + s) 0 &&& 0x03) % 256) (hk01 : k = 0 ∨ k = 1)
    (hn : n = record.getD (if k = 1 then 3 + s + 1 + 1 else 3 + s + 1) 0) :
    ∃ r, scsisim_parse_sms (some record) = some r ∧
      r.address_len = some ((n + 1) / 2) ∧
      (r.ret = SCSISIM_SMS_INVALID_ADDRESS ↔ ((n + 1) / 2 < 2 ∨ (n + 1) / 2 > 12)) ∧
      (n < 2 ∨ n > 24 → r.ret = SCSISIM_SMS_INVALID_ADDRESS) := by
  obtain ⟨-, -, r, hr, -, -, -, c4⟩ := scsisim_parse_sms_total record hlen s k ((n + 1) / 2)
    hs hk (by rw [hn])
  obtain ⟨-, -, d3, d4, d5⟩ := c4 h0 h3 hk01
  refine ⟨r, hr, d3, ⟨fun h => ?_, fun h => (d4 h).1⟩, fun h => (d4 (by omega)).1⟩
  by_contra hin
  exact absurd ((d5 hin).1.symm.trans h) (by decide)

set_option maxRecDepth 100000 in
/-- C18 (witness): a record of zero bytes (SMS-DELIVER, `n = 0`) has an invalid address;
an SMS-DELIVER record with `n = 11` has a six-byte address and is not rejected; an
SMS-SUBMIT record with `n = 25` is rejected. -/
theorem C18_parse_sms_address_length_witness :
    (∃ r, scsisim_parse_sms (some (List.replicate 176 0)) = some r ∧
      r.ret = SCSISIM_SMS_INVALID_ADDRESS) ∧
    (∃ r, scsisim_parse_sms (some ([1, 7, 0x91, 0x21, 0x43, 0x65, 0x87, 0x09, 0xf1, 0x04,
        11, 0x91, 0x13, 0x32, 0x54, 0x76, 0x98, 0xf0, 0, 0, 0x71, 0x01, 0x32, 0x41, 0x52,
        0x63, 0x00, 5, 0xc8, 0x32, 0x9b, 0xfd, 0x06] ++ List.replicate 143 0xff)) = some r ∧
      r.address_len = some 6 ∧ r.ret ≠ SCSISIM_SMS_INVALID_ADDRESS) ∧
    (∃ r, scsisim_parse_sms (some ([5, 2, 0x91, 0x21, 0x01, 0x07, 25] ++
        List.replicate 169 0x21)) = some r ∧ r.ret = SCSISIM_SMS_INVALID_ADDRESS) := by
  refine ⟨?_, ?_, ?_⟩
  · obtain ⟨r, hr, -, -, h⟩ := C18_parse_sms_address_length (List.replicate 176 0)
      (by decide) (by decide) (by decide) 10 0 0 (by decide) (by decide) (by decide)
      (by decide)
    exact ⟨r, hr, h (by decide)⟩
  · obtain ⟨r, hr, ha, h, -⟩ := C18_parse_sms_address_length
      ([1, 7, 0x91, 0x21, 0x43, 0x65, 0x87, 0x09, 0xf1, 0x04,
        11, 0x91, 0x13, 0x32, 0x54, 0x76, 0x98, 0xf0, 0, 0, 0x71, 0x01, 0x32, 0x41, 0x52,
        0x63, 0x00, 5, 0xc8, 0x32, 0x9b, 0xfd, 0x06] ++ List.replicate 143 0xff)
      (by decide) (by decide) (by decide) 6 0 11 (by decide) (by decide) (by decide)
      (by decide)
    exact ⟨r, hr, ha, fun e => absurd (h.mp e) (by decide)⟩
  · obtain ⟨r, hr, -, -, h⟩ := C18_parse_sms_address_length
      ([5, 2, 0x91, 0x21, 0x01, 0x07, 25] ++ List.replicate 169 0x21)
      (by decide) (by decide) (by decide) 1 1 25 (by decide) (by decide) (by decide)
      (by decide)
    exact ⟨r, hr, h (by decide)⟩

/-! ## Theorems: SELECT followed by GET RESPONSE -/

/-- One call of `scsi_send_cdb` appends exactly the command it was given to the list of
commands sent. -/
theorem scsi_send_cdb_sent (io : sg_ioctl) (sent : List scsi_cmd) (my_cmd : scsi_cmd) :
    (scsi_send_cdb io sent my_cmd).2 = sent ++ [my_cmd] := by
  unfold scsi_send_cdb
  simp only []
  split_ifs <;> rfl

/-- Whatever `scsisim_select_file` returns, it has sent one command: the SELECT
template of the device with the two bytes of the file identifier as data. -/
theorem scsisim_select_file_sent (verbose : Bool) (io : sg_ioctl)
    (device : sim_device_profile) (file : Nat) (sent : List scsi_cmd) (n : Int)
    (sent1 : List scsi_cmd)
    (h : scsisim_select_file verbose io device file sent = some (n, sent1)) :
    sent1 = sent ++ [scsi_cmd.mk SIM_WRITE (device.CDB_select_file.take device.cdb_len)
      [(file >>> 8) % 256, (file &&& 0xff) % 256] device.sense_len] := by
  have hs := scsi_send_cdb_sent io sent (scsi_cmd.mk SIM_WRITE
    (device.CDB_select_file.take device.cdb_len)
    [(file >>> 8) % 256, (file &&& 0xff) % 256] device.sense_len)
  unfold scsisim_select_file at h
  simp only [] at h
  generalize scsi_send_cdb io sent (scsi_cmd.mk SIM_WRITE
    (device.CDB_select_file.take device.cdb_len)
    [(file >>> 8) % 256, (file &&& 0xff) % 256] device.sense_len) = p at h hs
  obtain ⟨reply, s⟩ := p
  simp only [] at h hs
  subst hs
  by_cases h1 : reply.ret = SCSISIM_SUCCESS
  · rw [if_pos h1] at h
    by_cases h2 : reply.sense_xfered ≠ 0
    · rw [if_pos h2] at h
      cases hr : reply_sense verbose device reply with
      | none => rw [hr] at h; exact Option.noConfusion h
      | some v =>
        rw [hr] at h
        exact (congrArg Prod.snd (Option.some.inj h)).symm
    · rw [if_neg h2] at h
      exact (congrArg Prod.snd (Option.some.inj h)).symm
  · rw [if_neg h1] at h
    exact (congrArg Prod.snd (Option.some.inj h)).symm

/-- Whatever `scsisim_get_response` returns on a present buffer of at least one byte
and a present response structure, it has sent one command: the GET RESPONSE template
with the length byte set to the length of the buffer, reading into that buffer. -/
theorem scsisim_get_response_sent (verbose : Bool) (io : sg_ioctl)
    (device : sim_device_profile) (buf : List Nat) (command : Int) (rsp : GSM_response)
    (sent : List scsi_cmd) (hbuf : 1 ≤ buf.length) (r : engine_result)
    (h : scsisim_get_response verbose io device (some buf) command (some rsp) sent = some r) :
    device.get_response_len_offset < (device.CDB_get_response.take device.cdb_len).length ∧
    r.sent = sent ++ [scsi_cmd.mk SIM_READ
      ((device.CDB_get_response.take device.cdb_len).set device.get_response_len_offset
        buf.length) buf device.sense_len] := by
  unfold scsisim_get_response at h
  simp only [] at h
  rw [if_neg (by omega)] at h
  unfold cdb_set at h
  by_cases hoff : device.get_response_len_offset <
      (device.CDB_get_response.take device.cdb_len).length
  · rw [if_pos hoff] at h
    simp only [] at h
    have hs := scsi_send_cdb_sent io sent (scsi_cmd.mk SIM_READ
      ((device.CDB_get_response.take device.cdb_len).set device.get_response_len_offset
        buf.length) buf device.sense_len)
    generalize scsi_send_cdb io sent (scsi_cmd.mk SIM_READ
      ((device.CDB_get_response.take device.cdb_len).set device.get_response_len_offset
        buf.length) buf device.sense_len) = p at h hs
    obtain ⟨reply, s⟩ := p
    simp only [] at h hs
    subst hs
    refine ⟨hoff, ?_⟩
    by_cases h1 : reply.ret = SCSISIM_SUCCESS
    · rw [if_pos h1] at h
      cases hg : gsm_parse_response (some reply.data)
          { rsp with command := command } with
      | none => rw [hg] at h; exact Option.noConfusion h
      | some q =>
        obtain ⟨ret, rsp1⟩ := q
        rw [hg] at h
        simp only [] at h
        by_cases h2 : reply.sense_xfered ≠ 0
        · rw [if_pos h2] at h
          cases hr : reply_sense verbose device reply with
          | none => rw [hr] at h; exact Option.noConfusion h
          | some v =>
            rw [hr] at h
            exact (congrArg engine_result.sent (Option.some.inj h)).symm
        · rw [if_neg h2] at h
          exact (congrArg engine_result.sent (Option.some.inj h)).symm
    · rw [if_neg h1] at h
      exact (congrArg engine_result.sent (Option.some.inj h)).symm
  · rw [if_neg hoff] at h
    exact Option.noConfusion h

/-- The macro `MIN` is the minimum. -/
theorem MIN_eq_min (a b : Int) : MIN a b = min a b := by
  unfold MIN
  rw [min_def]
  split_ifs <;> omega

/-- The length handed to GET RESPONSE survives the `uint8_t` parameter when the
caller's length is itself a `uint8_t`. -/
theorem MIN_toNat_mod (n : Int) (len : Nat) (hlen : len ≤ 255) :
    (MIN n len).toNat % 256 = (min n (len : Int)).toNat := by
  rw [MIN_eq_min]
  apply Nat.mod_eq_of_lt
  have : min n (len : Int) ≤ len := min_le_right _ _
  omega

/-- C20: let `scsisim_select_file` return the value `n` after sending its command.
(1) It has sent exactly the SELECT command.  (2) When `n` is 0 or negative,
`scsisim_select_file_and_get_response` returns `n` unchanged, sends nothing more (no
GET RESPONSE) and leaves the data buffer and the response descriptor untouched.
(3) When `n > 0` it calls `scsisim_get_response` and returns its result: on the first
`min(n, len)` bytes of the caller's buffer of `len` bytes, or on the `NULL` buffer.
(4) When `n > 0`, the buffer has `1 ≤ len ≤ 255` bytes and the descriptor is present,
the second and last command sent is GET RESPONSE with the length byte of its CDB set
to `min(n, len)` and a data buffer of `min(n, len)` bytes. -/
theorem C20_select_file_and_get_response (verbose : Bool) (io : sg_ioctl)
    (device : sim_device_profile) (file : Nat) (data : Option (List Nat)) (command : Int)
    (resp : Option GSM_response) (sent : List scsi_cmd) (n : Int) (sent1 : List scsi_cmd)
    (hsel : scsisim_select_file verbose io device file sent = some (n, sent1)) :
    sent1 = sent ++ [scsi_cmd.mk SIM_WRITE (device.CDB_select_file.take device.cdb_len)
      [(file >>> 8) % 256, (file &&& 0xff) % 256] device.sense_len] ∧
    (n ≤ 0 →
      scsisim_select_file_and_get_response verbose io device file data command resp sent
        = some { ret := n, data := data, resp := resp, sent := sent1 }) ∧
    (0 < n → data = none →
      scsisim_select_file_and_get_response verbose io device file data command resp sent
        = scsisim_get_response verbose io device none command resp sent1) ∧
    (0 < n → ∀ buf, data = some buf → buf.length ≤ 255 →
      (scsisim_select_file_and_get_response verbose io device file data command resp
          sent).map (fun r => (r.ret, r.resp, r.sent)) =
        (scsisim_get_response verbose io device
          (some (buf.take (min n (buf.length : Int)).toNat)) command resp sent1).map
          (fun r => (r.ret, r.resp, r.sent))) ∧
    (0 < n → ∀ buf rsp r, data = some buf → resp = some rsp → 1 ≤ buf.length →
      buf.length ≤ 255 →
      scsisim_select_file_and_get_response verbose io device file data command resp sent
        = some r →
      (buf.take (min n (buf.length : Int)).toNat).length = (min n (buf.length : Int)).toNat ∧
      r.sent = sent1 ++ [scsi_cmd.mk SIM_READ
        ((device.CDB_get_response.take device.cdb_len).set device.get_response_len_offset
          (min n (buf.length : Int)).toNat)
        (buf.take (min n (buf.length : Int)).toNat) device.sense_len]) := by
  have hunf : scsisim_select_file_and_get_response verbose io device file data command
      resp sent =
      if n > 0 then
        match data with
        | none => scsisim_get_response verbose io device none command resp sent1
        | some buf =>
          match scsisim_get_response verbose io device
              (some (buf.take ((MIN n buf.length).toNat % 256))) command resp sent1 with
          | none => none
          | some r =>
            some { r with data := r.data.map fun d => d ++ buf.drop ((MIN n buf.length).toNat % 256) }
      else some { ret := n, data := data, resp := resp, sent := sent1 } := by
    unfold scsisim_select_file_and_get_response
    rw [hsel]
  refine ⟨scsisim_select_file_sent verbose io device file sent n sent1 hsel, ?_, ?_, ?_, ?_⟩
  · intro hn
    rw [hunf, if_neg (by omega)]
  · intro hn hd
    rw [hunf, if_pos (by omega), hd]
  · intro hn buf hd hlen
    rw [hunf, if_pos (by omega), hd]
    simp only []
    rw [MIN_toNat_mod n buf.length hlen]
    cases scsisim_get_response verbose io device
        (some (buf.take (min n (buf.length : Int)).toNat)) command resp sent1 with
    | none => rfl
    | some r => rfl
  · intro hn buf rsp r hd hr hb1 hlen hres
    rw [hunf, if_pos (by omega), hd, hr] at hres
    simp only [] at hres
    rw [MIN_toNat_mod n buf.length hlen] at hres
    have hm : (buf.take (min n (buf.length : Int)).toNat).length
        = (min n (buf.length : Int)).toNat := by
      rw [List.length_take]
      have : min n (buf.length : Int) ≤ buf.length := min_le_right _ _
      omega
    have hm1 : 1 ≤ (min n (buf.length : Int)).toNat := by
      have : 1 ≤ min n (buf.length : Int) := le_min (by omega) (by omega)
      omega
    refine ⟨hm, ?_⟩
    cases hg : scsisim_get_response verbose io device
        (some (buf.take (min n (buf.length : Int)).toNat)) command (some rsp) sent1 with
    | none => rw [hg] at hres; exact Option.noConfusion hres
    | some r1 =>
      rw [hg] at hres
      have hs := (scsisim_get_response_sent verbose io device _ command rsp sent1
        (by rw [hm]; exact hm1) r1 hg).2
      rw [hm] at hs
      rw [← Option.some.inj hres]
      exact hs

set_option maxRecDepth 100000 in
/-- C20 (witness): on the example device, SELECT answered with `0x9f 0f` (15 bytes
waiting) and a caller buffer of 20 bytes: two commands are sent, the second a GET
RESPONSE for `min(15, 20) = 15` bytes; SELECT answered with `0x9f 00` returns 0 after
the SELECT command alone. -/
theorem C20_select_file_and_get_response_witness :
    scsisim_select_file false (example_ioctl 15) example_device 0x6f3a [] =
      some (15, [scsi_cmd.mk SIM_WRITE [0xdf, 0xa4, 0, 0, 2, 0] [0x6f, 0x3a] 18]) ∧
    (∃ r, scsisim_select_file_and_get_response false (example_ioctl 15) example_device
        0x6f3a (some (List.replicate 20 0xaa)) SELECT_EF
        (some (GSM_response.mk 0 (GSM_type.ef (GSM_EF.mk 0 0 0 0 0 0)))) [] = some r ∧
      r.sent = [scsi_cmd.mk SIM_WRITE [0xdf, 0xa4, 0, 0, 2, 0] [0x6f, 0x3a] 18,
        scsi_cmd.mk SIM_READ [0xdf, 0xc0, 0, 0, 15, 0] (List.replicate 15 0xaa) 18]) ∧
    scsisim_select_file_and_get_response false (example_ioctl 0) example_device
        0x6f3a (some (List.replicate 20 0xaa)) SELECT_EF
        (some (GSM_response.mk 0 (GSM_type.ef (GSM_EF.mk 0 0 0 0 0 0)))) [] =
      some { ret := 0, data := some (List.replicate 20 0xaa),
             resp := some (GSM_response.mk 0 (GSM_type.ef (GSM_EF.mk 0 0 0 0 0 0))),
             sent := [scsi_cmd.mk SIM_WRITE [0xdf, 0xa4, 0, 0, 2, 0] [0x6f, 0x3a] 18] } := by
  refine ⟨rfl, ?_, ?_⟩
  · have hsome : (scsisim_select_file_and_get_response false (example_ioctl 15)
        example_device 0x6f3a (some (List.replicate 20 0xaa)) SELECT_EF
        (some (GSM_response.mk 0 (GSM_type.ef (GSM_EF.mk 0 0 0 0 0 0)))) []).isSome = true :=
      rfl
    obtain ⟨r, hr⟩ := Option.isSome_iff_exists.mp hsome
    exact ⟨r, hr, ((C20_select_file_and_get_response false (example_ioctl 15) example_device
      0x6f3a (some (List.replicate 20 0xaa)) SELECT_EF
      (some (GSM_response.mk 0 (GSM_type.ef (GSM_EF.mk 0 0 0 0 0 0)))) [] 15 _ rfl).2.2.2.2
      (by decide) _ _ r rfl rfl (by decide) (by decide) hr).2⟩
  · exact (C20_select_file_and_get_response false (example_ioctl 0) example_device
      0x6f3a (some (List.replicate 20 0xaa)) SELECT_EF
      (some (GSM_response.mk 0 (GSM_type.ef (GSM_EF.mk 0 0 0 0 0 0)))) [] 0 _ rfl).2.1
      (by decide)

/-! ## Theorems: ADN number length and number -/

/-- The length byte minus one, clamped as the parsers do it: kept when it lies in
`1 .. max`, replaced by `max` otherwise (also when the byte is 0 or 1). -/
theorem clamp_len_minus_one_cases (b max : Nat) (hmax : max < 2 ^ 32 - 1) :
    clamp_len_minus_one b max = if 2 ≤ b ∧ b ≤ max + 1 then b - 1 else max := by
  unfold clamp_len_minus_one u32_sub
  split_ifs <;> omega

/-- Every path of `scsisim_parse_adn` through a used record of at least 15 bytes: the
name is mapped from the first `N = record_len - 14` bytes, the number length is the
clamped length byte at offset `N`, and the number is decoded from the bytes that
follow the TON/NPI byte. -/
theorem scsisim_parse_adn_used (record : List Nat) (hlen : 15 ≤ record.length)
    (hff : record.getD 0 0 ≠ 0xff) (N L : Nat) (hN : N = record.length - 14)
    (hL : L = clamp_len_minus_one (record.getD N 0) GSM_MAX_ADN_NUMBER_LEN) :
    1 ≤ L ∧ L ≤ 10 ∧ N + 2 + L ≤ record.length ∧
    ∃ name, scsisim_map_gsm_chars (some (record.take N)) = map_outcome.buffer name ∧
      scsisim_parse_adn (some record) = some
        (adn_result.mk SCSISIM_SUCCESS false (some (some name)) (some L)
          (some (scsisim_packed_bcd_to_ascii (some ((record.drop (N + 2)).take L))
            true true true))) := by
  obtain ⟨h1, h2⟩ := clamp_len_minus_one_bounds (record.getD N 0)
    GSM_MAX_ADN_NUMBER_LEN (by decide)
  rw [← hL] at h1 h2
  have h2' : L ≤ 10 := h2
  have hne : record.take N ≠ [] := by
    intro h
    have := congrArg List.length h
    rw [List.length_take, List.length_nil] at this
    omega
  obtain ⟨name, hname⟩ := scsisim_map_gsm_chars_buffer _ hne
  refine ⟨h1, h2', by omega, name, hname, ?_⟩
  unfold scsisim_parse_adn
  simp only [GSM_ADN_NUMBER_BUFFER_LEN]
  rw [if_neg (by omega), getElem?_eq_some_getD record 0 (by omega)]
  simp only []
  rw [if_neg hff, ← hN, hname]
  simp only []
  unfold adn_number
  rw [getElem?_eq_some_getD record N (by omega)]
  simp only []
  rw [← hL, copy_bytes_some record (N + 2) L (by omega)]

set_option maxRecDepth 100000 in
/-- C29 (counterexample): in a 15-byte record with the name "A" and the length byte 1,
the length byte minus one is 0, below 1; the number length used is 10, not 1.  The
same holds for the length byte 0. -/
theorem C29_below_one_gives_ten :
    (scsisim_parse_adn (some ([0x41, 1, 0x81] ++ List.replicate 12 0x21))).map
      adn_result.number_len = some (some 10) ∧
    (scsisim_parse_adn (some ([0x41, 0, 0x81] ++ List.replicate 12 0x21))).map
      adn_result.number_len = some (some 10) ∧
    (scsisim_parse_adn (some ([0x41, 1, 0x81] ++ List.replicate 12 0x21))).map
      adn_result.number_len ≠ some (some 1) := by
  refine ⟨rfl, rfl, ?_⟩
  intro h
  exact absurd (Option.some.inj (Option.some.inj
    ((rfl : (scsisim_parse_adn (some ([0x41, 1, 0x81] ++ List.replicate 12 0x21))).map
      adn_result.number_len = some (some 10)).symm.trans h))) (by decide)

/-- C29 (amended): for every record of at least 15 bytes whose first byte is not
`0xff`, with `b` the byte at offset `N = record_len - 14`, the number length used for
decoding is `b - 1` when that lies in `1 .. 10` and 10 otherwise: 10 when `b - 1` is
above 10 and also when it is below 1 (`b` is 0 or 1).  It always lies in `1 .. 10`. -/
theorem C29_adn_number_length (record : List Nat) (hlen : 15 ≤ record.length)
    (hff : record.getD 0 0 ≠ 0xff) (N b : Nat) (hN : N = record.length - 14)
    (hb : b = record.getD N 0) :
    ∃ r L, scsisim_parse_adn (some record) = some r ∧ r.number_len = some L ∧
      1 ≤ L ∧ L ≤ 10 ∧
      (2 ≤ b ∧ b ≤ 11 → L = b - 1) ∧ (b ≤ 1 → L = 10) ∧ (11 < b → L = 10) := by
  obtain ⟨h1, h2, -, name, -, hp⟩ := scsisim_parse_adn_used record hlen hff N _ hN rfl
  have hc := clamp_len_minus_one_cases (record.getD N 0) GSM_MAX_ADN_NUMBER_LEN (by decide)
  rw [← hb] at hc h1 h2 hp
  simp only [GSM_MAX_ADN_NUMBER_LEN] at hc h1 h2 hp
  refine ⟨_, _, hp, rfl, h1, h2, ?_, ?_, ?_⟩
  · intro h
    rw [hc, if_pos (by omega)]
  · intro h
    rw [hc, if_neg (by omega)]
  · intro h
    rw [hc, if_neg (by omega)]

set_option maxRecDepth 100000 in
/-- C29 (witness): with the length byte 4 the number length is 3; with the length byte
12 it is 10. -/
theorem C29_adn_number_length_witness :
    (∃ r, scsisim_parse_adn (some ([0x41, 4, 0x81, 0x21, 0x43, 0xf5] ++
        List.replicate 9 0xff)) = some r ∧ r.number_len = some 3) ∧
    (∃ r, scsisim_parse_adn (some ([0x41, 12, 0x81] ++ List.replicate 12 0x21)) = some r ∧
      r.number_len = some 10) := by
  constructor
  · obtain ⟨r, L, hr, hl, -, -, h, -, -⟩ := C29_adn_number_length
      ([0x41, 4, 0x81, 0x21, 0x43, 0xf5] ++ List.replicate 9 0xff) (by decide) (by decide)
      1 4 (by decide) (by decide)
    exact ⟨r, hr, by rw [hl, h (by decide)]⟩
  · obtain ⟨r, L, hr, hl, -, -, -, -, h⟩ := C29_adn_number_length
      ([0x41, 12, 0x81] ++ List.replicate 12 0x21) (by decide) (by decide)
      1 12 (by decide) (by decide)
    exact ⟨r, hr, by rw [hl, h (by decide)]⟩

/-- C30: for every record of at least 15 bytes whose first byte is not `0xff` and whose
length byte `b = record[N]` (`N = record_len - 14`) is in `2 .. 11`, the string printed
as contact number is `scsisim_packed_bcd_to_ascii` applied to the `L = b - 1` bytes
`record[N+2 .. N+2+L)`, with little-endian nibbles, sign stripping and telecom digits;
these bytes lie inside the record; and replacing the TON/NPI byte `record[N+1]` by any
other value changes nothing in what the parser prints and returns. -/
theorem C30_adn_number (record : List Nat) (hlen : 15 ≤ record.length)
    (hff : record.getD 0 0 ≠ 0xff) (N b : Nat) (hN : N = record.length - 14)
    (hb : b = record.getD N 0) (hb2 : 2 ≤ b ∧ b ≤ 11) :
    N + 2 + (b - 1) ≤ record.length ∧
    (∃ r, scsisim_parse_adn (some record) = some r ∧
      r.number = some (scsisim_packed_bcd_to_ascii
        (some ((record.drop (N + 2)).take (b - 1))) true true true)) ∧
    ∀ x, scsisim_parse_adn (some (record.set (N + 1) x)) =
      scsisim_parse_adn (some record) := by
  have hc := clamp_len_minus_one_cases (record.getD N 0) GSM_MAX_ADN_NUMBER_LEN (by decide)
  rw [← hb] at hc
  simp only [GSM_MAX_ADN_NUMBER_LEN] at hc
  rw [if_pos (by omega)] at hc
  obtain ⟨h1, h2, h3, name, hname, hp⟩ := scsisim_parse_adn_used record hlen hff N (b - 1) hN
    (by rw [← hb]; exact hc.symm)
  refine ⟨h3, ⟨_, hp, rfl⟩, ?_⟩
  intro x
  have hlen' : (record.set (N + 1) x).length = record.length := List.length_set _ _ _
  have hg0 : (record.set (N + 1) x).getD 0 0 = record.getD 0 0 := by
    rw [List.getD_eq_getElem?_getD, List.getD_eq_getElem?_getD,
      List.getElem?_set_ne (by omega)]
  have hgN : (record.set (N + 1) x).getD N 0 = record.getD N 0 := by
    rw [List.getD_eq_getElem?_getD, List.getD_eq_getElem?_getD,
      List.getElem?_set_ne (by omega)]
  obtain ⟨-, -, -, name', hname', hp'⟩ := scsisim_parse_adn_used (record.set (N + 1) x)
    (by omega) (by rw [hg0]; exact hff) N (b - 1) (by omega)
    (by rw [hgN, ← hb]; exact hc.symm)
  rw [List.take_set_of_lt x record (by omega), hname] at hname'
  cases map_outcome.buffer.inj hname'
  rw [hp', hp, List.drop_set_of_lt x record (by omega)]

set_option maxRecDepth 100000 in
/-- C30 (witness): the record "A", length byte 4, TON/NPI `0x81`, number bytes
`21 43 f5` prints the number "12345"; the TON/NPI byte `0x91` gives the same result. -/
theorem C30_adn_number_witness :
    (∃ r, scsisim_parse_adn (some ([0x41, 4, 0x81, 0x21, 0x43, 0xf5] ++
        List.replicate 9 0xff)) = some r ∧
      r.number = some (scsisim_packed_bcd_to_ascii (some [0x21, 0x43, 0xf5])
        true true true)) ∧
    packed_bcd_string (some [0x21, 0x43, 0xf5]) true true true = some (c_str "12345") ∧
    ([0x41, 4, 0x81, 0x21, 0x43, 0xf5] ++ List.replicate 9 0xff).set (1 + 1) 0x91 =
      [0x41, 4, 0x91, 0x21, 0x43, 0xf5] ++ List.replicate 9 0xff ∧
    scsisim_parse_adn (some
        (([0x41, 4, 0x81, 0x21, 0x43, 0xf5] ++ List.replicate 9 0xff).set (1 + 1) 0x91)) =
      scsisim_parse_adn (some ([0x41, 4, 0x81, 0x21, 0x43, 0xf5] ++
        List.replicate 9 0xff)) :=
  ⟨(C30_adn_number ([0x41, 4, 0x81, 0x21, 0x43, 0xf5] ++ List.replicate 9 0xff)
      (by decide) (by decide) 1 4 (by decide) (by decide) (by decide)).2.1,
   by decide, by decide,
   (C30_adn_number ([0x41, 4, 0x81, 0x21, 0x43, 0xf5] ++ List.replicate 9 0xff)
      (by decide) (by decide) 1 4 (by decide) (by decide) (by decide)).2.2 0x91⟩

/-! ## Theorems: the character tables and the missing terminator -/

set_option maxRecDepth 100000 in
/-- C27: both tables have exactly 128 entries; the basic table maps `0x00` to `@`,
`0x02` to `$`, `0x0a` to LF, `0x0d` to CR, `0x24` to U+00A4, `0x40` to U+00A1, `0x5b`
to U+00C4, `0x7f` to U+00E0, and the code of every ASCII digit and ASCII letter to that
same character (one byte, the code itself); the extension table maps `0x0a` to form
feed, `0x14` to `^`, `0x28` and `0x29` to the braces, `0x2f` to the backslash, `0x3c`
to `[`, `0x3d` to `~`, `0x3e` to `]`, `0x40` to `|`, `0x65` to U+20AC, and every other
index to a single space. -/
theorem C27_charset_tables :
    GSM_basic_charset.length = 128 ∧ GSM_basic_charset_extension.length = 128 ∧
    GSM_basic_charset[0x00]? = some "@" ∧ GSM_basic_charset[0x02]? = some "$" ∧
    GSM_basic_charset[0x0a]? = some "\n" ∧ GSM_basic_charset[0x0d]? = some "\r" ∧
    GSM_basic_charset[0x24]? = some (String.singleton (Char.ofNat 0xa4)) ∧
    GSM_basic_charset[0x40]? = some (String.singleton (Char.ofNat 0xa1)) ∧
    GSM_basic_charset[0x5b]? = some (String.singleton (Char.ofNat 0xc4)) ∧
    GSM_basic_charset[0x7f]? = some (String.singleton (Char.ofNat 0xe0)) ∧
    (∀ c, c < 128 →
      (0x30 ≤ c ∧ c ≤ 0x39) ∨ (0x41 ≤ c ∧ c ≤ 0x5a) ∨ (0x61 ≤ c ∧ c ≤ 0x7a) →
      GSM_basic_charset[c]? = some (String.singleton (Char.ofNat c)) ∧
      (GSM_basic_charset[c]?).map c_str = some [c]) ∧
    GSM_basic_charset_extension[0x0a]? = some (String.singleton (Char.ofNat 0x0c)) ∧
    GSM_basic_charset_extension[0x14]? = some "^" ∧
    GSM_basic_charset_extension[0x28]? = some (String.singleton (Char.ofNat 0x7b)) ∧
    GSM_basic_charset_extension[0x29]? = some (String.singleton (Char.ofNat 0x7d)) ∧
    GSM_basic_charset_extension[0x2f]? = some (String.singleton (Char.ofNat 0x5c)) ∧
    GSM_basic_charset_extension[0x3c]? = some "[" ∧
    GSM_basic_charset_extension[0x3d]? = some "~" ∧
    GSM_basic_charset_extension[0x3e]? = some "]" ∧
    GSM_basic_charset_extension[0x40]? = some "|" ∧
    GSM_basic_charset_extension[0x65]? = some (String.singleton (Char.ofNat 0x20ac)) ∧
    (∀ i, i < 128 →
      i ∉ [0x0a, 0x14, 0x28, 0x29, 0x2f, 0x3c, 0x3d, 0x3e, 0x40, 0x65] →
      GSM_basic_charset_extension[i]? = some " ") := by
  and_intros
  all_goals decide

set_option maxRecDepth 100000 in
/-- C27 (witness): `0x41` maps to "A" in the basic table and to a space in the
extension table. -/
theorem C27_charset_tables_witness :
    (GSM_basic_charset[0x41]? = some (String.singleton (Char.ofNat 0x41)) ∧
      (GSM_basic_charset[0x41]?).map c_str = some [0x41]) ∧
    GSM_basic_charset_extension[0x41]? = some " " :=
  ⟨C27_charset_tables.2.2.2.2.2.2.2.2.2.2.1 0x41 (by decide) (by decide),
   C27_charset_tables.2.2.2.2.2.2.2.2.2.2.2.2.2.2.2.2.2.2.2.2.2 0x41 (by decide)
     (by decide)⟩

set_option maxRecDepth 100000 in
/-- C28 (the code at the failing inputs): for the one-byte sources `[0xff]` and `[0x1b]`
no character is mapped and no store into the result buffer happens at all: the five
cells come back as allocated, without a terminating NUL, so no C string can be read
from the result.  When a character is mapped, its NUL follows it: `[0x41]` gives "A". -/
theorem C28_unterminated_result :
    scsisim_map_gsm_chars (some [0xff]) = map_outcome.buffer (List.replicate 5 none) ∧
    scsisim_map_gsm_chars (some [0x1b]) = map_outcome.buffer (List.replicate 5 none) ∧
    map_gsm_chars_string (some [0xff]) = none ∧
    map_gsm_chars_string (some [0x1b]) = none ∧
    scsisim_map_gsm_chars (some [0x41]) =
      map_outcome.buffer [some 0x41, some 0, none, none, none] ∧
    map_gsm_chars_string (some [0x41]) = some [0x41] := by
  refine ⟨rfl, rfl, rfl, rfl, rfl, ?_⟩
  decide

/-! ## Theorems: the command engine -/

/-- The transport returns Success or the send error, and reports sense bytes only
together with Success. -/
theorem scsi_send_cdb_ret (io : sg_ioctl) (sent : List scsi_cmd) (my_cmd : scsi_cmd) :
    ((scsi_send_cdb io sent my_cmd).1.ret = SCSISIM_SUCCESS ∨
      ((scsi_send_cdb io sent my_cmd).1.ret = SCSISIM_SCSI_SEND_ERROR ∧
        (scsi_send_cdb io sent my_cmd).1.sense_xfered = 0)) ∧
    (scsi_send_cdb io sent my_cmd).1.data.length = my_cmd.data.length := by
  have hl : ∀ a b : List Nat, (overwrite a b).length = a.length := by
    intro a b
    unfold overwrite
    rw [List.length_take, List.length_append, List.length_drop]
    omega
  unfold scsi_send_cdb
  simp only []
  split_ifs
  · exact ⟨Or.inl rfl, hl _ _⟩
  · exact ⟨Or.inr ⟨rfl, rfl⟩, hl _ _⟩

/-- The common tail of the commands, in terms of the transport's reply: one command is
sent, the data buffer is the one the transport leaves, and the return code is the
translation of the sense bytes when any were transferred and the transport's own
return code otherwise. -/
theorem send_command_eq (verbose : Bool) (io : sg_ioctl) (device : sim_device_profile)
    (my_cmd : scsi_cmd) (sent : List scsi_cmd) :
    send_command verbose io device my_cmd sent =
      if (scsi_send_cdb io sent my_cmd).1.sense_xfered ≠ 0 then
        (reply_sense verbose device (scsi_send_cdb io sent my_cmd).1).map fun ret =>
          command_result.mk ret (some (scsi_send_cdb io sent my_cmd).1.data)
            (sent ++ [my_cmd])
      else some (command_result.mk (scsi_send_cdb io sent my_cmd).1.ret
        (some (scsi_send_cdb io sent my_cmd).1.data) (sent ++ [my_cmd])) := by
  have hs := scsi_send_cdb_sent io sent my_cmd
  unfold send_command
  generalize scsi_send_cdb io sent my_cmd = p at hs ⊢
  obtain ⟨reply, s⟩ := p
  simp only [] at hs ⊢
  subst hs
  rfl

/-- Whatever the common tail returns, it has sent exactly the command it was given. -/
theorem send_command_sent (verbose : Bool) (io : sg_ioctl) (device : sim_device_profile)
    (my_cmd : scsi_cmd) (sent : List scsi_cmd) (r : command_result)
    (h : send_command verbose io device my_cmd sent = some r) :
    r.sent = sent ++ [my_cmd] := by
  rw [send_command_eq] at h
  by_cases hx : (scsi_send_cdb io sent my_cmd).1.sense_xfered ≠ 0
  · rw [if_pos hx] at h
    cases hr : reply_sense verbose device (scsi_send_cdb io sent my_cmd).1 with
    | none => rw [hr] at h; exact Option.noConfusion h
    | some v =>
      rw [hr] at h
      exact (congrArg command_result.sent (Option.some.inj h)).symm
  · rw [if_neg hx] at h
    exact (congrArg command_result.sent (Option.some.inj h)).symm

/-- The values of the inner switches on SW2. -/
theorem sw2_range (ascq : Nat) :
    (sw2_0x90 ascq = 0 ∨ (-39 ≤ sw2_0x90 ascq ∧ sw2_0x90 ascq ≤ -20)) ∧
    (sw2_0x92 ascq = 0 ∨ (-39 ≤ sw2_0x92 ascq ∧ sw2_0x92 ascq ≤ -20)) ∧
    (sw2_0x94 ascq = 0 ∨ (-39 ≤ sw2_0x94 ascq ∧ sw2_0x94 ascq ≤ -20)) ∧
    (sw2_0x98 ascq = 0 ∨ (-39 ≤ sw2_0x98 ascq ∧ sw2_0x98 ascq ≤ -20)) := by
  refine ⟨?_, ?_, ?_, ?_⟩
  · unfold sw2_0x90
    split_ifs <;> decide
  · unfold sw2_0x92
    split_ifs <;> decide
  · unfold sw2_0x94
    split_ifs <;> decide
  · unfold sw2_0x98
    split_ifs <;> decide

/-- The values of the sense translator: a byte count, one of the two sense errors, or a
GSM error code; never the invalid-PIN code or the send error. -/
theorem sim_process_scsi_sense_range (verbose : Bool) (device : sim_device)
    (sense : List Nat) (v : Int)
    (h : sim_process_scsi_sense verbose device sense = some v) :
    0 ≤ v ∨ v = SCSISIM_SCSI_NO_SENSE_DATA ∨ v = SCSISIM_SCSI_UNKNOWN_SENSE_DATA ∨
      (-39 ≤ v ∧ v ≤ -20) := by
  by_cases hlen : sense.length < device.sense_ascq_offset + 1
  · unfold sim_process_scsi_sense at h
    rw [if_pos hlen] at h
    exact Or.inr (Or.inl (Option.some.inj h).symm)
  · have hascq := getElem?_eq_some_getD sense device.sense_ascq_offset (by omega)
    cases hty : sense[device.sense_type_offset]? with
    | none =>
      unfold sim_process_scsi_sense at h
      rw [if_neg hlen, hty] at h
      exact Option.noConfusion h
    | some ty =>
      by_cases h70 : ty ≠ 0x70
      · unfold sim_process_scsi_sense at h
        rw [if_neg hlen, hty] at h
        simp only [] at h
        rw [if_pos h70] at h
        exact Or.inr (Or.inr (Or.inl (Option.some.inj h).symm))
      · have h70' : ty = 0x70 := by omega
        rw [h70'] at hty
        cases hasc : sense[device.sense_asc_offset]? with
        | none =>
          unfold sim_process_scsi_sense at h
          rw [if_neg hlen, hty] at h
          simp only [] at h
          rw [if_neg (by decide), hasc] at h
          exact Option.noConfusion h
        | some asc =>
          rw [sim_process_scsi_sense_dispatch verbose device sense asc _ hty hasc hascq] at h
          obtain ⟨s90, s92, s94, s98⟩ := sw2_range (sense.getD device.sense_ascq_offset 0)
          by_cases c0 : asc = 0x67
          · rw [if_pos c0] at h
            cases Option.some.inj h
            exact Or.inr (Or.inr (Or.inr (by decide)))
          rw [if_neg c0] at h
          by_cases c1 : asc = 0x6b
          · rw [if_pos c1] at h
            cases Option.some.inj h
            exact Or.inr (Or.inr (Or.inr (by decide)))
          rw [if_neg c1] at h
          by_cases c2 : asc = 0x6d
          · rw [if_pos c2] at h
            cases Option.some.inj h
            exact Or.inr (Or.inr (Or.inr (by decide)))
          rw [if_neg c2] at h
          by_cases c3 : asc = 0x6e
          · rw [if_pos c3] at h
            cases Option.some.inj h
            exact Or.inr (Or.inr (Or.inr (by decide)))
          rw [if_neg c3] at h
          by_cases c4 : asc = 0x6f
          · rw [if_pos c4] at h
            cases Option.some.inj h
            exact Or.inr (Or.inr (Or.inr (by decide)))
          rw [if_neg c4] at h
          by_cases c5 : asc = 0x90
          · rw [if_pos c5] at h
            cases Option.some.inj h
            rcases s90 with e | e
            · exact Or.inl (by rw [e])
            · exact Or.inr (Or.inr (Or.inr e))
          rw [if_neg c5] at h
          by_cases c6 : asc = 0x92
          · rw [if_pos c6] at h
            cases Option.some.inj h
            rcases s92 with e | e
            · exact Or.inl (by rw [e])
            · exact Or.inr (Or.inr (Or.inr e))
          rw [if_neg c6] at h
          by_cases c7 : asc = 0x93
          · rw [if_pos c7] at h
            cases Option.some.inj h
            exact Or.inr (Or.inr (Or.inr (by decide)))
          rw [if_neg c7] at h
          by_cases c8 : asc = 0x94
          · rw [if_pos c8] at h
            cases Option.some.inj h
            rcases s94 with e | e
            · exact Or.inl (by rw [e])
            · exact Or.inr (Or.inr (Or.inr e))
          rw [if_neg c8] at h
          by_cases c9 : asc = 0x98
          · rw [if_pos c9] at h
            cases Option.some.inj h
            rcases s98 with e | e
            · exact Or.inl (by rw [e])
            · exact Or.inr (Or.inr (Or.inr e))
          rw [if_neg c9] at h
          by_cases c10 : asc = 0x91 ∨ asc = 0x9e ∨ asc = 0x9f
          · rw [if_pos c10] at h
            cases Option.some.inj h
            exact Or.inl (Int.ofNat_nonneg _)
          rw [if_neg c10] at h
          cases Option.some.inj h
          exact Or.inr (Or.inr (Or.inr (by decide)))

/-- The return code of the common tail is the transport's (Success or the send error)
or a value of the sense translator. -/
theorem send_command_ret (verbose : Bool) (io : sg_ioctl) (device : sim_device_profile)
    (my_cmd : scsi_cmd) (sent : List scsi_cmd) (r : command_result)
    (h : send_command verbose io device my_cmd sent = some r) :
    0 ≤ r.ret ∨ r.ret = SCSISIM_SCSI_SEND_ERROR ∨ r.ret = SCSISIM_SCSI_NO_SENSE_DATA ∨
      r.ret = SCSISIM_SCSI_UNKNOWN_SENSE_DATA ∨ (-39 ≤ r.ret ∧ r.ret ≤ -20) := by
  rw [send_command_eq] at h
  by_cases hx : (scsi_send_cdb io sent my_cmd).1.sense_xfered ≠ 0
  · rw [if_pos hx] at h
    cases hr : reply_sense verbose device (scsi_send_cdb io sent my_cmd).1 with
    | none => rw [hr] at h; exact Option.noConfusion h
    | some v =>
      rw [hr] at h
      have hv : r.ret = v := (congrArg command_result.ret (Option.some.inj h)).symm
      unfold reply_sense at hr
      by_cases hle : (scsi_send_cdb io sent my_cmd).1.sense_xfered ≤
          (scsi_send_cdb io sent my_cmd).1.sense.length
      · rw [if_pos hle] at hr
        rcases sim_process_scsi_sense_range _ _ _ _ hr with e | e | e | e
        · exact Or.inl (hv ▸ e)
        · exact Or.inr (Or.inr (Or.inl (hv ▸ e)))
        · exact Or.inr (Or.inr (Or.inr (Or.inl (hv ▸ e))))
        · exact Or.inr (Or.inr (Or.inr (Or.inr (hv ▸ e))))
      · rw [if_neg hle] at hr
        exact Option.noConfusion hr
  · rw [if_neg hx] at h
    have hv : r.ret = (scsi_send_cdb io sent my_cmd).1.ret :=
      (congrArg command_result.ret (Option.some.inj h)).symm
    rcases (scsi_send_cdb_ret io sent my_cmd).1 with e | ⟨e, -⟩
    · exact Or.inl (by rw [hv, e])
    · exact Or.inr (Or.inl (hv.trans e))

/-- `is_digit_string` accepts exactly the strings of characters `'0'` to `'9'`. -/
theorem is_digit_loop_iff (s : List Nat) :
    is_digit_loop s = true ↔ ∀ c ∈ s, 0x30 ≤ c ∧ c ≤ 0x39 := by
  induction s with
  | nil => simp [is_digit_loop]
  | cons a l ih =>
    unfold is_digit_loop
    by_cases ha : 0x30 ≤ a ∧ a ≤ 0x39
    · have hd : isdigit a = true := by
        unfold isdigit
        exact decide_eq_true ha
      rw [hd]
      simp only [Bool.true_eq_false, if_false]
      rw [ih]
      constructor
      · intro h c hc
        rcases List.mem_cons.mp hc with e | e
        · rw [e]; exact ha
        · exact h c e
      · intro h c hc
        exact h c (List.mem_cons_of_mem _ hc)
    · have hd : isdigit a = false := by
        unfold isdigit
        exact decide_eq_false ha
      rw [hd]
      simp only [if_true]
      constructor
      · intro h
        exact absurd h (by decide)
      · intro h
        exact absurd (h a (List.mem_cons_self _ _)) ha

/-- The eight data bytes of VERIFY CHV: the PIN followed by `0xff` bytes. -/
theorem verify_chv_data (pin : List Nat) (hk : pin.length ≤ 8) :
    overwrite (List.replicate GSM_CMD_VERIFY_CHV_DATA_LEN 0xff) pin
      = pin ++ List.replicate (8 - pin.length) 0xff := by
  unfold overwrite
  simp only [GSM_CMD_VERIFY_CHV_DATA_LEN]
  rw [List.drop_replicate, List.length_replicate]
  apply List.take_of_length_le
  rw [List.length_append, List.length_replicate]
  omega

/-- C25: `scsisim_read_record` and `scsisim_update_record` return
`SCSISIM_INVALID_PARAM` for record number 0, whatever the buffer, and for a buffer of
length 0, whatever the record number; no command is sent and the buffer is returned
as it was. -/
theorem C25_record_zero_or_empty (verbose : Bool) (io : sg_ioctl)
    (device : sim_device_profile) (recno : Nat) (data : Option (List Nat))
    (sent : List scsi_cmd) :
    scsisim_read_record verbose io device 0 data sent =
      some { ret := SCSISIM_INVALID_PARAM, data := data, sent := sent } ∧
    scsisim_read_record verbose io device recno (some []) sent =
      some { ret := SCSISIM_INVALID_PARAM, data := some [], sent := sent } ∧
    scsisim_update_record verbose io device 0 data sent =
      some { ret := SCSISIM_INVALID_PARAM, data := data, sent := sent } ∧
    scsisim_update_record verbose io device recno (some []) sent =
      some { ret := SCSISIM_INVALID_PARAM, data := some [], sent := sent } := by
  refine ⟨?_, ?_, ?_, ?_⟩
  · unfold scsisim_read_record
    cases data with
    | none => rfl
    | some buf =>
      simp only []
      rw [if_pos (Or.inl trivial)]
  · unfold scsisim_read_record
    simp only []
    rw [if_pos (Or.inr (by simp))]
  · unfold scsisim_update_record
    cases data with
    | none => rfl
    | some buf =>
      simp only []
      rw [if_pos (Or.inl trivial)]
  · unfold scsisim_update_record
    simp only []
    rw [if_pos (Or.inr (by simp))]

/-- C23 (counterexample): the all-digit PIN "1234" has four characters, at most 8; the
command is sent, the card answers with the status word `0x67 00`, and the call returns
`SCSISIM_GSM_ERROR_PARAM_3`. -/
theorem C23_short_pin_param_3 :
    is_digit_string (some [0x31, 0x32, 0x33, 0x34]) = true ∧
    ([0x31, 0x32, 0x33, 0x34] : List Nat).length ≤ 8 ∧
    scsisim_verify_chv false (example_ioctl_status 0x67 0) example_device_full 1
        (some [0x31, 0x32, 0x33, 0x34]) [] =
      some (SCSISIM_GSM_ERROR_PARAM_3,
        [scsi_cmd.mk SIM_WRITE [0xde, 0x20, 0, 1, 8, 0]
          [0x31, 0x32, 0x33, 0x34, 0xff, 0xff, 0xff, 0xff] 18]) :=
  ⟨rfl, by decide, rfl⟩

/-- C23 (amended): for a present PIN, `scsisim_verify_chv` returns
`SCSISIM_INVALID_PIN` exactly when the PIN contains a character outside `'0'..'9'`,
whatever its length, and then no command is sent; for an all-digit PIN it returns
`SCSISIM_GSM_ERROR_PARAM_3` without sending a command exactly when the PIN is longer
than 8 characters. -/
theorem C23_verify_chv_rejections (verbose : Bool) (io : sg_ioctl)
    (device : sim_device_profile) (chv : Nat) (pin : List Nat) (sent : List scsi_cmd) :
    ((scsisim_verify_chv verbose io device chv (some pin) sent).map Prod.fst
        = some SCSISIM_INVALID_PIN ↔ ∃ c ∈ pin, c < 0x30 ∨ 0x39 < c) ∧
    ((∃ c ∈ pin, c < 0x30 ∨ 0x39 < c) →
      scsisim_verify_chv verbose io device chv (some pin) sent
        = some (SCSISIM_INVALID_PIN, sent)) ∧
    ((∀ c ∈ pin, 0x30 ≤ c ∧ c ≤ 0x39) →
      (scsisim_verify_chv verbose io device chv (some pin) sent
        = some (SCSISIM_GSM_ERROR_PARAM_3, sent) ↔ 8 < pin.length)) := by
  have hbad : (∃ c ∈ pin, c < 0x30 ∨ 0x39 < c) →
      scsisim_verify_chv verbose io device chv (some pin) sent
        = some (SCSISIM_INVALID_PIN, sent) := by
    rintro ⟨c, hc, hout⟩
    have hd : is_digit_string (some pin) = false := by
      cases hv : is_digit_string (some pin) with
      | false => rfl
      | true =>
        have := (is_digit_loop_iff pin).mp hv c hc
        omega
    unfold scsisim_verify_chv
    simp only []
    rw [if_pos hd]
  have hgood : (∀ c ∈ pin, 0x30 ≤ c ∧ c ≤ 0x39) →
      (8 < pin.length → scsisim_verify_chv verbose io device chv (some pin) sent
        = some (SCSISIM_GSM_ERROR_PARAM_3, sent)) ∧
      (pin.length ≤ 8 → ∀ p, scsisim_verify_chv verbose io device chv (some pin) sent
        = some p → p.1 ≠ SCSISIM_INVALID_PIN ∧ p.2 ≠ sent) := by
    intro hall
    have hd : ¬ is_digit_string (some pin) = false := by
      have : is_digit_string (some pin) = true := (is_digit_loop_iff pin).mpr hall
      rw [this]
      decide
    constructor
    · intro hlen
      unfold scsisim_verify_chv
      simp only []
      rw [if_neg hd, if_pos hlen]
    · intro hlen p hp
      unfold scsisim_verify_chv at hp
      simp only [] at hp
      rw [if_neg hd, if_neg (by simp only [GSM_CMD_VERIFY_CHV_DATA_LEN]; omega)] at hp
      cases hcdb : verify_chv_cdb device chv with
      | none => rw [hcdb] at hp; exact Option.noConfusion hp
      | some cdb =>
        rw [hcdb] at hp
        simp only [] at hp
        cases hsend : send_command verbose io device
            (scsi_cmd.mk SIM_WRITE cdb
              (overwrite (List.replicate GSM_CMD_VERIFY_CHV_DATA_LEN 0xff) pin)
              device.sense_len) sent with
        | none => rw [hsend] at hp; exact Option.noConfusion hp
        | some r =>
          rw [hsend] at hp
          cases Option.some.inj hp
          have hs := send_command_sent _ _ _ _ _ _ hsend
          have hr := send_command_ret _ _ _ _ _ _ hsend
          constructor
          · intro e
            simp only [] at e
            rw [e] at hr
            revert hr
            decide
          · intro e
            simp only [] at e
            rw [hs] at e
            have := congrArg List.length e
            rw [List.length_append] at this
            simp at this
  refine ⟨⟨?_, fun h => by rw [hbad h]; rfl⟩, hbad, ?_⟩
  · intro h
    by_contra hno
    have hall : ∀ c ∈ pin, 0x30 ≤ c ∧ c ≤ 0x39 := by
      intro c hc
      by_contra hc'
      exact hno ⟨c, hc, by omega⟩
    obtain ⟨h1, h2⟩ := hgood hall
    by_cases hlen : 8 < pin.length
    · rw [h1 hlen] at h
      have h' : SCSISIM_GSM_ERROR_PARAM_3 = SCSISIM_INVALID_PIN := Option.some.inj h
      exact absurd h' (by decide)
    · cases hv : scsisim_verify_chv verbose io device chv (some pin) sent with
      | none => rw [hv] at h; exact Option.noConfusion h
      | some p =>
        rw [hv] at h
        exact (h2 (by omega) p hv).1 (Option.some.inj h)
  · intro hall
    obtain ⟨h1, h2⟩ := hgood hall
    constructor
    · intro h
      by_contra hlen
      exact (h2 (by omega) _ h).2 rfl
    · exact h1

set_option maxRecDepth 100000 in
/-- C23 (witness): "12a4" is rejected as an invalid PIN, and the nine digits
"123456789" as a wrong parameter 3, both without a command. -/
theorem C23_verify_chv_rejections_witness :
    scsisim_verify_chv false (example_ioctl_status 0x90 0) example_device_full 1
      (some [0x31, 0x32, 0x61, 0x34]) [] = some (SCSISIM_INVALID_PIN, []) ∧
    scsisim_verify_chv false (example_ioctl_status 0x90 0) example_device_full 1
      (some [0x31, 0x32, 0x33, 0x34, 0x35, 0x36, 0x37, 0x38, 0x39]) []
        = some (SCSISIM_GSM_ERROR_PARAM_3, []) :=
  ⟨(C23_verify_chv_rejections false (example_ioctl_status 0x90 0) example_device_full 1
      [0x31, 0x32, 0x61, 0x34] []).2.1 ⟨0x61, by decide, by decide⟩,
   ((C23_verify_chv_rejections false (example_ioctl_status 0x90 0) example_device_full 1
      [0x31, 0x32, 0x33, 0x34, 0x35, 0x36, 0x37, 0x38, 0x39] []).2.2 (by decide)).mpr
      (by decide)⟩

/-- A store into the CDB inside its bounds: the length is kept, the stored byte is
read back, and every other byte is as before. -/
theorem cdb_set_some (cdb : List Nat) (off v : Nat) (h : off < cdb.length) :
    cdb_set cdb off v = some (cdb.set off v) ∧ (cdb.set off v).length = cdb.length ∧
    (cdb.set off v)[off]? = some v ∧ ∀ i, i ≠ off → (cdb.set off v)[i]? = cdb[i]? := by
  refine ⟨?_, List.length_set _ _ _, ?_, ?_⟩
  · unfold cdb_set
    rw [if_pos h]
  · rw [List.getElem?_set_self h]
  · intro i hi
    rw [List.getElem?_set_ne (Ne.symm hi)]

/-- C24: for every all-digit PIN of `k ≤ 8` characters (the empty PIN included) and a
CHV offset inside the CDB, `scsisim_verify_chv` is the common send-and-translate tail
on one write command, and whatever it returns, that command is the one sent.  Its
data block has exactly 8 bytes: byte `i` is the character `i` of the PIN for `i < k`
and `0xff` for `k ≤ i < 8`.  Its CDB is the VERIFY CHV template with the byte at
`verify_chv_chvnum_offset` replaced by the CHV index and every other byte unchanged. -/
theorem C24_verify_chv_command (verbose : Bool) (io : sg_ioctl)
    (device : sim_device_profile) (chv : Nat) (pin : List Nat) (sent : List scsi_cmd)
    (hd : ∀ c ∈ pin, 0x30 ≤ c ∧ c ≤ 0x39) (hk : pin.length ≤ 8)
    (hoff : device.verify_chv_chvnum_offset <
      (device.CDB_verify_chv.take device.cdb_len).length) :
    scsisim_verify_chv verbose io device chv (some pin) sent =
      (send_command verbose io device
        (scsi_cmd.mk SIM_WRITE
          ((device.CDB_verify_chv.take device.cdb_len).set device.verify_chv_chvnum_offset chv)
          (pin ++ List.replicate (8 - pin.length) 0xff) device.sense_len) sent).map
        (fun r => (r.ret, r.sent)) ∧
    (∀ p, scsisim_verify_chv verbose io device chv (some pin) sent = some p →
      p.2 = sent ++ [scsi_cmd.mk SIM_WRITE
        ((device.CDB_verify_chv.take device.cdb_len).set device.verify_chv_chvnum_offset chv)
        (pin ++ List.replicate (8 - pin.length) 0xff) device.sense_len]) ∧
    (pin ++ List.replicate (8 - pin.length) 0xff).length = 8 ∧
    (∀ i, i < pin.length → (pin ++ List.replicate (8 - pin.length) 0xff)[i]? = pin[i]?) ∧
    (∀ i, pin.length ≤ i → i < 8 →
      (pin ++ List.replicate (8 - pin.length) 0xff)[i]? = some 0xff) ∧
    ((device.CDB_verify_chv.take device.cdb_len).set device.verify_chv_chvnum_offset chv).length
      = (device.CDB_verify_chv.take device.cdb_len).length ∧
    ((device.CDB_verify_chv.take device.cdb_len).set device.verify_chv_chvnum_offset chv)[
        device.verify_chv_chvnum_offset]? = some chv ∧
    ∀ i, i ≠ device.verify_chv_chvnum_offset →
      ((device.CDB_verify_chv.take device.cdb_len).set device.verify_chv_chvnum_offset chv)[i]?
        = (device.CDB_verify_chv.take device.cdb_len)[i]? := by
  obtain ⟨c1, c2, c3, c4⟩ := cdb_set_some (device.CDB_verify_chv.take device.cdb_len)
    device.verify_chv_chvnum_offset chv hoff
  have hdig : ¬ is_digit_string (some pin) = false := by
    have : is_digit_string (some pin) = true := (is_digit_loop_iff pin).mpr hd
    rw [this]
    decide
  have heq : scsisim_verify_chv verbose io device chv (some pin) sent =
      (send_command verbose io device
        (scsi_cmd.mk SIM_WRITE
          ((device.CDB_verify_chv.take device.cdb_len).set
            device.verify_chv_chvnum_offset chv)
          (pin ++ List.replicate (8 - pin.length) 0xff) device.sense_len) sent).map
        (fun r => (r.ret, r.sent)) := by
    unfold scsisim_verify_chv
    simp only []
    rw [if_neg hdig, if_neg (by simp only [GSM_CMD_VERIFY_CHV_DATA_LEN]; omega)]
    unfold verify_chv_cdb
    rw [c1]
    simp only []
    rw [verify_chv_data pin hk]
  refine ⟨heq, ?_, ?_, ?_, ?_, c2, c3, c4⟩
  · intro p hp
    rw [heq] at hp
    cases hsend : send_command verbose io device
        (scsi_cmd.mk SIM_WRITE
          ((device.CDB_verify_chv.take device.cdb_len).set
            device.verify_chv_chvnum_offset chv)
          (pin ++ List.replicate (8 - pin.length) 0xff) device.sense_len) sent with
    | none => rw [hsend] at hp; exact Option.noConfusion hp
    | some r =>
      rw [hsend] at hp
      cases Option.some.inj hp
      exact send_command_sent _ _ _ _ _ _ hsend
  · rw [List.length_append, List.length_replicate]
    omega
  · intro i hi
    rw [List.getElem?_append_left hi]
  · intro i h1 h2
    rw [List.getElem?_append_right h1, List.getElem?_replicate]
    rw [if_pos (by omega)]

set_option maxRecDepth 100000 in
/-- C24 (witness): the PIN "1234" for CHV 1 on the example device: the command sent
has the CDB `de 20 00 01 08 00` and the data `31 32 33 34 ff ff ff ff`; the empty PIN
sends eight bytes of `0xff`. -/
theorem C24_verify_chv_command_witness :
    (∃ p, scsisim_verify_chv false (example_ioctl_status 0x90 0) example_device_full 1
        (some [0x31, 0x32, 0x33, 0x34]) [] = some p ∧
      p.2 = [scsi_cmd.mk SIM_WRITE [0xde, 0x20, 0, 1, 8, 0]
        [0x31, 0x32, 0x33, 0x34, 0xff, 0xff, 0xff, 0xff] 18]) ∧
    scsisim_verify_chv false (example_ioctl_status 0x90 0) example_device_full 1
        (some []) [] =
      some (SCSISIM_SUCCESS, [scsi_cmd.mk SIM_WRITE [0xde, 0x20, 0, 1, 8, 0]
        [0xff, 0xff, 0xff, 0xff, 0xff, 0xff, 0xff, 0xff] 18]) := by
  refine ⟨?_, rfl⟩
  have hsome : (scsisim_verify_chv false (example_ioctl_status 0x90 0) example_device_full 1
      (some [0x31, 0x32, 0x33, 0x34]) []).isSome = true := rfl
  obtain ⟨p, hp⟩ := Option.isSome_iff_exists.mp hsome
  exact ⟨p, hp, (C24_verify_chv_command false (example_ioctl_status 0x90 0)
    example_device_full 1 [0x31, 0x32, 0x33, 0x34] [] (by decide) (by decide)
    (by decide)).2.1 p hp⟩

/-- The response parser never reads outside a present buffer. -/
theorem gsm_parse_response_total (r : List Nat) (resp : GSM_response) :
    ∃ q, gsm_parse_response (some r) resp = some q := by
  rw [gsm_parse_response_some]
  by_cases h1 : resp.command = SELECT_EF
  · rw [if_pos h1]
    by_cases hl : r.length < 15
    · rw [if_pos hl]
      exact ⟨_, rfl⟩
    · rw [if_neg hl, parse_select_ef_eq r (by omega)]
      exact ⟨_, rfl⟩
  · rw [if_neg h1]
    by_cases h2 : resp.command = SELECT_MF_DF
    · rw [if_pos h2]
      by_cases hl : r.length < 22
      · rw [if_pos hl]
        exact ⟨_, rfl⟩
      · rw [if_neg hl, parse_select_mf_df_eq r (by omega)]
        exact ⟨_, rfl⟩
    · rw [if_neg h2]
      exact ⟨_, rfl⟩

/-- The function `scsisim_get_response` on valid parameters, in terms of the reply of
the transport to the one command it sends. -/
theorem scsisim_get_response_eq (verbose : Bool) (io : sg_ioctl)
    (device : sim_device_profile) (buf : List Nat) (command : Int) (rsp : GSM_response)
    (sent : List scsi_cmd) (my_cmd : scsi_cmd) (reply : scsi_reply) (hbuf : 1 ≤ buf.length)
    (hoff : device.get_response_len_offset <
      (device.CDB_get_response.take device.cdb_len).length)
    (hcmd : my_cmd = scsi_cmd.mk SIM_READ
      ((device.CDB_get_response.take device.cdb_len).set device.get_response_len_offset
        buf.length) buf device.sense_len)
    (hreply : reply = (scsi_send_cdb io sent my_cmd).1) :
    scsisim_get_response verbose io device (some buf) command (some rsp) sent =
      if reply.ret = SCSISIM_SUCCESS then
        match gsm_parse_response (some reply.data) (GSM_response.mk command rsp.type) with
        | none => none
        | some (ret, rsp1) =>
          if reply.sense_xfered ≠ 0 then
            (reply_sense verbose device reply).map fun ret =>
              engine_result.mk ret (some reply.data) (some rsp1) (sent ++ [my_cmd])
          else some (engine_result.mk ret (some reply.data) (some rsp1) (sent ++ [my_cmd]))
      else some (engine_result.mk reply.ret (some reply.data)
        (some (GSM_response.mk command rsp.type)) (sent ++ [my_cmd])) := by
  have hs := scsi_send_cdb_sent io sent my_cmd
  unfold scsisim_get_response
  simp only []
  rw [if_neg (by omega)]
  unfold cdb_set
  rw [if_pos hoff]
  simp only []
  rw [← hcmd]
  generalize scsi_send_cdb io sent my_cmd = p at hs hreply ⊢
  obtain ⟨reply', s⟩ := p
  simp only [] at hs hreply ⊢
  subst hs
  subst hreply
  rfl

/-- C21: `scsisim_get_response` on valid parameters (a present buffer of at least one
byte, a present response structure, the length offset inside the CDB), with `reply`
the transport's reply to the command sent.  If the transport fails, its error (the
send error) is returned and the response structure only carries the caller's command
tag: the parser has not run.  If the transport succeeds, the parser runs on the data
buffer with the caller's command tag; the return code is then the sense translation
whenever sense bytes were transferred, whatever the parser returned, and the parser's
own result only when no sense bytes were transferred. -/
theorem C21_get_response_return_code (verbose : Bool) (io : sg_ioctl)
    (device : sim_device_profile) (buf : List Nat) (command : Int) (rsp : GSM_response)
    (sent : List scsi_cmd) (my_cmd : scsi_cmd) (reply : scsi_reply) (hbuf : 1 ≤ buf.length)
    (hoff : device.get_response_len_offset <
      (device.CDB_get_response.take device.cdb_len).length)
    (hcmd : my_cmd = scsi_cmd.mk SIM_READ
      ((device.CDB_get_response.take device.cdb_len).set device.get_response_len_offset
        buf.length) buf device.sense_len)
    (hreply : reply = (scsi_send_cdb io sent my_cmd).1) :
    (reply.ret ≠ SCSISIM_SUCCESS →
      reply.ret = SCSISIM_SCSI_SEND_ERROR ∧
      scsisim_get_response verbose io device (some buf) command (some rsp) sent =
        some (engine_result.mk reply.ret (some reply.data)
          (some (GSM_response.mk command rsp.type)) (sent ++ [my_cmd]))) ∧
    (reply.ret = SCSISIM_SUCCESS →
      ∃ pret rsp1,
        gsm_parse_response (some reply.data) (GSM_response.mk command rsp.type)
          = some (pret, rsp1) ∧
        (reply.sense_xfered = 0 →
          scsisim_get_response verbose io device (some buf) command (some rsp) sent =
            some (engine_result.mk pret (some reply.data) (some rsp1)
              (sent ++ [my_cmd]))) ∧
        (reply.sense_xfered ≠ 0 →
          scsisim_get_response verbose io device (some buf) command (some rsp) sent =
            (reply_sense verbose device reply).map fun ret =>
              engine_result.mk ret (some reply.data) (some rsp1) (sent ++ [my_cmd]))) := by
  have heq := scsisim_get_response_eq verbose io device buf command rsp sent my_cmd reply
    hbuf hoff hcmd hreply
  constructor
  · intro hf
    rw [heq, if_neg hf]
    refine ⟨?_, rfl⟩
    rcases (scsi_send_cdb_ret io sent my_cmd).1 with e | ⟨e, -⟩
    · exact absurd (hreply ▸ e) hf
    · exact hreply ▸ e
  · intro hok
    obtain ⟨⟨pret, rsp1⟩, hq⟩ := gsm_parse_response_total reply.data
      (GSM_response.mk command rsp.type)
    refine ⟨pret, rsp1, hq, ?_, ?_⟩
    · intro h0
      rw [heq, if_pos hok, hq]
      simp only []
      rw [if_neg (by rw [h0]; decide)]
    · intro h1
      rw [heq, if_pos hok, hq]
      simp only []
      rw [if_pos h1]

set_option maxRecDepth 100000 in
/-- C21 (witness): on the example device with a one-byte buffer and the tag
`SELECT_EF`: when the ioctl fails the send error comes back and the response structure
keeps its old contents under the new tag; when the card answers `0x9f 0f` the parser
rejects the one-byte response, yet the call returns the sense translation 15. -/
theorem C21_get_response_return_code_witness :
    scsisim_get_response false example_ioctl_failing example_device (some [0xaa])
        SELECT_EF (some (GSM_response.mk 0 (GSM_type.ef (GSM_EF.mk 1 2 3 4 5 6)))) [] =
      some (engine_result.mk SCSISIM_SCSI_SEND_ERROR (some [0xaa])
        (some (GSM_response.mk SELECT_EF (GSM_type.ef (GSM_EF.mk 1 2 3 4 5 6))))
        [scsi_cmd.mk SIM_READ [0xdf, 0xc0, 0, 0, 1, 0] [0xaa] 18]) ∧
    (∃ rsp1,
      gsm_parse_response (some [0xaa])
          (GSM_response.mk SELECT_EF (GSM_type.ef (GSM_EF.mk 1 2 3 4 5 6)))
        = some (SCSISIM_INVALID_GSM_RESPONSE, rsp1) ∧
      scsisim_get_response false (example_ioctl_status 0x9f 0x0f) example_device
          (some [0xaa]) SELECT_EF
          (some (GSM_response.mk 0 (GSM_type.ef (GSM_EF.mk 1 2 3 4 5 6)))) [] =
        some (engine_result.mk 15 (some [0xaa]) (some rsp1)
          [scsi_cmd.mk SIM_READ [0xdf, 0xc0, 0, 0, 1, 0] [0xaa] 18])) := by
  constructor
  · exact ((C21_get_response_return_code false example_ioctl_failing example_device [0xaa]
      SELECT_EF (GSM_response.mk 0 (GSM_type.ef (GSM_EF.mk 1 2 3 4 5 6))) [] _ _
      (by decide) (by decide) rfl rfl).1 (by decide)).2
  · obtain ⟨pret, rsp1, hq, -, h⟩ := (C21_get_response_return_code false
      (example_ioctl_status 0x9f 0x0f) example_device [0xaa]
      SELECT_EF (GSM_response.mk 0 (GSM_type.ef (GSM_EF.mk 1 2 3 4 5 6))) [] _ _
      (by decide) (by decide) rfl rfl).2 rfl
    have hq' : gsm_parse_response (some [0xaa])
        (GSM_response.mk SELECT_EF (GSM_type.ef (GSM_EF.mk 1 2 3 4 5 6)))
        = some (SCSISIM_INVALID_GSM_RESPONSE,
            GSM_response.mk SELECT_EF (GSM_type.ef (GSM_EF.mk 1 2 3 4 5 6))) := rfl
    have e := hq.symm.trans hq'
    cases Option.some.inj e
    exact ⟨_, hq', h (by decide)⟩

/-- The function `scsisim_select_file` in terms of the reply of the transport to the
one command it sends. -/
theorem scsisim_select_file_eq (verbose : Bool) (io : sg_ioctl)
    (device : sim_device_profile) (file : Nat) (sent : List scsi_cmd) (my_cmd : scsi_cmd)
    (reply : scsi_reply)
    (hcmd : my_cmd = scsi_cmd.mk SIM_WRITE (device.CDB_select_file.take device.cdb_len)
      [(file >>> 8) % 256, (file &&& 0xff) % 256] device.sense_len)
    (hreply : reply = (scsi_send_cdb io sent my_cmd).1) :
    scsisim_select_file verbose io device file sent =
      if reply.ret = SCSISIM_SUCCESS then
        if reply.sense_xfered ≠ 0 then
          (reply_sense verbose device reply).map fun ret => (ret, sent ++ [my_cmd])
        else some (SCSISIM_SCSI_NO_SENSE_DATA, sent ++ [my_cmd])
      else some (reply.ret, sent ++ [my_cmd]) := by
  have hs := scsi_send_cdb_sent io sent my_cmd
  unfold scsisim_select_file
  simp only []
  rw [← hcmd]
  generalize scsi_send_cdb io sent my_cmd = p at hs hreply ⊢
  obtain ⟨reply', s⟩ := p
  simp only [] at hs hreply ⊢
  subst hs
  subst hreply
  rfl

/-- When sense bytes were transferred, the return code of the common tail is their
translation. -/
theorem send_command_sense (verbose : Bool) (io : sg_ioctl) (device : sim_device_profile)
    (my_cmd : scsi_cmd) (sent : List scsi_cmd)
    (h : (scsi_send_cdb io sent my_cmd).1.sense_xfered ≠ 0) :
    (send_command verbose io device my_cmd sent).map command_result.ret =
      reply_sense verbose device (scsi_send_cdb io sent my_cmd).1 := by
  rw [send_command_eq, if_pos h]
  cases reply_sense verbose device (scsi_send_cdb io sent my_cmd).1 with
  | none => rfl
  | some v => rfl

/-- C22: for every command of the engine that reaches the transport, with `reply` the
transport's reply to the command sent: if the transport reports sense bytes
(`sense_xfered ≠ 0`), the command's return code is the sense translation of those
bytes.  SELECT and GET RESPONSE look at the sense bytes only after a successful
transport call, the other six commands after every call; the transport reports sense
bytes only together with Success, so the result is the same for all eight. -/
theorem C22_sense_overrides (verbose : Bool) (io : sg_ioctl) (device : sim_device_profile)
    (sent : List scsi_cmd) (file : Nat) (buf : List Nat) (command : Int)
    (rsp : GSM_response) (recno offset chv : Nat) (pin : List Nat)
    (direction gsm_cmd P1 P2 P3 : Nat) (raw_data : List Nat) (cdb : List Nat)
    (reply : scsi_reply) (hbuf : 1 ≤ buf.length) (hrec : recno ≠ 0)
    (hpin : ∀ c ∈ pin, 0x30 ≤ c ∧ c ≤ 0x39) (hk : pin.length ≤ 8)
    (hx : reply.sense_xfered ≠ 0) :
    (reply = (scsi_send_cdb io sent (scsi_cmd.mk SIM_WRITE
        (device.CDB_select_file.take device.cdb_len)
        [(file >>> 8) % 256, (file &&& 0xff) % 256] device.sense_len)).1 →
      (scsisim_select_file verbose io device file sent).map Prod.fst
        = reply_sense verbose device reply) ∧
    (cdb_set (device.CDB_get_response.take device.cdb_len)
        device.get_response_len_offset buf.length = some cdb →
      reply = (scsi_send_cdb io sent (scsi_cmd.mk SIM_READ cdb buf device.sense_len)).1 →
      (scsisim_get_response verbose io device (some buf) command (some rsp) sent).map
        engine_result.ret = reply_sense verbose device reply) ∧
    (read_record_cdb device recno buf.length = some cdb →
      reply = (scsi_send_cdb io sent (scsi_cmd.mk SIM_READ cdb buf device.sense_len)).1 →
      (scsisim_read_record verbose io device recno (some buf) sent).map
        command_result.ret = reply_sense verbose device reply) ∧
    (read_binary_cdb device offset buf.length = some cdb →
      reply = (scsi_send_cdb io sent (scsi_cmd.mk SIM_READ cdb buf device.sense_len)).1 →
      (scsisim_read_binary verbose io device (some buf) offset sent).map
        command_result.ret = reply_sense verbose device reply) ∧
    (update_record_cdb device recno buf.length = some cdb →
      reply = (scsi_send_cdb io sent (scsi_cmd.mk SIM_WRITE cdb buf device.sense_len)).1 →
      (scsisim_update_record verbose io device recno (some buf) sent).map
        command_result.ret = reply_sense verbose device reply) ∧
    (update_binary_cdb device offset buf.length = some cdb →
      reply = (scsi_send_cdb io sent (scsi_cmd.mk SIM_WRITE cdb buf device.sense_len)).1 →
      (scsisim_update_binary verbose io device (some buf) offset sent).map
        command_result.ret = reply_sense verbose device reply) ∧
    (verify_chv_cdb device chv = some cdb →
      reply = (scsi_send_cdb io sent (scsi_cmd.mk SIM_WRITE cdb
        (pin ++ List.replicate (8 - pin.length) 0xff) device.sense_len)).1 →
      (scsisim_verify_chv verbose io device chv (some pin) sent).map Prod.fst
        = reply_sense verbose device reply) ∧
    (raw_cmd_cdb device direction gsm_cmd P1 P2 P3 = some cdb →
      reply = (scsi_send_cdb io sent
        (scsi_cmd.mk direction cdb raw_data device.sense_len)).1 →
      (scsisim_send_raw_command verbose io device direction gsm_cmd P1 P2 P3 raw_data
        sent).map command_result.ret = reply_sense verbose device reply) := by
  have hok : ∀ c : scsi_cmd, reply = (scsi_send_cdb io sent c).1 →
      reply.ret = SCSISIM_SUCCESS := by
    intro c hr
    rcases (scsi_send_cdb_ret io sent c).1 with e | ⟨-, e⟩
    · exact hr ▸ e
    · exact absurd (hr ▸ e) hx
  have hlen0 : ¬ buf.length = 0 := by omega
  refine ⟨?_, ?_, ?_, ?_, ?_, ?_, ?_, ?_⟩
  · intro hr
    rw [scsisim_select_file_eq verbose io device file sent _ reply rfl hr,
      if_pos (hok _ hr), if_pos hx]
    cases reply_sense verbose device reply with
    | none => rfl
    | some v => rfl
  · intro hc hr
    unfold cdb_set at hc
    by_cases hoff : device.get_response_len_offset <
        (device.CDB_get_response.take device.cdb_len).length
    · rw [if_pos hoff] at hc
      cases Option.some.inj hc
      obtain ⟨⟨pret, rsp1⟩, hq⟩ := gsm_parse_response_total reply.data
        (GSM_response.mk command rsp.type)
      rw [scsisim_get_response_eq verbose io device buf command rsp sent _ reply hbuf hoff
        rfl hr, if_pos (hok _ hr), hq]
      simp only []
      rw [if_pos hx]
      cases reply_sense verbose device reply with
      | none => rfl
      | some v => rfl
    · rw [if_neg hoff] at hc
      exact Option.noConfusion hc
  · intro hc hr
    unfold scsisim_read_record
    simp only []
    rw [if_neg (by omega), hc]
    simp only []
    rw [hr]
    exact send_command_sense verbose io device _ sent (hr ▸ hx)
  · intro hc hr
    unfold scsisim_read_binary
    simp only []
    rw [if_neg hlen0, hc]
    simp only []
    rw [hr]
    exact send_command_sense verbose io device _ sent (hr ▸ hx)
  · intro hc hr
    unfold scsisim_update_record
    simp only []
    rw [if_neg (by omega), hc]
    simp only []
    rw [hr]
    exact send_command_sense verbose io device _ sent (hr ▸ hx)
  · intro hc hr
    unfold scsisim_update_binary
    simp only []
    rw [if_neg hlen0, hc]
    simp only []
    rw [hr]
    exact send_command_sense verbose io device _ sent (hr ▸ hx)
  · intro hc hr
    have hdig : ¬ is_digit_string (some pin) = false := by
      have : is_digit_string (some pin) = true := (is_digit_loop_iff pin).mpr hpin
      rw [this]
      decide
    unfold scsisim_verify_chv
    simp only []
    rw [if_neg hdig, if_neg (by simp only [GSM_CMD_VERIFY_CHV_DATA_LEN]; omega), hc]
    simp only []
    rw [verify_chv_data pin hk, Option.map_map, hr]
    exact send_command_sense verbose io device _ sent (hr ▸ hx)
  · intro hc hr
    unfold scsisim_send_raw_command
    rw [hc]
    simp only []
    rw [hr]
    exact send_command_sense verbose io device _ sent (hr ▸ hx)

set_option maxRecDepth 100000 in
/-- C22 (witness): READ RECORD on the example device, answered with the status word
`0x94 08`: the transport returns Success with 18 sense bytes, and the command returns
their translation, "file inconsistent with command". -/
theorem C22_sense_overrides_witness :
    (scsi_send_cdb (example_ioctl_status 0x94 8) []
      (scsi_cmd.mk SIM_READ [0xdf, 0xb2, 3, 4, 4, 0] [0, 0, 0, 0] 18)).1.sense_xfered = 18 ∧
    (scsisim_read_record false (example_ioctl_status 0x94 8) example_device_full 3
      (some [0, 0, 0, 0]) []).map command_result.ret
        = some SCSISIM_GSM_FILE_INCONSISTENT_WITH_COMMAND :=
  ⟨rfl, ((C22_sense_overrides false (example_ioctl_status 0x94 8) example_device_full []
    0 [0, 0, 0, 0] 0 (GSM_response.mk 0 (GSM_type.ef (GSM_EF.mk 0 0 0 0 0 0))) 3 0 0 []
    0 0 0 0 0 [] [0xdf, 0xb2, 3, 4, 4, 0]
    (scsi_send_cdb (example_ioctl_status 0x94 8) []
      (scsi_cmd.mk SIM_READ [0xdf, 0xb2, 3, 4, 4, 0] [0, 0, 0, 0] 18)).1
    (by decide) (by decide) (by decide) (by decide) (by decide)).2.2.1 rfl rfl).trans rfl⟩

/-! ## Theorems: GSM text -/

/-- Every byte the loop body writes is at most `0x7f` when the packed bytes are bytes:
the first byte is masked, and the eighth septet `packed[i] >> 1` has its high bit
clear. -/
theorem unpack_septets_body_le (packed : List Nat) (hb : ∀ b ∈ packed, b < 256) (i : Nat)
    (w : List Nat) (h : unpack_septets_body packed i = some w) : ∀ b ∈ w, b ≤ 0x7f := by
  unfold unpack_septets_body at h
  cases hp : packed[i]? with
  | none => rw [hp] at h; exact Option.noConfusion h
  | some p =>
    have hp256 : p < 256 := hb p (List.mem_iff_getElem?.mpr ⟨i, hp⟩)
    have hshift : (p >>> 1) % 256 ≤ 0x7f := by
      rw [Nat.shiftRight_eq_div_pow]
      omega
    rw [hp] at h
    simp only [] at h
    split at h
    · exact Option.noConfusion h
    · next tmp _ =>
      have hand : tmp &&& 0x7f ≤ 0x7f := Nat.and_le_right
      by_cases h6 : i % 7 = 6
      · rw [if_pos h6] at h
        cases Option.some.inj h
        intro b hmem
        rcases List.mem_cons.mp hmem with e | e
        · rw [e]; exact hand
        · rw [List.mem_singleton.mp e]; exact hshift
      · rw [if_neg h6] at h
        cases Option.some.inj h
        intro b hmem
        rw [List.mem_singleton.mp hmem]
        exact hand

/-- Every byte the unpacking loop writes is at most `0x7f`. -/
theorem unpack_septets_loop_le (packed : List Nat) (hb : ∀ b ∈ packed, b < 256) (n : Nat) :
    ∀ i out, unpack_septets_loop packed i n = some out → ∀ b ∈ out, b ≤ 0x7f := by
  induction n with
  | zero =>
    intro i out h b hmem
    unfold unpack_septets_loop at h
    cases Option.some.inj h
    exact absurd hmem (List.not_mem_nil b)
  | succ n ih =>
    intro i out h b hmem
    unfold unpack_septets_loop at h
    cases hw : unpack_septets_body packed i with
    | none => rw [hw] at h; exact Option.noConfusion h
    | some w =>
      rw [hw] at h
      simp only [] at h
      cases hr : unpack_septets_loop packed (i + 1) n with
      | none => rw [hr] at h; exact Option.noConfusion h
      | some rest =>
        rw [hr] at h
        cases Option.some.inj h
        rcases List.mem_append.mp hmem with e | e
        · exact unpack_septets_body_le packed hb i w hw b e
        · exact ih (i + 1) rest hr b e

/-- When `packed_len * 8` wraps, `scsisim_get_gsm_text` inherits the fault of the
unpacker. -/
theorem scsisim_get_gsm_text_wrap_fault (packed : List Nat) (num_septets : Nat)
    (hN : 1 ≤ num_septets) (hwrap : 2 ^ 32 ≤ 8 * packed.length) :
    scsisim_get_gsm_text (some packed) num_septets = map_outcome.fault := by
  unfold scsisim_get_gsm_text
  simp only []
  rw [if_neg (by omega), unpack_septets_wrap_fault num_septets packed hN hwrap]

/-- C26 (counterexample): for `P = 2 ^ 29 + 1` packed bytes and `N = 1` the length
computation wraps, the unpacker writes past its buffer, and the call is not
`scsisim_map_gsm_chars` applied to `min(1, floor(8 P / 7)) = 1` septet, which would be
a buffer. -/
theorem C26_get_gsm_text_wraps :
    (List.replicate (2 ^ 29 + 1) 0).length = 2 ^ 29 + 1 ∧
    scsisim_get_gsm_text (some (List.replicate (2 ^ 29 + 1) 0)) 1 = map_outcome.fault ∧
    ¬ ∃ s : List Nat, s.length = min 1 (8 * (2 ^ 29 + 1) / 7) ∧
      scsisim_get_gsm_text (some (List.replicate (2 ^ 29 + 1) 0)) 1
        = scsisim_map_gsm_chars (some s) := by
  have hf : scsisim_get_gsm_text (some (List.replicate (2 ^ 29 + 1) 0)) 1
      = map_outcome.fault :=
    scsisim_get_gsm_text_wrap_fault _ 1 (by omega) (by rw [List.length_replicate]; omega)
  refine ⟨List.length_replicate _ _, hf, ?_⟩
  rintro ⟨s, hs, he⟩
  have hne : s ≠ [] := by
    intro h
    rw [h] at hs
    revert hs
    decide
  obtain ⟨r, hr⟩ := scsisim_map_gsm_chars_buffer s hne
  rw [hf, hr] at he
  exact map_outcome.noConfusion he

/-- C26 (amended): for every packed slice of `P ≥ 1` bytes with `8 P < 2 ^ 32` and every
`N ≥ 1`, the unpacker yields `floor(8 P / 7)` bytes, each at most `0x7f`, and reports
the length `min(N, floor(8 P / 7))`; `scsisim_get_gsm_text` is `scsisim_map_gsm_chars`
applied to that many unpacked bytes, all of which are at most `0x7f`, so that the
mapping loop runs over every one of them. -/
theorem C26_get_gsm_text (packed : List Nat) (num_septets : Nat)
    (hb : ∀ b ∈ packed, b < 256) (hP : 1 ≤ packed.length)
    (hsize : 8 * packed.length < 2 ^ 32) (hN : 1 ≤ num_septets) :
    ∃ unpacked,
      scsisim_unpack_septets num_septets (some packed) =
        unpack_outcome.done unpacked (min num_septets (8 * packed.length / 7)) ∧
      unpacked.length = 8 * packed.length / 7 ∧
      (∀ b ∈ unpacked, b ≤ 0x7f) ∧
      scsisim_get_gsm_text (some packed) num_septets =
        scsisim_map_gsm_chars
          (some (unpacked.take (min num_septets (8 * packed.length / 7)))) ∧
      (unpacked.take (min num_septets (8 * packed.length / 7))).length
        = min num_septets (8 * packed.length / 7) ∧
      (unpacked.take (min num_septets (8 * packed.length / 7))).takeWhile
          (fun c => decide (c ≤ 0x7f))
        = unpacked.take (min num_septets (8 * packed.length / 7)) := by
  obtain ⟨out, hout, -⟩ := unpack_septets_loop_total packed packed.length 0 (by omega)
  obtain ⟨hdone, hlen⟩ := scsisim_unpack_septets_done num_septets packed out hN hP hsize hout
  have hle := unpack_septets_loop_le packed hb packed.length 0 out hout
  refine ⟨out, hdone, hlen, hle, ?_, ?_, ?_⟩
  · unfold scsisim_get_gsm_text
    simp only []
    rw [if_neg (by omega), hdone]
  · rw [List.length_take, hlen]
    omega
  · rw [List.takeWhile_eq_self_iff]
    intro b hmem
    exact decide_eq_true (hle b (List.mem_of_mem_take hmem))

set_option maxRecDepth 100000 in
/-- C26 (witness): the packed bytes `c8 32 9b fd 06` with `N = 5` unpack to
`48 65 6c 6c 6f`, and the text is "Hello". -/
theorem C26_get_gsm_text_witness :
    (∃ unpacked,
      scsisim_unpack_septets 5 (some [0xc8, 0x32, 0x9b, 0xfd, 0x06]) =
        unpack_outcome.done unpacked (min 5 (8 * 5 / 7)) ∧
      scsisim_get_gsm_text (some [0xc8, 0x32, 0x9b, 0xfd, 0x06]) 5 =
        scsisim_map_gsm_chars (some (unpacked.take (min 5 (8 * 5 / 7))))) ∧
    scsisim_unpack_septets 5 (some [0xc8, 0x32, 0x9b, 0xfd, 0x06]) =
      unpack_outcome.done [0x48, 0x65, 0x6c, 0x6c, 0x6f] 5 ∧
    map_gsm_chars_string (some [0x48, 0x65, 0x6c, 0x6c, 0x6f]) = some (c_str "Hello") := by
  refine ⟨?_, rfl, by decide⟩
  obtain ⟨u, h1, -, -, h2, -, -⟩ := C26_get_gsm_text [0xc8, 0x32, 0x9b, 0xfd, 0x06] 5
    (by decide) (by decide) (by decide) (by decide)
  exact ⟨u, h1, h2⟩

/-! ## Theorems: SELECT and READ BINARY commands -/

/-- The high and low byte of a 16-bit value are bytes and give the value back. -/
theorem hi_lo_bytes (file : Nat) (hf : file < 65536) :
    (file >>> 8) % 256 = file >>> 8 ∧ (file &&& 0xff) % 256 = file &&& 0xff ∧
    256 * (file >>> 8) + (file &&& 0xff) = file ∧ file >>> 8 < 256 ∧
    file &&& 0xff < 256 := by
  have h1 : file >>> 8 = file / 256 := by
    rw [Nat.shiftRight_eq_div_pow]
  have h2 : file &&& 0xff = file % 256 := by
    exact Nat.and_pow_two_sub_one_eq_mod file 8
  rw [h1, h2]
  refine ⟨?_, ?_, ?_, ?_, ?_⟩ <;> omega

/-- C34: for every 16-bit file identifier `f`, `scsisim_select_file` hands the
transport one write command: its CDB is the SELECT template of the device, unmodified,
and its data block is the two bytes `[f >> 8, f & 0xff]`, so that
`256 * data[0] + data[1] = f`.  With `reply` the transport's reply to it, the result is
the transport's error when the transport fails, the sense translation when the
transport succeeds and sense bytes were transferred, and `SCSISIM_SCSI_NO_SENSE_DATA`
when the transport succeeds without sense bytes. -/
theorem C34_select_file (verbose : Bool) (io : sg_ioctl) (device : sim_device_profile)
    (file : Nat) (sent : List scsi_cmd) (my_cmd : scsi_cmd) (reply : scsi_reply)
    (hf : file < 65536)
    (hcmd : my_cmd = scsi_cmd.mk SIM_WRITE (device.CDB_select_file.take device.cdb_len)
      [file >>> 8, file &&& 0xff] device.sense_len)
    (hreply : reply = (scsi_send_cdb io sent my_cmd).1) :
    256 * (file >>> 8) + (file &&& 0xff) = file ∧ file >>> 8 < 256 ∧
    file &&& 0xff < 256 ∧
    (reply.ret ≠ SCSISIM_SUCCESS →
      reply.ret = SCSISIM_SCSI_SEND_ERROR ∧
      scsisim_select_file verbose io device file sent
        = some (reply.ret, sent ++ [my_cmd])) ∧
    (reply.ret = SCSISIM_SUCCESS → reply.sense_xfered ≠ 0 →
      scsisim_select_file verbose io device file sent
        = (reply_sense verbose device reply).map fun ret => (ret, sent ++ [my_cmd])) ∧
    (reply.ret = SCSISIM_SUCCESS → reply.sense_xfered = 0 →
      scsisim_select_file verbose io device file sent
        = some (SCSISIM_SCSI_NO_SENSE_DATA, sent ++ [my_cmd])) := by
  obtain ⟨d0, d1, d2, d3, d4⟩ := hi_lo_bytes file hf
  have heq := scsisim_select_file_eq verbose io device file sent my_cmd reply
    (by rw [hcmd, d0, d1]) hreply
  refine ⟨d2, d3, d4, ?_, ?_, ?_⟩
  · intro hfail
    rw [heq, if_neg hfail]
    refine ⟨?_, rfl⟩
    rcases (scsi_send_cdb_ret io sent my_cmd).1 with e | ⟨e, -⟩
    · exact absurd (hreply ▸ e) hfail
    · exact hreply ▸ e
  · intro hok hx
    rw [heq, if_pos hok, if_pos hx]
  · intro hok hx
    rw [heq, if_pos hok, if_neg (by rw [hx]; decide)]

set_option maxRecDepth 100000 in
/-- C34 (witness): the file `0x6f3a` on the example device: the command carries the
data `6f 3a`; the card's status word `0x9f 0f` gives 15, a failing ioctl gives the send
error. -/
theorem C34_select_file_witness :
    scsisim_select_file false (example_ioctl_status 0x9f 0x0f) example_device 0x6f3a [] =
      some (15, [scsi_cmd.mk SIM_WRITE [0xdf, 0xa4, 0, 0, 2, 0] [0x6f, 0x3a] 18]) ∧
    scsisim_select_file false example_ioctl_failing example_device 0x6f3a [] =
      some (SCSISIM_SCSI_SEND_ERROR,
        [scsi_cmd.mk SIM_WRITE [0xdf, 0xa4, 0, 0, 2, 0] [0x6f, 0x3a] 18]) :=
  ⟨((C34_select_file false (example_ioctl_status 0x9f 0x0f) example_device 0x6f3a [] _ _
      (by decide) rfl rfl).2.2.2.2.1 rfl (by decide)).trans rfl,
   ((C34_select_file false example_ioctl_failing example_device 0x6f3a [] _ _
      (by decide) rfl rfl).2.2.2.1 (by decide)).2⟩

/-- Three stores at pairwise distinct offsets inside a list: the length is kept, each
stored value is read back, and every other element is as before. -/
theorem cdb_set_three (cdb : List Nat) (o1 o2 o3 v1 v2 v3 : Nat)
    (h1 : o1 < cdb.length) (h2 : o2 < cdb.length) (h3 : o3 < cdb.length)
    (d12 : o1 ≠ o2) (d13 : o1 ≠ o3) (d23 : o2 ≠ o3) :
    ((cdb_set cdb o1 v1).bind fun c => (cdb_set c o2 v2).bind fun c => cdb_set c o3 v3)
      = some (((cdb.set o1 v1).set o2 v2).set o3 v3) ∧
    (((cdb.set o1 v1).set o2 v2).set o3 v3).length = cdb.length ∧
    (((cdb.set o1 v1).set o2 v2).set o3 v3)[o1]? = some v1 ∧
    (((cdb.set o1 v1).set o2 v2).set o3 v3)[o2]? = some v2 ∧
    (((cdb.set o1 v1).set o2 v2).set o3 v3)[o3]? = some v3 ∧
    ∀ i, i ≠ o1 → i ≠ o2 → i ≠ o3 →
      (((cdb.set o1 v1).set o2 v2).set o3 v3)[i]? = cdb[i]? := by
  have l1 : (cdb.set o1 v1).length = cdb.length := List.length_set _ _ _
  have l2 : ((cdb.set o1 v1).set o2 v2).length = cdb.length := by
    rw [List.length_set, l1]
  refine ⟨?_, ?_, ?_, ?_, ?_, ?_⟩
  · rw [(cdb_set_some cdb o1 v1 h1).1, Option.some_bind,
      (cdb_set_some _ o2 v2 (by rw [l1]; exact h2)).1, Option.some_bind,
      (cdb_set_some _ o3 v3 (by rw [l2]; exact h3)).1]
  · rw [List.length_set, l2]
  · rw [List.getElem?_set_ne (Ne.symm d13), List.getElem?_set_ne (Ne.symm d12),
      List.getElem?_set_self h1]
  · rw [List.getElem?_set_ne (Ne.symm d23), List.getElem?_set_self (by rw [l1]; exact h2)]
  · rw [List.getElem?_set_self (by rw [l2]; exact h3)]
  · intro i i1 i2 i3
    rw [List.getElem?_set_ne (Ne.symm i3), List.getElem?_set_ne (Ne.symm i2),
      List.getElem?_set_ne (Ne.symm i1)]

/-- C35: for every device profile whose three READ BINARY patch offsets are pairwise
distinct and below `cdb_len` (the template holding at least `cdb_len` bytes), every
16-bit offset and every buffer of `len ≥ 1` bytes, `scsisim_read_binary` is the common
send-and-translate tail on one command, and whatever it returns, that command is the
one sent.  Its direction is read, its data buffer is the caller's (`len` bytes), and
its CDB has length `cdb_len`, holds `offset >> 8`, `offset & 0xff` and `len` at the
three patch offsets, and equals the template at every other index. -/
theorem C35_read_binary_command (verbose : Bool) (io : sg_ioctl)
    (device : sim_device_profile) (buf : List Nat) (offset : Nat) (sent : List scsi_cmd)
    (hoff : offset < 65536) (hlen : 1 ≤ buf.length)
    (htpl : device.cdb_len ≤ device.CDB_read_binary.length)
    (h1 : device.read_binary_hi_offset < device.cdb_len)
    (h2 : device.read_binary_lo_offset < device.cdb_len)
    (h3 : device.read_binary_len_offset < device.cdb_len)
    (d12 : device.read_binary_hi_offset ≠ device.read_binary_lo_offset)
    (d13 : device.read_binary_hi_offset ≠ device.read_binary_len_offset)
    (d23 : device.read_binary_lo_offset ≠ device.read_binary_len_offset) :
    ∃ cdb,
      scsisim_read_binary verbose io device (some buf) offset sent =
        send_command verbose io device
          (scsi_cmd.mk SIM_READ cdb buf device.sense_len) sent ∧
      (∀ r, scsisim_read_binary verbose io device (some buf) offset sent = some r →
        r.sent = sent ++ [scsi_cmd.mk SIM_READ cdb buf device.sense_len]) ∧
      cdb.length = device.cdb_len ∧
      cdb[device.read_binary_hi_offset]? = some (offset >>> 8) ∧
      cdb[device.read_binary_lo_offset]? = some (offset &&& 0xff) ∧
      cdb[device.read_binary_len_offset]? = some buf.length ∧
      ∀ i, i ≠ device.read_binary_hi_offset → i ≠ device.read_binary_lo_offset →
        i ≠ device.read_binary_len_offset → i < device.cdb_len →
        cdb[i]? = device.CDB_read_binary[i]? := by
  obtain ⟨e0, e1, -⟩ := hi_lo_bytes offset hoff
  have hl : (device.CDB_read_binary.take device.cdb_len).length = device.cdb_len := by
    rw [List.length_take]
    omega
  obtain ⟨c0, c1, c2, c3, c4, c5⟩ := cdb_set_three
    (device.CDB_read_binary.take device.cdb_len)
    device.read_binary_hi_offset device.read_binary_lo_offset
    device.read_binary_len_offset (offset >>> 8) (offset &&& 0xff) buf.length
    (by rw [hl]; exact h1) (by rw [hl]; exact h2) (by rw [hl]; exact h3) d12 d13 d23
  have hcdb : read_binary_cdb device offset buf.length = some
      ((((device.CDB_read_binary.take device.cdb_len).set device.read_binary_hi_offset
        (offset >>> 8)).set device.read_binary_lo_offset (offset &&& 0xff)).set
        device.read_binary_len_offset buf.length) := by
    unfold read_binary_cdb
    rw [e0, e1]
    exact c0
  have heq : scsisim_read_binary verbose io device (some buf) offset sent =
      send_command verbose io device
        (scsi_cmd.mk SIM_READ
          ((((device.CDB_read_binary.take device.cdb_len).set device.read_binary_hi_offset
            (offset >>> 8)).set device.read_binary_lo_offset (offset &&& 0xff)).set
            device.read_binary_len_offset buf.length) buf device.sense_len) sent := by
    unfold scsisim_read_binary
    simp only []
    rw [if_neg (by omega), hcdb]
  refine ⟨_, heq, ?_, c1.trans hl, c2, c3, c4, ?_⟩
  · intro r hr
    rw [heq] at hr
    exact send_command_sent _ _ _ _ _ _ hr
  · intro i i1 i2 i3 hi
    rw [c5 i i1 i2 i3, List.getElem?_take]
    rw [if_pos hi]

set_option maxRecDepth 100000 in
/-- C35 (witness): READ BINARY at offset `0x1234` into a four-byte buffer on the
example device: the CDB has six bytes with `12 34 04` at the offsets 2, 3, 4, and the
command sent is `df b0 12 34 04 00`. -/
theorem C35_read_binary_command_witness :
    (∃ cdb, scsisim_read_binary false (example_ioctl_status 0x90 0) example_device_full
        (some [0, 0, 0, 0]) 0x1234 [] =
        send_command false (example_ioctl_status 0x90 0) example_device_full
          (scsi_cmd.mk SIM_READ cdb [0, 0, 0, 0] 18) [] ∧
      cdb.length = 6 ∧ cdb[2]? = some 0x12 ∧ cdb[3]? = some 0x34 ∧ cdb[4]? = some 4) ∧
    (scsisim_read_binary false (example_ioctl_status 0x90 0) example_device_full
        (some [0, 0, 0, 0]) 0x1234 []).map command_result.sent =
      some [scsi_cmd.mk SIM_READ [0xdf, 0xb0, 0x12, 0x34, 4, 0] [0, 0, 0, 0] 18] := by
  refine ⟨?_, rfl⟩
  obtain ⟨cdb, h, -, hl, a, b, c, -⟩ := C35_read_binary_command false
    (example_ioctl_status 0x90 0) example_device_full [0, 0, 0, 0] 0x1234 []
    (by decide) (by decide) (by decide) (by decide) (by decide) (by decide) (by decide)
    (by decide) (by decide)
  exact ⟨cdb, h, hl, a, b, c⟩

/-! ## Theorems: buffer bounds of the unpacker, the mapper and the ADN parser -/

/-- C36: for every packed slice of `P ≥ 1` bytes with `8 P < 2 ^ 32` (and every septet
count `N ≥ 1`), the loop of `scsisim_unpack_septets` reads inside `packed` at every
index, writes one byte per packed byte plus one more at each index `i` with
`i mod 7 = 6`, in total `P + floor(P / 7)` bytes, and that is exactly the allocated
size `floor(8 P / 7)`: no write falls outside the buffer and no byte of it stays
unwritten.  The predecessor `packed[i-1]` is read only at indices with `i mod 7 > 0`,
where `i ≥ 1`; at an index with `i mod 7 = 0` the byte written depends on `packed[i]`
alone. -/
theorem C36_unpack_fills_buffer (packed : List Nat) (num_septets : Nat)
    (hP : 1 ≤ packed.length) (hsize : 8 * packed.length < 2 ^ 32) (hN : 1 ≤ num_septets) :
    ∃ out, unpack_septets_loop packed 0 packed.length = some out ∧
      out.length = packed.length + packed.length / 7 ∧
      packed.length + packed.length / 7 = (packed.length * 8 % 2 ^ 32) / 7 ∧
      scsisim_unpack_septets num_septets (some packed) =
        unpack_outcome.done out (min num_septets (8 * packed.length / 7)) ∧
      (∀ i, i < packed.length → ∃ w, unpack_septets_body packed i = some w ∧
        w.length = if i % 7 = 6 then 2 else 1) ∧
      (∀ i, i < packed.length → i % 7 > 0 → 1 ≤ i ∧ ∃ q, packed[i - 1]? = some q) ∧
      (∀ i p, packed[i]? = some p → i % 7 = 0 →
        unpack_septets_body packed i = some [p &&& 0x7f]) := by
  obtain ⟨out, hout, hlen⟩ := unpack_septets_loop_total packed packed.length 0 (by omega)
  obtain ⟨hdone, -⟩ := scsisim_unpack_septets_done num_septets packed out hN hP hsize hout
  refine ⟨out, hout, by omega, by omega, hdone,
    fun i hi => unpack_septets_body_total packed i hi, ?_, ?_⟩
  · intro i hi hpos
    exact ⟨by omega, _, getElem?_eq_some_getD packed (i - 1) (by omega)⟩
  · intro i p hp h0
    unfold unpack_septets_body
    rw [hp]
    simp only []
    rw [if_neg (by omega)]
    simp only []
    rw [if_neg (by omega)]

/-- C36 (witness): seven packed bytes unpack to eight septets, the eighth written at
index 6. -/
theorem C36_unpack_fills_buffer_witness :
    ∃ out, unpack_septets_loop [0xc8, 0x32, 0x9b, 0xfd, 0x06, 0x5d, 0xdf] 0 7 = some out ∧
      out.length = 7 + 7 / 7 := by
  obtain ⟨out, h1, h2, -⟩ := C36_unpack_fills_buffer
    [0xc8, 0x32, 0x9b, 0xfd, 0x06, 0x5d, 0xdf] 1 (by decide) (by decide) (by decide)
  exact ⟨out, h1, h2⟩

/-- C37: for every source of `src_len ≥ 1` bytes the mapping loop runs without a store
outside the buffer of `4 * src_len + 1` bytes; the bytes written for mapped characters
number at most `3 * src_len`, so that they and a terminator fit.  Every entry of both
tables is at most 3 bytes long, and the escape byte `0x1b` writes nothing: it only sets
the flag. -/
theorem C37_map_output_fits (src : List Nat) (hne : src ≠ []) :
    (∀ c, c < 0x80 → ∃ s e, GSM_basic_charset[c]? = some s ∧ (c_str s).length ≤ 3 ∧
      GSM_basic_charset_extension[c]? = some e ∧ (c_str e).length ≤ 3) ∧
    (∀ (rest : List Nat) (st : map_state),
      map_gsm_loop (0x1b :: rest) st = map_gsm_loop rest { st with escapeChar := true }) ∧
    ∃ st, map_gsm_loop src
        { buf := List.replicate (src.length * 4 + 1) none, dest := 0, escapeChar := false }
        = some st ∧
      scsisim_map_gsm_chars (some src) = map_outcome.buffer st.buf ∧
      st.buf.length = 4 * src.length + 1 ∧ st.dest ≤ 3 * src.length ∧
      st.dest + 1 ≤ st.buf.length := by
  refine ⟨?_, ?_, ?_⟩
  · intro c hc
    obtain ⟨s, hs, hsl⟩ := table_entry_exists false c hc
    obtain ⟨e, he, hel⟩ := table_entry_exists true c hc
    exact ⟨s, e, hs, hsl, he, hel⟩
  · intro rest st
    rfl
  · have hpos : 1 ≤ src.length := by
      cases src with
      | nil => exact absurd rfl hne
      | cons a l => simp
    obtain ⟨st, h1, h2, h3⟩ := map_gsm_loop_fits src
      { buf := List.replicate (src.length * 4 + 1) none, dest := 0, escapeChar := false }
      (by simp only [List.length_replicate]; omega)
    simp only [List.length_replicate] at h2 h3
    refine ⟨st, h1, ?_, by omega, by omega, by omega⟩
    unfold scsisim_map_gsm_chars
    simp only []
    rw [if_neg (by omega), h1]

set_option maxRecDepth 100000 in
/-- C37 (witness): the euro sign, the longest entry, takes 3 bytes; `[0x1b, 0x65]`
writes them into a buffer of 9 bytes. -/
theorem C37_map_output_fits_witness :
    (∃ s e, GSM_basic_charset[0x65]? = some s ∧ (c_str s).length ≤ 3 ∧
      GSM_basic_charset_extension[0x65]? = some e ∧ (c_str e).length ≤ 3) ∧
    (GSM_basic_charset_extension[0x65]?).map c_str = some [0xe2, 0x82, 0xac] ∧
    ∃ st, map_gsm_loop [0x1b, 0x65]
        { buf := List.replicate (2 * 4 + 1) none, dest := 0, escapeChar := false }
        = some st ∧ st.dest ≤ 3 * 2 := by
  refine ⟨(C37_map_output_fits [0x1b, 0x65] (by decide)).1 0x65 (by decide), by decide, ?_⟩
  obtain ⟨st, h1, -, -, h2, -⟩ := (C37_map_output_fits [0x1b, 0x65] (by decide)).2.2
  exact ⟨st, h1, h2⟩

/-- C38: for every record of at least 15 bytes `scsisim_parse_adn` returns without a
read outside the record.  When the record is in use, with `N = record_len - 14`: the
name is read from the indices `0 .. N-1`, the length byte at `N`, and the `L ≤ 10`
number bytes from `N+2 .. N+1+L`, so the highest index read, `N + 1 + L`, is at most
`record_len - 3`, whatever the length byte holds. -/
theorem C38_parse_adn_reads (record : List Nat) (hlen : 15 ≤ record.length) (N : Nat)
    (hN : N = record.length - 14) :
    ∃ r, scsisim_parse_adn (some record) = some r ∧
      (record.getD 0 0 = 0xff → r.name = none ∧ r.number = none) ∧
      (record.getD 0 0 ≠ 0xff →
        ∃ L name, r.number_len = some L ∧ 1 ≤ L ∧ L ≤ 10 ∧
          N + 1 + L ≤ record.length - 3 ∧ 1 ≤ N ∧ N < record.length ∧
          scsisim_map_gsm_chars (some (record.take N)) = map_outcome.buffer name ∧
          r.name = some (some name) ∧
          copy_bytes record (N + 2) L = some ((record.drop (N + 2)).take L) ∧
          r.number = some (scsisim_packed_bcd_to_ascii
            (some ((record.drop (N + 2)).take L)) true true true)) := by
  by_cases hff : record.getD 0 0 = 0xff
  · refine ⟨adn_result.mk SCSISIM_SUCCESS true none none none, ?_, fun _ => ⟨rfl, rfl⟩,
      fun h => absurd hff h⟩
    unfold scsisim_parse_adn
    simp only [GSM_ADN_NUMBER_BUFFER_LEN]
    rw [if_neg (by omega), getElem?_eq_some_getD record 0 (by omega)]
    simp only []
    rw [if_pos hff]
  · obtain ⟨h1, h2, h3, name, hname, hp⟩ := scsisim_parse_adn_used record hlen hff N _ hN rfl
    refine ⟨_, hp, fun h => absurd h hff, fun _ => ⟨_, name, rfl, h1, h2, by omega,
      by omega, by omega, hname, rfl, copy_bytes_some record _ _ h3, rfl⟩⟩

set_option maxRecDepth 100000 in
/-- C38 (witness): a 15-byte record with the length byte `0xff`: the length is forced
to 10 and the number bytes end at index 12. -/
theorem C38_parse_adn_reads_witness :
    ∃ r, scsisim_parse_adn (some ([0x41, 0xff] ++ List.replicate 13 0x21)) = some r ∧
      r.number_len = some 10 := by
  obtain ⟨r, hr, -, h⟩ := C38_parse_adn_reads ([0x41, 0xff] ++ List.replicate 13 0x21)
    (by decide) 1 (by decide)
  obtain ⟨L, name, hl, -, -, -, -, -, -, -, -, -⟩ := h (by decide)
  refine ⟨r, hr, ?_⟩
  have e : (scsisim_parse_adn (some ([0x41, 0xff] ++ List.replicate 13 0x21))).map
      adn_result.number_len = some (some 10) := rfl
  rw [hr] at e
  exact Option.some.inj e

/-- C39: whenever `gsm_parse_response` returns `SCSISIM_INVALID_GSM_RESPONSE` (a `NULL`
buffer, or a buffer too short for the tag), the caller's structure, command tag and
descriptor, is exactly as it was before the call; for a command tag other than
`SELECT_EF` and `SELECT_MF_DF` the structure is unchanged as well; and no call changes
the command tag. -/
theorem C39_parse_response_frame (response : Option (List Nat)) (resp : GSM_response) :
    ∃ ret resp1, gsm_parse_response response resp = some (ret, resp1) ∧
      (ret = SCSISIM_INVALID_GSM_RESPONSE → resp1 = resp) ∧
      (resp.command ≠ SELECT_EF → resp.command ≠ SELECT_MF_DF → resp1 = resp) ∧
      resp1.command = resp.command := by
  cases response with
  | none => exact ⟨_, _, rfl, fun _ => rfl, fun _ _ => rfl, rfl⟩
  | some r =>
    rw [gsm_parse_response_some]
    by_cases h1 : resp.command = SELECT_EF
    · rw [if_pos h1]
      by_cases hl : r.length < 15
      · rw [if_pos hl]
        exact ⟨_, _, rfl, fun _ => rfl, fun _ _ => rfl, rfl⟩
      · rw [if_neg hl, parse_select_ef_eq r (by omega)]
        exact ⟨_, _, rfl, fun h => absurd h (by decide), fun h => absurd h1 h, rfl⟩
    · rw [if_neg h1]
      by_cases h2 : resp.command = SELECT_MF_DF
      · rw [if_pos h2]
        by_cases hl : r.length < 22
        · rw [if_pos hl]
          exact ⟨_, _, rfl, fun _ => rfl, fun _ _ => rfl, rfl⟩
        · rw [if_neg hl, parse_select_mf_df_eq r (by omega)]
          exact ⟨_, _, rfl, fun h => absurd h (by decide), fun _ h => absurd h2 h, rfl⟩
      · rw [if_neg h2]
        exact ⟨_, _, rfl, fun _ => rfl, fun _ _ => rfl, rfl⟩

/-- C39 (witness): a 14-byte buffer under the tag `SELECT_EF` is rejected and the
structure keeps its contents; a buffer under the tag `SEEK` leaves it unchanged. -/
theorem C39_parse_response_frame_witness :
    gsm_parse_response (some (List.replicate 14 0))
        (GSM_response.mk SELECT_EF (GSM_type.ef (GSM_EF.mk 1 2 3 4 5 6))) =
      some (SCSISIM_INVALID_GSM_RESPONSE,
        GSM_response.mk SELECT_EF (GSM_type.ef (GSM_EF.mk 1 2 3 4 5 6))) ∧
    (∃ ret, gsm_parse_response (some (List.replicate 30 0))
        (GSM_response.mk SEEK (GSM_type.ef (GSM_EF.mk 1 2 3 4 5 6))) =
      some (ret, GSM_response.mk SEEK (GSM_type.ef (GSM_EF.mk 1 2 3 4 5 6)))) := by
  refine ⟨rfl, ?_⟩
  obtain ⟨ret, resp1, h, -, h2, -⟩ := C39_parse_response_frame (some (List.replicate 30 0))
    (GSM_response.mk SEEK (GSM_type.ef (GSM_EF.mk 1 2 3 4 5 6)))
  rw [h2 (by decide) (by decide)] at h
  exact ⟨ret, h⟩

/-! ## Theorems: SMS user data -/

/-- The user-data part of the SMS parser in full, for a TP-UDL byte `N` at offset
`off ≤ 37` of a 176-byte record of bytes. -/
theorem sms_user_data_cases (record : List Nat) (hlen : record.length = 176)
    (hb : ∀ b ∈ record, b < 256) (off charset : Nat) (hoff : off ≤ 37) (r : sms_result)
    (N m : Nat) (hN : N = record.getD off 0)
    (hm : m = min ((7 * N + 7) / 8) (176 - (off + 1))) :
    ∃ r', sms_user_data record off charset r = some r' ∧ r'.ret = SCSISIM_SUCCESS ∧
      r'.num_septets = some N ∧ r'.charset = r.charset ∧ r'.bytes_used = some (off + 1) ∧
      (N = 0 → r'.message_empty = true ∧ r'.message = r.message ∧
        r'.unsupported_charset = r.unsupported_charset) ∧
      (N ≠ 0 → r'.message_empty = r.message_empty ∧ r'.msg_len = some m ∧
        off + 1 + m ≤ 176 ∧ 1 ≤ m ∧
        (charset = 0 → ∃ text,
          scsisim_get_gsm_text (some ((record.drop (off + 1)).take m)) N
            = map_outcome.buffer text ∧
          r'.message = some (some text) ∧
          r'.unsupported_charset = r.unsupported_charset) ∧
        (charset ≠ 0 → r'.unsupported_charset = true ∧ r'.message = r.message)) := by
  have hN256 : N < 256 := by
    rw [hN]
    exact getD_lt_256 record hb off
  have hrem : u32_sub GSM_SMS_RECORD_LEN (off + 1) = 176 - (off + 1) :=
    u32_sub_le _ _ (by simp only [GSM_SMS_RECORD_LEN]; omega)
  have hu : u32 (N * 7 + (8 - 1)) / 8 = (7 * N + 7) / 8 := by
    unfold u32
    rw [Nat.mod_eq_of_lt (by omega)]
    congr 1
    omega
  unfold sms_user_data
  rw [getElem?_eq_some_getD record off (by omega), ← hN]
  simp only [hrem, hu]
  by_cases h0 : (7 * N + 7) / 8 ≤ 0
  · have hN0 : N = 0 := by omega
    rw [if_pos h0]
    exact ⟨_, rfl, rfl, rfl, rfl, rfl, fun _ => ⟨rfl, rfl, rfl⟩, fun h => absurd hN0 h⟩
  · have hNpos : N ≠ 0 := by
      intro h
      rw [h] at h0
      exact h0 (by decide)
    rw [if_neg h0]
    have hmin : (if (7 * N + 7) / 8 > 176 - (off + 1) then 176 - (off + 1)
        else (7 * N + 7) / 8) = m := by
      rw [hm]
      split_ifs <;> omega
    rw [hmin]
    have hm1 : 1 ≤ m ∧ off + 1 + m ≤ 176 := by
      rw [hm]
      omega
    rw [copy_bytes_some record _ _ (by omega)]
    simp only []
    by_cases hc : charset = 0
    · rw [if_pos hc]
      obtain ⟨text, htext⟩ := scsisim_get_gsm_text_buffer ((record.drop (off + 1)).take m) N
        (by rw [length_drop_take _ _ _ (by omega)]; omega)
        (by rw [length_drop_take _ _ _ (by omega)]; omega) (by omega)
      rw [htext]
      exact ⟨_, rfl, rfl, rfl, rfl, rfl, fun h => absurd h hNpos,
        fun _ => ⟨rfl, rfl, hm1.2, hm1.1, fun _ => ⟨text, rfl, rfl, rfl⟩,
          fun h => absurd hc h⟩⟩
    · rw [if_neg hc]
      exact ⟨_, rfl, rfl, rfl, rfl, rfl, fun h => absurd h hNpos,
        fun _ => ⟨rfl, rfl, hm1.2, hm1.1, fun h => absurd h hc, fun _ => ⟨rfl, rfl⟩⟩⟩

/-- The timestamp part of the SMS parser leaves the character set and the message
fields as they were. -/
theorem sms_timestamp_frame (record : List Nat) (off : Nat) (hoff : off + 7 ≤ record.length)
    (r : sms_result) :
    ∃ r', sms_timestamp record off r = some r' ∧ r'.charset = r.charset ∧
      r'.message = r.message ∧ r'.message_empty = r.message_empty ∧
      r'.unsupported_charset = r.unsupported_charset := by
  obtain ⟨a, b, c, d, e, f, g, hl⟩ :=
    list_of_length_seven ((record.drop off).take 7) (length_drop_take record off 7 hoff)
  unfold sms_timestamp
  rw [copy_bytes_some record off 7 hoff, hl]
  exact ⟨_, rfl, rfl, rfl, rfl, rfl⟩

/-- With a valid address length `a`, the arm `case 0: case 1:` of the SMS parser ends
in the user-data part, entered at the TP-UDL offset with the character set taken from
bits 3..2 of TP-DCS; the message fields are untouched until then. -/
theorem sms_tpdu_user_data (record : List Nat) (hlen : record.length = 176)
    (off k a t cs : Nat) (hoff : off ≤ 14) (r : sms_result)
    (ha : a = (record.getD (if k = 1 then off + 1 else off) 0 + 1) / 2)
    (hav : 2 ≤ a ∧ a ≤ 12) (ht : t = off + a + (if k = 1 then 6 else 11))
    (hcs : cs = ((record.getD (if k = 1 then t - 2 else t - 8) 0 &&& 0x0c) >>> 2) % 256) :
    ∃ r1, sms_tpdu record off k r = sms_user_data record t cs r1 ∧
      r1.charset = some cs ∧ r1.message = r.message ∧
      r1.message_empty = r.message_empty ∧
      r1.unsupported_charset = r.unsupported_charset := by
  unfold sms_tpdu
  simp only []
  by_cases hs : k = 1
  · simp only [if_pos hs] at ha ht hcs ⊢
    rw [getElem?_eq_some_getD record (off + 1) (by omega)]
    simp only []
    have ha' : (record.getD (off + 1) 0 + (2 - 1)) / 2 = a := ha.symm
    rw [ha', if_neg (by simp only [GSM_MIN_ADDRESS_LEN, GSM_MAX_ADDRESS_LEN]; omega),
      getElem?_eq_some_getD record (off + 1 + 1) (by omega)]
    simp only []
    rw [copy_bytes_some record (off + 1 + 2) a (by omega)]
    simp only []
    obtain ⟨buf, hbuf⟩ := sms_address_text_total ((record.drop (off + 1 + 2)).take a) a
      (decide (record.getD (off + 1 + 1) 0 &&& 0x70 = 0x50))
      (by rw [length_drop_take _ _ _ (by omega)]; omega)
    rw [hbuf]
    simp only []
    rw [getElem?_eq_some_getD record (off + 1 + 2 + a + 1) (by omega)]
    simp only []
    have e1 : off + 1 + 2 + a + 3 = t := by omega
    have e2 : off + 1 + 2 + a + 1 = t - 2 := by omega
    rw [e1, e2, ← hcs]
    exact ⟨_, rfl, rfl, rfl, rfl, rfl⟩
  · simp only [if_neg hs] at ha ht hcs ⊢
    rw [getElem?_eq_some_getD record (off) (by omega)]
    simp only []
    have ha' : (record.getD (off) 0 + (2 - 1)) / 2 = a := ha.symm
    rw [ha', if_neg (by simp only [GSM_MIN_ADDRESS_LEN, GSM_MAX_ADDRESS_LEN]; omega),
      getElem?_eq_some_getD record (off + 1) (by omega)]
    simp only []
    rw [copy_bytes_some record (off + 2) a (by omega)]
    simp only []
    obtain ⟨buf, hbuf⟩ := sms_address_text_total ((record.drop (off + 2)).take a) a
      (decide (record.getD (off + 1) 0 &&& 0x70 = 0x50))
      (by rw [length_drop_take _ _ _ (by omega)]; omega)
    rw [hbuf]
    simp only []
    rw [getElem?_eq_some_getD record (off + 2 + a + 1) (by omega)]
    simp only []
    obtain ⟨r1, g1, g2, g3, g4, g5⟩ := sms_timestamp_frame record (off + 2 + a + 2)
        (by omega)
        { { { r with address_len := some a } with
              is_alphanum := decide (record.getD (off + 1) 0 &&& 0x70 = 0x50),
              address := some buf } with
          charset := some (((record.getD (off + 2 + a + 1) 0 &&& 0x0c) >>> 2) % 256) }
    rw [g1]
    simp only []
    have e1 : off + 2 + a + 9 = t := by omega
    have e2 : off + 2 + a + 1 = t - 8 := by omega
    rw [e2, ← hcs] at g2
    rw [e1, e2, ← hcs]
    exact ⟨r1, rfl, g2, g3, g4, g5⟩

/-- For a record that passes the status and SMSC checks and has TPDU kind 0 or 1,
`scsisim_parse_sms` is the arm `case 0: case 1:` entered after the type byte, with no
message field set yet. -/
theorem scsisim_parse_sms_tpdu (record : List Nat) (hlen : record.length = 176)
    (h0 : record.getD 0 0 ≤ 7) (h3 : record.getD 3 0 ≠ 0xff) (s k : Nat)
    (hs : s = clamp_len_minus_one (record.getD 1 0) GSM_MAX_SMSC_LEN)
    (hk : k = (record.getD (3 + s) 0 &&& 0x03) % 256) (hk01 : k = 0 ∨ k = 1) :
    ∃ r0 : sms_result, scsisim_parse_sms (some record) = sms_tpdu record (3 + s + 1) k r0 ∧
      r0.message = none ∧ r0.message_empty = false ∧ r0.unsupported_charset = false := by
  have hb := clamp_len_minus_one_bounds (record.getD 1 0) GSM_MAX_SMSC_LEN (by decide)
  simp only [GSM_MAX_SMSC_LEN] at hb hs
  rw [← hs] at hb
  unfold scsisim_parse_sms
  simp only [GSM_MAX_SMSC_LEN]
  rw [if_neg (by rw [hlen]; decide), getElem?_eq_some_getD record 0 (by omega)]
  simp only []
  rw [if_neg (by rw [length_GSM_sms_status]; omega),
    getElem?_eq_some_getD record 1 (by omega)]
  simp only []
  rw [getElem?_eq_some_getD record 3 (by omega)]
  simp only []
  rw [if_neg h3, ← hs, copy_bytes_some record 3 s (by omega)]
  simp only []
  rw [getElem?_eq_some_getD record (3 + s) (by omega)]
  simp only []
  rw [← hk, if_pos hk01]
  exact ⟨_, rfl, rfl, rfl, rfl⟩

/-- For a record that passes the status and SMSC checks and has TPDU kind 2 or 3,
`scsisim_parse_sms` returns Success right after the type byte: no address, character
set, timestamp or message field is set. -/
theorem scsisim_parse_sms_other_kind (record : List Nat) (hlen : record.length = 176)
    (h0 : record.getD 0 0 ≤ 7) (h3 : record.getD 3 0 ≠ 0xff) (s k : Nat)
    (hs : s = clamp_len_minus_one (record.getD 1 0) GSM_MAX_SMSC_LEN)
    (hk : k = (record.getD (3 + s) 0 &&& 0x03) % 256) (hk01 : ¬ (k = 0 ∨ k = 1)) :
    ∃ r0 : sms_result, scsisim_parse_sms (some record) = some r0 ∧
      r0.ret = SCSISIM_SUCCESS ∧ r0.sms_status = some k ∧ r0.address_len = none ∧
      r0.address = none ∧ r0.charset = none ∧ r0.date = none ∧ r0.time = none ∧
      r0.num_septets = none ∧ r0.bytes_used = none ∧ r0.message = none := by
  have hb := clamp_len_minus_one_bounds (record.getD 1 0) GSM_MAX_SMSC_LEN (by decide)
  simp only [GSM_MAX_SMSC_LEN] at hb hs
  rw [← hs] at hb
  unfold scsisim_parse_sms
  simp only [GSM_MAX_SMSC_LEN]
  rw [if_neg (by rw [hlen]; decide), getElem?_eq_some_getD record 0 (by omega)]
  simp only []
  rw [if_neg (by rw [length_GSM_sms_status]; omega),
    getElem?_eq_some_getD record 1 (by omega)]
  simp only []
  rw [getElem?_eq_some_getD record 3 (by omega)]
  simp only []
  rw [if_neg h3, ← hs, copy_bytes_some record 3 s (by omega)]
  simp only []
  rw [getElem?_eq_some_getD record (3 + s) (by omega)]
  simp only []
  rw [← hk, if_neg hk01]
  exact ⟨_, rfl, rfl, rfl, rfl, rfl, rfl, rfl, rfl, rfl, rfl, rfl⟩

/-- C32: for every 176-byte record of bytes that reaches the user data (status and SMSC
checks passed, TPDU kind `k` 0 or 1, address length `a` in `2 .. 12`), with `N` the
TP-UDL byte, read at offset `t = off - 1`, and `cs` the bits 3..2 of TP-DCS: Success
is returned.  If `N = 0` the message is reported empty and no user data is read.
Otherwise `m = min(ceil(7 N / 8), 176 - off)` user-data bytes are taken, which lie
inside the record; for `cs = 0` the message text is `scsisim_get_gsm_text` of these
bytes with septet count `N`, and for `cs` 1, 2 or 3 the character set is reported as
unsupported and no text is decoded. -/
theorem C32_sms_user_data (record : List Nat) (hlen : record.length = 176)
    (hb : ∀ b ∈ record, b < 256) (h0 : record.getD 0 0 ≤ 7) (h3 : record.getD 3 0 ≠ 0xff)
    (s k a t N cs m : Nat)
    (hs : s = clamp_len_minus_one (record.getD 1 0) GSM_MAX_SMSC_LEN)
    (hk : k = (record.getD (3 + s) 0 &&& 0x03) % 256) (hk01 : k = 0 ∨ k = 1)
    (ha : a = (record.getD (if k = 1 then 3 + s + 1 + 1 else 3 + s + 1) 0 + 1) / 2)
    (hav : 2 ≤ a ∧ a ≤ 12) (ht : t = 3 + s + 1 + a + (if k = 1 then 6 else 11))
    (hN : N = record.getD t 0)
    (hcs : cs = ((record.getD (if k = 1 then t - 2 else t - 8) 0 &&& 0x0c) >>> 2) % 256)
    (hm : m = min ((7 * N + 7) / 8) (176 - (t + 1))) :
    ∃ r, scsisim_parse_sms (some record) = some r ∧ r.ret = SCSISIM_SUCCESS ∧
      r.num_septets = some N ∧ r.charset = some cs ∧ r.bytes_used = some (t + 1) ∧
      cs ≤ 3 ∧
      (N = 0 → r.message_empty = true ∧ r.message = none ∧
        r.unsupported_charset = false) ∧
      (N ≠ 0 → r.message_empty = false ∧ r.msg_len = some m ∧ t + 1 + m ≤ 176 ∧ 1 ≤ m ∧
        (cs = 0 → ∃ text,
          scsisim_get_gsm_text (some ((record.drop (t + 1)).take m)) N
            = map_outcome.buffer text ∧
          r.message = some (some text) ∧ r.unsupported_charset = false) ∧
        (cs ≠ 0 → r.unsupported_charset = true ∧ r.message = none)) := by
  have hsb := clamp_len_minus_one_bounds (record.getD 1 0) GSM_MAX_SMSC_LEN (by decide)
  simp only [GSM_MAX_SMSC_LEN] at hsb
  have hs' := hs
  simp only [GSM_MAX_SMSC_LEN] at hs'
  rw [← hs'] at hsb
  have hk7 : (if k = 1 then 6 else 11) ≤ 11 := by split_ifs <;> omega
  obtain ⟨r0, e0, f1, f2, f3⟩ := scsisim_parse_sms_tpdu record hlen h0 h3 s k hs hk hk01
  obtain ⟨r1, e1, g1, g2, g3, g4⟩ := sms_tpdu_user_data record hlen (3 + s + 1) k a t cs
    (by omega) r0 ha hav ht hcs
  obtain ⟨r, e2, c1, c2, c3, c4, c5, c6⟩ := sms_user_data_cases record hlen hb t cs
    (by omega) r1 N m hN hm
  have hcs3 : cs ≤ 3 := by
    rw [hcs, Nat.shiftRight_eq_div_pow]
    have : record.getD (if k = 1 then t - 2 else t - 8) 0 &&& 0x0c ≤ 0x0c :=
      Nat.and_le_right
    omega
  refine ⟨r, e0.trans (e1.trans e2), c1, c2, c3.trans g1, c4, hcs3, ?_, ?_⟩
  · intro hN0
    obtain ⟨a1, a2, a3⟩ := c5 hN0
    exact ⟨a1, a2.trans (g2.trans f1), a3.trans (g4.trans f3)⟩
  · intro hN1
    obtain ⟨a1, a2, a3, a4, a5, a6⟩ := c6 hN1
    refine ⟨a1.trans (g3.trans f2), a2, a3, a4, ?_, ?_⟩
    · intro hc
      obtain ⟨text, t1, t2, t3⟩ := a5 hc
      exact ⟨text, t1, t2, t3.trans (g4.trans f3)⟩
    · intro hc
      obtain ⟨u1, u2⟩ := a6 hc
      exact ⟨u1, u2.trans (g2.trans f1)⟩

set_option maxRecDepth 100000 in
/-- C32 (witness): an SMS-DELIVER record with a six-byte address, TP-DCS 0 and
TP-UDL 5: five septets in `ceil(35 / 8) = 5` bytes at the offsets 28 to 32, decoded as
"Hello". -/
theorem C32_sms_user_data_witness :
    (∃ r, scsisim_parse_sms (some ([1, 7, 0x91, 0x21, 0x43, 0x65, 0x87, 0x09, 0xf1, 0x04,
        11, 0x91, 0x13, 0x32, 0x54, 0x76, 0x98, 0xf0, 0, 0, 0x71, 0x01, 0x32, 0x41, 0x52,
        0x63, 0x00, 5, 0xc8, 0x32, 0x9b, 0xfd, 0x06] ++ List.replicate 143 0xff)) = some r ∧
      r.ret = SCSISIM_SUCCESS ∧ r.num_septets = some 5 ∧ r.msg_len = some 5 ∧
      ∃ text, scsisim_get_gsm_text (some [0xc8, 0x32, 0x9b, 0xfd, 0x06]) 5
          = map_outcome.buffer text ∧ r.message = some (some text)) ∧
    (∃ text, scsisim_get_gsm_text (some [0xc8, 0x32, 0x9b, 0xfd, 0x06]) 5
        = map_outcome.buffer text ∧ c_string text = some (c_str "Hello")) := by
  constructor
  · obtain ⟨r, hr, h1, h2, -, -, -, -, h⟩ := C32_sms_user_data
      ([1, 7, 0x91, 0x21, 0x43, 0x65, 0x87, 0x09, 0xf1, 0x04,
        11, 0x91, 0x13, 0x32, 0x54, 0x76, 0x98, 0xf0, 0, 0, 0x71, 0x01, 0x32, 0x41, 0x52,
        0x63, 0x00, 5, 0xc8, 0x32, 0x9b, 0xfd, 0x06] ++ List.replicate 143 0xff)
      (by decide) (by decide) (by decide) (by decide) 6 0 6 27 5 0 5
      (by decide) (by decide) (by decide) (by decide) (by decide) (by decide) (by decide)
      (by decide) (by decide)
    obtain ⟨-, hm, -, -, ht, -⟩ := h (by decide)
    obtain ⟨text, t1, t2, -⟩ := ht rfl
    exact ⟨r, hr, h1, h2, hm, text, t1, t2⟩
  · have hsome : (match scsisim_get_gsm_text (some [0xc8, 0x32, 0x9b, 0xfd, 0x06]) 5 with
        | map_outcome.buffer text => c_string text
        | _ => none) = some (c_str "Hello") := by decide
    cases hg : scsisim_get_gsm_text (some [0xc8, 0x32, 0x9b, 0xfd, 0x06]) 5 with
    | null => rw [hg] at hsome; exact absurd hsome (by decide)
    | fault => rw [hg] at hsome; exact absurd hsome (by decide)
    | buffer text =>
      rw [hg] at hsome
      exact ⟨text, rfl, hsome⟩

/-! ## Theorems: what the SMS return code depends on -/

/-- The return code of `scsisim_parse_sms` on a 176-byte record, as a function of the
status byte, the first SMSC digit byte, the TPDU kind `k` and the address length `a`. -/
theorem scsisim_parse_sms_ret (record : List Nat) (hlen : record.length = 176)
    (s k a : Nat) (hs : s = clamp_len_minus_one (record.getD 1 0) GSM_MAX_SMSC_LEN)
    (hk : k = (record.getD (3 + s) 0 &&& 0x03) % 256)
    (ha : a = (record.getD (if k = 1 then 3 + s + 1 + 1 else 3 + s + 1) 0 + 1) / 2) :
    ∃ r, scsisim_parse_sms (some record) = some r ∧
      r.ret =
        if record.getD 0 0 > 7 then SCSISIM_SMS_INVALID_STATUS
        else if record.getD 3 0 = 0xff then SCSISIM_SMS_INVALID_SMSC
        else if k = 0 ∨ k = 1 then
          if a < 2 ∨ a > 12 then SCSISIM_SMS_INVALID_ADDRESS else SCSISIM_SUCCESS
        else SCSISIM_SUCCESS := by
  obtain ⟨-, -, r, hr, c1, c2, c3, c4⟩ := scsisim_parse_sms_total record hlen s k a hs hk ha
  refine ⟨r, hr, ?_⟩
  by_cases hst : record.getD 0 0 > 7
  · rw [if_pos hst]
    exact (c1 hst).1
  · rw [if_neg hst]
    by_cases hff : record.getD 3 0 = 0xff
    · rw [if_pos hff]
      exact (c2 (by omega) hff).1
    · rw [if_neg hff]
      by_cases hk01 : k = 0 ∨ k = 1
      · rw [if_pos hk01]
        obtain ⟨-, -, -, d4, d5⟩ := c4 (by omega) hff hk01
        by_cases hout : a < 2 ∨ a > 12
        · rw [if_pos hout]
          exact (d4 hout).1
        · rw [if_neg hout]
          exact (d5 hout).1
      · rw [if_neg hk01]
        exact (c3 (by omega) hff hk01).1

/-- C40: two 176-byte records that agree on their first 16 bytes get the same return
code from `scsisim_parse_sms`, and the code is one of Success, invalid status, invalid
SMSC and invalid address: nothing from offset 16 on (TP-PID, TP-DCS, the timestamp,
TP-UDL, the user data) turns a record into an error.  A record that passes the status
and SMSC checks and has TPDU kind 2 or 3 returns Success with nothing decoded after the
type byte. -/
theorem C40_sms_return_code (r1 r2 : List Nat) (h1 : r1.length = 176)
    (h2 : r2.length = 176) (hagree : ∀ i, i < 16 → r1.getD i 0 = r2.getD i 0) :
    ∃ a b, scsisim_parse_sms (some r1) = some a ∧ scsisim_parse_sms (some r2) = some b ∧
      a.ret = b.ret ∧
      (a.ret = SCSISIM_SUCCESS ∨ a.ret = SCSISIM_SMS_INVALID_STATUS ∨
        a.ret = SCSISIM_SMS_INVALID_SMSC ∨ a.ret = SCSISIM_SMS_INVALID_ADDRESS) ∧
      (r1.getD 0 0 ≤ 7 → r1.getD 3 0 ≠ 0xff →
        ¬ ((r1.getD (3 + clamp_len_minus_one (r1.getD 1 0) GSM_MAX_SMSC_LEN) 0 &&& 0x03)
              % 256 = 0 ∨
           (r1.getD (3 + clamp_len_minus_one (r1.getD 1 0) GSM_MAX_SMSC_LEN) 0 &&& 0x03)
              % 256 = 1) →
        a.ret = SCSISIM_SUCCESS ∧ a.address_len = none ∧ a.address = none ∧
        a.charset = none ∧ a.date = none ∧ a.time = none ∧ a.num_septets = none ∧
        a.bytes_used = none ∧ a.message = none) := by
  have hsb := clamp_len_minus_one_bounds (r1.getD 1 0) GSM_MAX_SMSC_LEN (by decide)
  simp only [GSM_MAX_SMSC_LEN] at hsb
  obtain ⟨a, ha, hra⟩ := scsisim_parse_sms_ret r1 h1 _ _ _ rfl rfl rfl
  obtain ⟨b, hb, hrb⟩ := scsisim_parse_sms_ret r2 h2 _ _ _ rfl rfl rfl
  have hother : r1.getD 0 0 ≤ 7 → r1.getD 3 0 ≠ 0xff →
      ¬ ((r1.getD (3 + clamp_len_minus_one (r1.getD 1 0) GSM_MAX_SMSC_LEN) 0 &&& 0x03)
            % 256 = 0 ∨
         (r1.getD (3 + clamp_len_minus_one (r1.getD 1 0) GSM_MAX_SMSC_LEN) 0 &&& 0x03)
            % 256 = 1) →
      a.ret = SCSISIM_SUCCESS ∧ a.address_len = none ∧ a.address = none ∧
      a.charset = none ∧ a.date = none ∧ a.time = none ∧ a.num_septets = none ∧
      a.bytes_used = none ∧ a.message = none := by
    intro h0 h3 hk01
    obtain ⟨r0, e0, g1, -, g2, g3, g4, g5, g6, g7, g8, g9⟩ :=
      scsisim_parse_sms_other_kind r1 h1 h0 h3 _ _ rfl rfl hk01
    rw [ha] at e0
    cases Option.some.inj e0
    exact ⟨g1, g2, g3, g4, g5, g6, g7, g8, g9⟩
  simp only [GSM_MAX_SMSC_LEN] at hra hrb
  rw [← hagree 0 (by omega), ← hagree 3 (by omega), ← hagree 1 (by omega)] at hrb
  simp only [GSM_MAX_SMSC_LEN] at hother ⊢
  generalize clamp_len_minus_one (r1.getD 1 0) 10 = s at hsb hra hrb hother ⊢
  rw [← hagree (3 + s) (by omega)] at hrb
  generalize (r1.getD (3 + s) 0 &&& 0x03) % 256 = k at hra hrb hother ⊢
  have hidx : (if k = 1 then 3 + s + 1 + 1 else 3 + s + 1) < 16 := by
    split_ifs <;> omega
  rw [← hagree _ hidx] at hrb
  generalize (r1.getD (if k = 1 then 3 + s + 1 + 1 else 3 + s + 1) 0 + 1) / 2 = ad
    at hra hrb
  refine ⟨a, b, ha, hb, hra.trans hrb.symm, ?_, hother⟩
  rw [hra]
  split_ifs
  · exact Or.inr (Or.inl rfl)
  · exact Or.inr (Or.inr (Or.inl rfl))
  · exact Or.inr (Or.inr (Or.inr rfl))
  · exact Or.inl rfl
  · exact Or.inl rfl

set_option maxRecDepth 100000 in
/-- C40 (witness): two SMS-DELIVER records with the same first 16 bytes and different
bytes from offset 16 on both return Success. -/
theorem C40_sms_return_code_witness :
    ∃ a b,
      scsisim_parse_sms (some ([1, 7, 0x91, 0x21, 0x43, 0x65, 0x87, 0x09, 0xf1, 0x04,
        11, 0x91, 0x13, 0x32, 0x54, 0x76] ++ List.replicate 160 0xff)) = some a ∧
      scsisim_parse_sms (some ([1, 7, 0x91, 0x21, 0x43, 0x65, 0x87, 0x09, 0xf1, 0x04,
        11, 0x91, 0x13, 0x32, 0x54, 0x76] ++ List.replicate 160 0x00)) = some b ∧
      a.ret = b.ret := by
  obtain ⟨a, b, ha, hb, hab, -, -⟩ := C40_sms_return_code
    ([1, 7, 0x91, 0x21, 0x43, 0x65, 0x87, 0x09, 0xf1, 0x04,
      11, 0x91, 0x13, 0x32, 0x54, 0x76] ++ List.replicate 160 0xff)
    ([1, 7, 0x91, 0x21, 0x43, 0x65, 0x87, 0x09, 0xf1, 0x04,
      11, 0x91, 0x13, 0x32, 0x54, 0x76] ++ List.replicate 160 0x00)
    (by decide) (by decide) (by decide)
  exact ⟨a, b, ha, hb, hab⟩

/-! ## Theorems: the terminator of the mapped string -/

set_option maxRecDepth 100000 in
/-- No entry of the two tables contains a NUL byte. -/
theorem table_entries_nonzero :
    ∀ c < 0x80,
      (GSM_basic_charset[c]?).map (fun s => decide (0 ∉ c_str s)) = some true ∧
      (GSM_basic_charset_extension[c]?).map (fun s => decide (0 ∉ c_str s)) = some true := by
  decide

/-- Either table gives, for every index below `0x80`, a string without a NUL byte. -/
theorem table_entry_nonzero (esc : Bool) (c : Nat) (hc : c < 0x80) :
    ∃ str, (if esc = true then GSM_basic_charset_extension[c]? else GSM_basic_charset[c]?)
        = some str ∧ ∀ b ∈ c_str str, b ≠ 0 := by
  obtain ⟨h1, h2⟩ := table_entries_nonzero c hc
  cases esc
  · cases hb : GSM_basic_charset[c]? with
    | none => rw [hb] at h1; cases h1
    | some str =>
      rw [hb] at h1
      refine ⟨str, by simp, ?_⟩
      intro b hmem h0
      have : 0 ∉ c_str str := by simpa using h1
      exact this (h0 ▸ hmem)
  · cases hb : GSM_basic_charset_extension[c]? with
    | none => rw [hb] at h2; cases h2
    | some str =>
      rw [hb] at h2
      refine ⟨str, by simp, ?_⟩
      intro b hmem h0
      have : 0 ∉ c_str str := by simpa using h2
      exact this (h0 ▸ hmem)

/-- The buffer after a store that succeeds: the cells before `d`, the bytes stored, and
the cells after them. -/
theorem write_bytes_eq (bs : List Nat) : ∀ (buf buf' : List (Option Nat)) (d : Nat),
    write_bytes buf d bs = some buf' →
    buf' = buf.take d ++ bs.map some ++ buf.drop (d + bs.length) := by
  induction bs with
  | nil =>
    intro buf buf' d h
    simp only [write_bytes] at h
    cases h
    simp
  | cons b rest ih =>
    intro buf buf' d h
    simp only [write_bytes] at h
    by_cases hd : d < buf.length
    · rw [if_pos hd] at h
      rw [ih _ _ _ h]
      have h1 : (buf.set d (some b)).take (d + 1) = buf.take d ++ [some b] := by
        have hlt : (buf.take d).length = d := by rw [List.length_take]; omega
        rw [List.set_eq_take_append_cons_drop, if_pos hd]
        have := @List.take_left' _ (buf.take d ++ [some b]) (buf.drop (d + 1)) (d + 1)
          (by rw [List.length_append, hlt]; rfl)
        simpa using this
      have h2 : (buf.set d (some b)).drop (d + 1 + rest.length)
          = buf.drop (d + (rest.length + 1)) := by
        rw [List.drop_set_of_lt _ _ (by omega)]
        congr 1
        omega
      rw [h1, h2]
      simp
    · rw [if_neg hd] at h
      cases h

/-- Storing a table string and its NUL right after the bytes `str` that start the
buffer leaves a buffer that starts with `str`, the string, and the NUL. -/
theorem write_bytes_terminated (str bs : List Nat) (buf buf' : List (Option Nat))
    (hpre : buf.take str.length = str.map some)
    (h : write_bytes buf str.length (bs ++ [0]) = some buf') :
    ∃ tail, buf' = (str ++ bs).map some ++ some 0 :: tail := by
  refine ⟨buf.drop (str.length + (bs ++ [0]).length), ?_⟩
  rw [write_bytes_eq _ _ _ _ h, hpre]
  simp

/-- Once the buffer starts with a NUL-free string of `dest` bytes and its NUL, it does
so after every further run of the loop. -/
theorem map_gsm_loop_terminated (src : List Nat) : ∀ (st st' : map_state),
    map_gsm_loop src st = some st' →
    (∃ (str : List Nat) (tail : List (Option Nat)), st.buf = str.map some ++ some 0 :: tail ∧ str.length = st.dest ∧
      ∀ b ∈ str, b ≠ 0) →
    ∃ (str : List Nat) (tail : List (Option Nat)), st'.buf = str.map some ++ some 0 :: tail ∧ str.length = st'.dest ∧
      ∀ b ∈ str, b ≠ 0 := by
  induction src with
  | nil =>
    intro st st' h hk
    simp only [map_gsm_loop] at h
    cases h
    exact hk
  | cons c rest ih =>
    intro st st' h hk
    simp only [map_gsm_loop] at h
    by_cases hc : c > 0x7f
    · rw [if_pos hc] at h
      cases h
      exact hk
    · rw [if_neg hc] at h
      by_cases he : c = GSM_ESCAPE_CHAR
      · rw [if_pos he] at h
        exact ih _ _ h hk
      · rw [if_neg he] at h
        obtain ⟨s, hs, hnz⟩ := table_entry_nonzero st.escapeChar c (by omega)
        rw [hs] at h
        simp only [] at h
        cases hw : write_bytes st.buf st.dest (c_str s ++ [0]) with
        | none => rw [hw] at h; cases h
        | some buf =>
          rw [hw] at h
          simp only [] at h
          obtain ⟨str, tail, hbuf, hlen, hstr⟩ := hk
          rw [← hlen] at hw
          obtain ⟨tail', hb'⟩ := write_bytes_terminated str (c_str s) st.buf buf
            (by rw [hbuf]; exact List.take_left' (by rw [List.length_map])) hw
          refine ih _ _ h ⟨str ++ c_str s, tail', hb', ?_, ?_⟩
          · rw [List.length_append, hlen]
          · intro b hmem
            rcases List.mem_append.mp hmem with hm | hm
            · exact hstr b hm
            · exact hnz b hm

/-- From the start of the buffer, a run of the loop over a source whose valid prefix
holds a byte other than the escape byte ends with a buffer that starts with a NUL-free
string of `dest` bytes and its NUL. -/
theorem map_gsm_loop_mapped (src : List Nat) : ∀ (st st' : map_state),
    map_gsm_loop src st = some st' → st.dest = 0 →
    (∃ m ∈ src.takeWhile (fun c => decide (c ≤ 0x7f)), m ≠ GSM_ESCAPE_CHAR) →
    ∃ (str : List Nat) (tail : List (Option Nat)), st'.buf = str.map some ++ some 0 :: tail ∧ str.length = st'.dest ∧
      ∀ b ∈ str, b ≠ 0 := by
  induction src with
  | nil =>
    intro st st' _ _ hm
    obtain ⟨m, hmem, -⟩ := hm
    simp at hmem
  | cons c rest ih =>
    intro st st' h hd hm
    simp only [map_gsm_loop] at h
    by_cases hc : c > 0x7f
    · obtain ⟨m, hmem, -⟩ := hm
      have hdc : decide (c ≤ 0x7f) = false := by simp; omega
      rw [List.takeWhile_cons, hdc] at hmem
      simp at hmem
    · rw [if_neg hc] at h
      have hdc : decide (c ≤ 0x7f) = true := by simp; omega
      by_cases he : c = GSM_ESCAPE_CHAR
      · rw [if_pos he] at h
        refine ih _ _ h hd ?_
        obtain ⟨m, hmem, hne⟩ := hm
        rw [List.takeWhile_cons, hdc] at hmem
        simp only [if_true, List.mem_cons] at hmem
        rcases hmem with hm1 | hm1
        · exact absurd (hm1.trans he) hne
        · exact ⟨m, hm1, hne⟩
      · rw [if_neg he] at h
        obtain ⟨s, hs, hnz⟩ := table_entry_nonzero st.escapeChar c (by omega)
        rw [hs] at h
        simp only [] at h
        cases hw : write_bytes st.buf st.dest (c_str s ++ [0]) with
        | none => rw [hw] at h; cases h
        | some buf =>
          rw [hw] at h
          simp only [] at h
          rw [hd] at hw h
          obtain ⟨tail', hb'⟩ := write_bytes_terminated [] (c_str s) st.buf buf rfl hw
          refine map_gsm_loop_terminated rest _ _ h ⟨c_str s, tail', ?_, ?_, hnz⟩
          · simpa using hb'
          · simp

/-- When the valid prefix of the source holds a byte other than the escape byte, the
call on the source and the call on the prefix both return a buffer that starts with
the same NUL-terminated string. -/
theorem map_gsm_chars_string_mapped (src : List Nat)
    (hm : ∃ m ∈ src.takeWhile (fun c => decide (c ≤ 0x7f)), m ≠ GSM_ESCAPE_CHAR) :
    ∃ str r, c_string r = some str ∧
      scsisim_map_gsm_chars (some (src.takeWhile fun c => decide (c ≤ 0x7f)))
        = map_outcome.buffer r ∧
      scsisim_map_gsm_chars (some src) = map_outcome.buffer
        (r ++ List.replicate (4 * (src.length
          - (src.takeWhile fun c => decide (c ≤ 0x7f)).length)) none) ∧
      map_gsm_chars_string (some src) = some str ∧
      map_gsm_chars_string (some (src.takeWhile fun c => decide (c ≤ 0x7f))) = some str := by
  have hpne : src.takeWhile (fun c => decide (c ≤ 0x7f)) ≠ [] := by
    obtain ⟨m, hmem, -⟩ := hm
    exact List.ne_nil_of_mem hmem
  have hne : src ≠ [] := by
    intro h0
    rw [h0] at hpne
    exact hpne rfl
  obtain ⟨st, h1, h2⟩ := scsisim_map_gsm_chars_of_prefix src hne _ rfl
  obtain ⟨st', h1', h2'⟩ := scsisim_map_gsm_chars_of_prefix
    (src.takeWhile fun c => decide (c ≤ 0x7f)) hpne _ rfl
  rw [List.takeWhile_idem] at h1' h2'
  rw [h1] at h1'
  cases Option.some.inj h1'
  simp only [Nat.sub_self, Nat.mul_zero, List.replicate_zero, List.append_nil] at h2'
  obtain ⟨str, tail, hbuf, -, hnz⟩ := map_gsm_loop_mapped _ _ _ h1 rfl
    (by rw [List.takeWhile_idem]; exact hm)
  have hcs : c_string st.buf = some str := by
    rw [hbuf]
    exact c_string_chars str hnz tail
  refine ⟨str, st.buf, hcs, h2', h2, ?_, ?_⟩
  · unfold map_gsm_chars_string
    rw [h2]
    simp only []
    rw [c_string_append_none, hcs]
  · unfold map_gsm_chars_string
    rw [h2']
    exact hcs

/-- The valid prefix of a name followed by `0xff` padding is the name. -/
theorem takeWhile_name_padding (s : List Nat) (k : Nat) (hb : ∀ b ∈ s, b ≤ 0x7f) :
    (s ++ List.replicate k 0xff).takeWhile (fun c => decide (c ≤ 0x7f)) = s := by
  cases k with
  | zero =>
    rw [List.replicate_zero, List.append_nil, List.takeWhile_eq_self_iff]
    intro b hmem
    exact decide_eq_true (hb b hmem)
  | succ n =>
    rw [List.replicate_succ]
    exact takeWhile_valid s 0xff (List.replicate n 0xff) hb (by decide)

/-- The mapper on a name followed by `0xff` padding: the cells written are those of the
name alone, followed by four untouched cells per padding byte. -/
theorem scsisim_map_gsm_chars_padding (s : List Nat) (k : Nat) (hs : s ≠ [])
    (hb : ∀ b ∈ s, b ≤ 0x7f) :
    ∃ name0, scsisim_map_gsm_chars (some s) = map_outcome.buffer name0 ∧
      scsisim_map_gsm_chars (some (s ++ List.replicate k 0xff))
        = map_outcome.buffer (name0 ++ List.replicate (4 * k) none) := by
  obtain ⟨st, h1, h2⟩ := scsisim_map_gsm_chars_of_prefix (s ++ List.replicate k 0xff)
    (by simp [hs]) s.length (by rw [takeWhile_name_padding s k hb])
  obtain ⟨st0, h10, h20⟩ := scsisim_map_gsm_chars_of_prefix s hs s.length
    (by
      have := takeWhile_name_padding s 0 hb
      rw [List.replicate_zero, List.append_nil] at this
      rw [this])
  rw [takeWhile_name_padding s k hb] at h1
  have h0 := takeWhile_name_padding s 0 hb
  rw [List.replicate_zero, List.append_nil] at h0
  rw [h0, h1] at h10
  cases Option.some.inj h10
  refine ⟨st.buf, ?_, ?_⟩
  · rw [h20, Nat.sub_self, Nat.mul_zero, List.replicate_zero, List.append_nil]
  · rw [h2, List.length_append, List.length_replicate, Nat.add_sub_cancel_left]

/-- With at least one mapped character in the name, the name field `s` followed by `k`
bytes of `0xff` and the name field `s` alone are both parsed, and the two name buffers
start with the same NUL-terminated string. -/
theorem scsisim_parse_adn_name_padding (s num : List Nat) (k m : Nat)
    (hb : ∀ b ∈ s, b ≤ 0x7f) (hm : m ∈ s) (hne : m ≠ GSM_ESCAPE_CHAR)
    (hnum : num.length = 14) :
    ∃ r r0 name name0 str,
      scsisim_parse_adn (some (s ++ List.replicate k 0xff ++ num)) = some r ∧
      scsisim_parse_adn (some (s ++ num)) = some r0 ∧
      r.name = some (some name) ∧ r0.name = some (some name0) ∧
      name = name0 ++ List.replicate (4 * k) none ∧
      c_string name = some str ∧ c_string name0 = some str := by
  have hs : s ≠ [] := List.ne_nil_of_mem hm
  have hpos : 1 ≤ s.length := by
    cases s with
    | nil => exact absurd rfl hs
    | cons a l => simp
  have hfirst : ∀ rest : List Nat, (s ++ rest).getD 0 0 ≠ 0xff := by
    intro rest
    cases s with
    | nil => exact absurd rfl hs
    | cons a l =>
      have := hb a (List.mem_cons_self _ _)
      simp only [List.cons_append, List.getD_cons_zero]
      omega
  have hl1 : (s ++ List.replicate k 0xff ++ num).length = s.length + k + 14 := by
    rw [List.length_append, List.length_append, List.length_replicate, hnum]
  have hl0 : (s ++ num).length = s.length + 14 := by
    rw [List.length_append, hnum]
  have ht1 : (s ++ List.replicate k 0xff ++ num).take
      ((s ++ List.replicate k 0xff ++ num).length - 14) = s ++ List.replicate k 0xff := by
    rw [hl1, Nat.add_sub_cancel]
    apply List.take_left'
    rw [List.length_append, List.length_replicate]
  have ht0 : (s ++ num).take ((s ++ num).length - 14) = s := by
    rw [hl0, Nat.add_sub_cancel]
    exact List.take_left' rfl
  obtain ⟨-, -, -, name, hname, hp⟩ := scsisim_parse_adn_used
    (s ++ List.replicate k 0xff ++ num) (by omega)
    (by rw [List.append_assoc]; exact hfirst _) _ _ rfl rfl
  obtain ⟨-, -, -, name0, hname0, hp0⟩ := scsisim_parse_adn_used (s ++ num) (by omega)
    (hfirst _) _ _ rfl rfl
  rw [ht1] at hname
  rw [ht0] at hname0
  obtain ⟨n0, e0, e1⟩ := scsisim_map_gsm_chars_padding s k hs hb
  rw [hname0] at e0
  cases map_outcome.buffer.inj e0
  rw [hname] at e1
  cases map_outcome.buffer.inj e1
  have hself : s.takeWhile (fun c => decide (c ≤ 0x7f)) = s := by
    have := takeWhile_name_padding s 0 hb
    rwa [List.replicate_zero, List.append_nil] at this
  obtain ⟨str, r', hcs, hr', -, -, -⟩ := map_gsm_chars_string_mapped s
    ⟨m, by rw [hself]; exact hm, hne⟩
  rw [hself, hname0] at hr'
  cases map_outcome.buffer.inj hr'
  exact ⟨_, _, _, _, str, hp, hp0, rfl, rfl, rfl,
    by rw [c_string_append_none]; exact hcs, hcs⟩

set_option maxRecDepth 100000 in
/-- C31 (the code at the failing input): the name field of the record is handed to
`scsisim_map_gsm_chars` as it is.  For the name `[0x1b]` followed by two bytes of
`0xff`, and for the name `[0x1b]` alone, no character is mapped and nothing is stored:
the name buffers of 13 and of 5 cells come back as allocated, without a terminating
NUL, so no contact name can be read from either. -/
theorem C31_adn_name_unterminated :
    (scsisim_parse_adn (some ([0x1b, 0xff, 0xff] ++
        ([4, 0x81, 0x21, 0x43, 0xf5] ++ List.replicate 9 0xff)))).map (fun r => r.name)
      = some (some (some (List.replicate 13 none))) ∧
    (scsisim_parse_adn (some ([0x1b] ++
        ([4, 0x81, 0x21, 0x43, 0xf5] ++ List.replicate 9 0xff)))).map (fun r => r.name)
      = some (some (some (List.replicate 5 none))) ∧
    scsisim_map_gsm_chars (some [0x1b, 0xff, 0xff])
      = map_outcome.buffer (List.replicate 13 none) ∧
    c_string (List.replicate 13 none) = none ∧
    c_string (List.replicate 5 none) = none := by
  refine ⟨?_, ?_, rfl, rfl, rfl⟩
  · decide
  · decide

set_option maxRecDepth 100000 in
/-- C33 (counterexample): with `strip_sign_flag` set, only the last character is
removed when it is `f`.  The byte `0xff` alone gives the string "f"; the bytes `21 ff`
give "12f"; and the ten number bytes `21 43 ff .. ff` of an ADN record give "1234"
followed by fifteen `f` characters.  Each of these returned strings ends in `f`. -/
theorem C33_trailing_f_remains :
    packed_bcd_string (some [0xff]) true true false = some (c_str "f") ∧
    packed_bcd_string (some [0x21, 0xff]) true true true = some (c_str "12f") ∧
    packed_bcd_string (some ([0x21, 0x43] ++ List.replicate 8 0xff)) true true true
      = some (c_str "1234" ++ List.replicate 15 0x66) ∧
    (c_str "12f").getLast? = some 0x66 := by
  refine ⟨by decide, by decide, by decide, by decide⟩

set_option maxRecDepth 100000 in
/-- For a byte, both characters written are `'f'` exactly when the byte is `0xff`. -/
theorem bcd_byte_chars_ff :
    ∀ b < 256, ∀ le tel : Bool, (bcd_byte_chars b le tel = [0x66, 0x66] ↔ b = 0xff) := by
  decide

/-- C33 (amended): with `strip_sign_flag` set, for every non-empty input of bytes the
returned string is the characters written, or, when the last of them is `'f'`, those
characters without that last one; nothing else is removed.  So the returned string ends
with the character `'f'` exactly when the last input byte is `0xff`, and it does not
end with `'f'` for any other last byte. -/
theorem C33_strips_final_f (bcd : List Nat) (little_endian use_telecom_digits : Bool)
    (hne : bcd ≠ []) (hbytes : ∀ b ∈ bcd, b < 256) :
    ∃ str, packed_bcd_string (some bcd) little_endian true use_telecom_digits = some str ∧
      (str = bcd_emitted bcd little_endian use_telecom_digits ∨
        ((bcd_emitted bcd little_endian use_telecom_digits).getLast? = some 0x66 ∧
          str = (bcd_emitted bcd little_endian use_telecom_digits).dropLast)) ∧
      (str.getLast? = some 0x66 ↔ bcd.getLastD 0 = 0xff) ∧
      (bcd.getLastD 0 ≠ 0xff → str.getLast? ≠ some 0x66) := by
  obtain ⟨x, y, hxy, hem⟩ := bcd_emitted_last bcd hne little_endian use_telecom_digits
  have hlast : bcd.getLastD 0 < 256 := by
    rw [List.getLastD_eq_getLast?, List.getLast?_eq_getLast _ hne]
    exact hbytes _ (List.getLast_mem hne)
  have hff := bcd_byte_chars_ff _ hlast little_endian use_telecom_digits
  rw [hxy] at hff
  have hnz := bcd_emitted_ne_zero bcd hbytes little_endian use_telecom_digits
  have hstr := packed_bcd_string_of_emitted bcd little_endian true
    use_telecom_digits _ y hne hem (by rw [← hem]; exact hnz)
  have hgl : (bcd_emitted bcd little_endian use_telecom_digits).getLast? = some y := by
    rw [hem]; simp
  have hdl : (bcd_emitted bcd little_endian use_telecom_digits).dropLast
      = bcd_emitted bcd.dropLast little_endian use_telecom_digits ++ [x] := by
    rw [hem]; simp
  by_cases hy : y = 0x66
  · rw [if_pos ⟨rfl, hy⟩] at hstr
    have hiff : (bcd_emitted bcd.dropLast little_endian use_telecom_digits ++ [x]).getLast?
        = some 0x66 ↔ bcd.getLastD 0 = 0xff := by
      rw [← hff, hy]
      simp
    refine ⟨_, hstr, Or.inr ⟨by rw [hgl, hy], hdl.symm⟩, hiff, fun h hl => h (hiff.mp hl)⟩
  · rw [if_neg (fun h => hy h.2)] at hstr
    have hiff : ((bcd_emitted bcd.dropLast little_endian use_telecom_digits ++ [x])
        ++ [y]).getLast? = some 0x66 ↔ bcd.getLastD 0 = 0xff := by
      rw [← hff]
      simp [hy]
    refine ⟨_, hstr, Or.inl hem.symm, hiff, fun h hl => h (hiff.mp hl)⟩

set_option maxRecDepth 100000 in
/-- C33 (witness): the bytes `21 f3`, little-endian, give "123": the final `f` is
removed and the string does not end with `f`. -/
theorem C33_strips_final_f_witness :
    packed_bcd_string (some [0x21, 0xf3]) true true false = some (c_str "123") ∧
    (c_str "123").getLast? ≠ some 0x66 := by
  obtain ⟨str, h1, -, -, h2⟩ := C33_strips_final_f [0x21, 0xf3] true false (by decide)
    (by decide)
  have h0 : packed_bcd_string (some [0x21, 0xf3]) true true false = some (c_str "123") := by
    decide
  have hstr : str = c_str "123" := Option.some.inj (h1.symm.trans h0)
  rw [hstr] at h2
  exact ⟨h0, h2 (by decide)⟩

end Scsisim
